import Mathlib

/-!
# Pong: physics update and 4x4 matrix library

Shallow embedding of `src/main.c` (`simulatePhysics`, `drawRect`) and of
`src/lmath.h` (vectors, `mat4`, the transform builders).

The embedded functions are written once, over a type `F` that stands for the C type
`float` and carries the operations the source uses: the literals, `+`, `-`, `*`, `/`,
unary minus and the comparison `<`.  They are read in two arithmetics:

* exact arithmetic, `F` a linearly ordered field (the rationals for evaluation, the
  reals where `sinf`, `cosf`, `sqrtf` and `M_PI` are involved);
* binary32 arithmetic, `F = F32`: every operation rounds to nearest, ties to even,
  overflows to an infinity and propagates NaN.

The library functions `sqrtf`, `sinf`, `cosf` and the constant `M_PI` are parameters of
the definitions that use them.  The global variables of `main.c` are the fields of
`Game`.
-/

namespace Pong

section source

variable {F : Type} [Zero F] [One F] [NatCast F] [OfScientific F]
  [Add F] [Sub F] [Mul F] [Div F] [Neg F] [LT F] [(a b : F) → Decidable (a < b)]

/-! ## Data model (`main.c`, lines 18-41) -/

/-- The struct `Rect_t`: `offset[0]`, `offset[1]`, `extent[0]`, `extent[1]`. -/
@[ext]
structure Rect_t (F : Type) where
  offset0 : F
  offset1 : F
  extent0 : F
  extent1 : F
deriving DecidableEq, Repr

/-- The global simulation state of `main.c`. -/
@[ext]
structure Game (F : Type) where
  player1Dp : F
  player1DDp : F
  player2Dp : F
  player2DDp : F
  ballDX : F
  ballDY : F
  player1 : Rect_t F
  player2 : Rect_t F
  ball : Rect_t F
deriving DecidableEq, Repr

/-- The compound literal `(Rect_t){{0.0f, 0.0f}, {0.02f, 0.04f}}` of lines 150 and 156. -/
def ballReset : Rect_t F := ⟨0, 0, 0.02, 0.04⟩

/-! ## `simulatePhysics` (`main.c`, lines 99-180), block by block -/

/-- Lines 100-104: player 1 drag and integration. -/
def stepPlayer1 (s : Game F) (delta : F) : Game F :=
  let ddp := s.player1DDp - s.player1Dp * 10
  let off := s.player1.offset1 + s.player1Dp * delta + ddp * delta * delta * 0.5
  let dp := s.player1Dp + ddp * delta
  { s with player1DDp := ddp, player1 := { s.player1 with offset1 := off }, player1Dp := dp }

/-- Lines 106-110: player 2 drag and integration. -/
def stepPlayer2 (s : Game F) (delta : F) : Game F :=
  let ddp := s.player2DDp - s.player2Dp * 5
  let off := s.player2.offset1 + s.player2Dp * delta + ddp * delta * delta * 0.5
  let dp := s.player2Dp + ddp * delta
  { s with player2DDp := ddp, player2 := { s.player2 with offset1 := off }, player2Dp := dp }

/-- Lines 112-114: ball motion. -/
def stepBall (s : Game F) (delta : F) : Game F :=
  { s with ball := { s.ball with offset0 := s.ball.offset0 + s.ballDX * delta,
                                 offset1 := s.ball.offset1 + s.ballDY * delta } }

/-- The condition of the `if` of lines 117-120. -/
def hitsPlayer1 (s : Game F) : Prop :=
  s.ball.offset0 + s.ball.extent0 / 2 < s.player1.offset0 + s.player1.extent0 / 2 ∧
  s.ball.offset0 - s.ball.extent0 / 2 > s.player1.offset0 - s.player1.extent0 / 2 ∧
  s.ball.offset1 + s.ball.extent1 / 2 < s.player1.offset1 + s.player1.extent1 / 2 ∧
  s.ball.offset1 + s.ball.extent1 / 2 > s.player1.offset1 - s.player1.extent1 / 2

instance (s : Game F) : Decidable (hitsPlayer1 s) := by
  unfold hitsPlayer1; infer_instance

/-- The body of the `if` of lines 121-123. -/
def bouncePlayer1 (s : Game F) : Game F :=
  let x := s.player1.offset0 + s.player1.extent0 / 2
  { s with ball := { s.ball with offset0 := x },
           ballDX := s.ballDX * (-1.01),
           ballDY := (s.ball.offset1 - s.player1.offset1) * 2 + s.player1Dp * 0.75 }

/-- Lines 116-124: player 1 and ball collision. -/
def collidePlayer1 (s : Game F) : Game F :=
  if hitsPlayer1 s then bouncePlayer1 s else s

/-- The condition of the `if` of lines 127-130. -/
def hitsPlayer2 (s : Game F) : Prop :=
  s.ball.offset0 + s.ball.extent0 / 2 < s.player2.offset0 + s.player2.extent0 / 2 ∧
  s.ball.offset0 - s.ball.extent0 / 2 > s.player2.offset0 - s.player2.extent0 / 2 ∧
  s.ball.offset1 + s.ball.extent1 / 2 < s.player2.offset1 + s.player2.extent1 / 2 ∧
  s.ball.offset1 + s.ball.extent1 / 2 > s.player2.offset1 - s.player2.extent1 / 2

instance (s : Game F) : Decidable (hitsPlayer2 s) := by
  unfold hitsPlayer2; infer_instance

/-- The body of the `if` of lines 131-133. -/
def bouncePlayer2 (s : Game F) : Game F :=
  let x := s.player2.offset0 - s.player2.extent0 / 2
  { s with ball := { s.ball with offset0 := x },
           ballDX := s.ballDX * (-1.01),
           ballDY := (s.ball.offset1 - s.player2.offset1) * 2 + s.player2Dp * 0.75 }

/-- Lines 126-134: player 2 and ball collision. -/
def collidePlayer2 (s : Game F) : Game F :=
  if hitsPlayer2 s then bouncePlayer2 s else s

/-- Lines 137-140: the ball against the top of the arena. -/
def ballArenaTop (s : Game F) : Game F :=
  if s.ball.offset1 + s.ball.extent1 / 2 > 1 then
    { s with ball := { s.ball with offset1 := 1 - s.ball.extent1 / 2 },
             ballDY := s.ballDY * (-1) }
  else s

/-- Lines 141-144: the ball against the bottom of the arena. -/
def ballArenaBottom (s : Game F) : Game F :=
  if s.ball.offset1 - s.ball.extent1 / 2 < -1 then
    { s with ball := { s.ball with offset1 := -1 + s.ball.extent1 / 2 },
             ballDY := s.ballDY * (-1) }
  else s

/-- Lines 136-144: ball and arena collision. -/
def ballArena (s : Game F) : Game F := ballArenaBottom (ballArenaTop s)

/-- The assignments of lines 150-152 (and 156-158). -/
def resetBall (s : Game F) : Game F :=
  { s with ball := ballReset, ballDX := -1, ballDY := 0 }

/-- The condition of the `if` of line 149. -/
def player1Loses (s : Game F) : Prop := s.ball.offset0 - s.ball.extent0 / 2 < -1

/-- The condition of the `if` of line 155. -/
def player2Loses (s : Game F) : Prop := s.ball.offset0 + s.ball.extent0 / 2 > 1

instance (s : Game F) : Decidable (player1Loses s) := by
  unfold player1Loses; infer_instance

instance (s : Game F) : Decidable (player2Loses s) := by
  unfold player2Loses; infer_instance

/-- Lines 148-153: player 1 lose. -/
def player1Lose (s : Game F) : Game F := if player1Loses s then resetBall s else s

/-- Lines 154-159: player 2 lose. -/
def player2Lose (s : Game F) : Game F := if player2Loses s then resetBall s else s

/-- Lines 146-159: the lose condition. -/
def loseCondition (s : Game F) : Game F := player2Lose (player1Lose s)

/-- Lines 161-169: player 1 and arena collision. -/
def player1Arena (s : Game F) : Game F :=
  let s1 : Game F :=
    if s.player1.offset1 + s.player1.extent1 / 2 > 1 then
      { s with player1 := { s.player1 with offset1 := 1 - s.player1.extent1 / 2 },
               player1Dp := 0 }
    else s
  if s1.player1.offset1 - s1.player1.extent1 / 2 < -1 then
    { s1 with player1 := { s1.player1 with offset1 := -1 + s1.player1.extent1 / 2 },
              player1Dp := 0 }
  else s1

/-- Lines 171-179: player 2 and arena collision. -/
def player2Arena (s : Game F) : Game F :=
  let s1 : Game F :=
    if s.player2.offset1 + s.player2.extent1 / 2 > 1 then
      { s with player2 := { s.player2 with offset1 := 1 - s.player2.extent1 / 2 },
               player2Dp := 0 }
    else s
  if s1.player2.offset1 - s1.player2.extent1 / 2 < -1 then
    { s1 with player2 := { s1.player2 with offset1 := -1 + s1.player2.extent1 / 2 },
              player2Dp := 0 }
  else s1

/-- Lines 100-114: the motion step (both paddles, then the ball). -/
def motion (s : Game F) (delta : F) : Game F :=
  stepBall (stepPlayer2 (stepPlayer1 s delta) delta) delta

/-- Lines 100-134: motion, then the two paddle collisions. -/
def afterPaddles (s : Game F) (delta : F) : Game F :=
  collidePlayer2 (collidePlayer1 (motion s delta))

/-- Lines 100-144: motion, paddle collisions and the vertical walls. -/
def afterWalls (s : Game F) (delta : F) : Game F :=
  ballArena (afterPaddles s delta)

/-- The function `simulatePhysics` (lines 99-180). -/
def simulatePhysics (s : Game F) (delta : F) : Game F :=
  player2Arena (player1Arena (loseCondition (afterWalls s delta)))

/-- The state after `n` calls of `simulatePhysics` with the same `delta`. -/
def simulateN (s : Game F) (delta : F) : Nat → Game F
  | 0 => s
  | n + 1 => simulatePhysics (simulateN s delta n) delta

/-- The initialisers of lines 38-41 with the ball velocity of the scenario, `(-1, 0)`. -/
def scenarioStart : Game F :=
  { player1Dp := 0, player1DDp := 0, player2Dp := 0, player2DDp := 0,
    ballDX := -1, ballDY := 0,
    player1 := ⟨-0.95, 0, 0.04, 0.65⟩,
    player2 := ⟨0.95, 0, 0.04, 0.65⟩,
    ball := ⟨0, 0, 0.02, 0.04⟩ }

/-- The step from `s` takes the player 1 collision branch: the test of lines
117-120 passes on the state reached by the motion of lines 100-114. -/
def takesPlayer1Branch (s : Game F) (delta : F) : Prop := hitsPlayer1 (motion s delta)

/-- The step from `s` resets the ball: one of the two lose tests (lines 149, 155) passes. -/
def resetsBall (s : Game F) (delta : F) : Prop :=
  player1Loses (afterWalls s delta) ∨ player2Loses (player1Lose (afterWalls s delta))

instance (s : Game F) (delta : F) : Decidable (takesPlayer1Branch s delta) := by
  unfold takesPlayer1Branch; infer_instance

instance (s : Game F) (delta : F) : Decidable (resetsBall s delta) := by
  unfold resetsBall; infer_instance

/-- The scenario with the ball at `(-(k * delta), 0)`: the state after `k` steps of
free flight towards player 1. -/
def flight (delta : F) (k : Nat) : Game F :=
  { (scenarioStart : Game F) with ball := ⟨-(k * delta), 0, 0.02, 0.04⟩ }

/-- The scenario right after the bounce on player 1: the ball flush against the
paddle face at `-0.93`, moving right with `ballDX = 1.01`. -/
def bounced : Game F :=
  { (scenarioStart : Game F) with ball := ⟨-0.93, 0, 0.02, 0.04⟩, ballDX := 1.01 }

/-- The state `s` with the ball's centre moved to the abscissa `x`. -/
def withBallX (s : Game F) (x : F) : Game F := { s with ball := { s.ball with offset0 := x } }

/-- Player 1 moving up next to the top wall, player 2 moving down next to the bottom
wall, the ball moving up next to the top wall: each crosses its wall within `1/10`. -/
def edgeStart : Game ℚ :=
  { player1Dp := 3, player1DDp := 50, player2Dp := -3, player2DDp := -50,
    ballDX := 3, ballDY := 1,
    player1 := ⟨-0.95, 0.6, 0.04, 0.65⟩,
    player2 := ⟨0.95, -0.6, 0.04, 0.65⟩,
    ball := ⟨0, 0.95, 0.02, 0.04⟩ }

/-- The ball about to leave the arena on the right, with an upward velocity. -/
def exitStart : Game ℚ :=
  { player1Dp := 0, player1DDp := 0, player2Dp := 0, player2DDp := 0,
    ballDX := 2, ballDY := 1,
    player1 := ⟨-0.95, 0, 0.04, 0.65⟩,
    player2 := ⟨0.95, 0, 0.04, 0.65⟩,
    ball := ⟨0.98, 0.5, 0.02, 0.04⟩ }

/-- The state `edgeStart` with the two paddles exchanged: player 1 moving down next to
the bottom wall, player 2 moving up next to the top wall. -/
def edgeStartMirror : Game ℚ :=
  { player1Dp := -3, player1DDp := -50, player2Dp := 3, player2DDp := 50,
    ballDX := 3, ballDY := 1,
    player1 := ⟨-0.95, -0.6, 0.04, 0.65⟩,
    player2 := ⟨0.95, 0.6, 0.04, 0.65⟩,
    ball := ⟨0, 0.95, 0.02, 0.04⟩ }

/-- The scenario with the ball inside player 2's span after one step of `1/100`: at
`(0.94, 0)`, moving right. -/
def nearPlayer2 : Game ℚ :=
  { (scenarioStart : Game ℚ) with ball := ⟨0.94, 0, 0.02, 0.04⟩, ballDX := 1 }

/-- The scenario with the ball next to the bottom wall, moving down and to the right. -/
def lowBall : Game ℚ :=
  { (scenarioStart : Game ℚ) with ball := ⟨0, -0.95, 0.02, 0.04⟩, ballDX := 1, ballDY := -1 }

/-! ## Vectors (`lmath.h`, lines 47-215) -/

/-- The struct `vec3`. -/
structure vec3 (F : Type) where
  X : F
  Y : F
  Z : F
deriving DecidableEq, Repr

/-- The type `mat4`: sixteen floats, `m[0]` to `m[15]`. -/
abbrev mat4 (F : Type) := Fin 16 → F

/-- Line 68: `Radians`, with the constant `M_PI` as a parameter. -/
def Radians (M_PI : F) (degrees : F) : F := degrees * M_PI / 180

/-- Line 81: `V3`. -/
def V3 (x y z : F) : vec3 F := ⟨x, y, z⟩

/-- Line 92: `V3All`. -/
def V3All (v : F) : vec3 F := V3 v v v

/-- Line 104: `VecAdd`. -/
def VecAdd (first second : vec3 F) : vec3 F :=
  ⟨first.X + second.X, first.Y + second.Y, first.Z + second.Z⟩

/-- Line 120: `VecSub`. -/
def VecSub (first second : vec3 F) : vec3 F :=
  ⟨first.X - second.X, first.Y - second.Y, first.Z - second.Z⟩

/-- Line 136: `VecMul`. -/
def VecMul (first second : vec3 F) : vec3 F :=
  ⟨first.X * second.X, first.Y * second.Y, first.Z * second.Z⟩

/-- Line 152: `VecDiv`. -/
def VecDiv (first second : vec3 F) : vec3 F :=
  ⟨first.X / second.X, first.Y / second.Y, first.Z / second.Z⟩

/-- Line 168: `VecDot`. -/
def VecDot (first second : vec3 F) : F :=
  first.X * second.X + first.Y * second.Y + first.Z * second.Z

/-- Line 182: `VecCross`. -/
def VecCross (first second : vec3 F) : vec3 F :=
  ⟨first.Y * second.Z - second.Y * first.Z,
   first.Z * second.X - second.Z * first.X,
   first.X * second.Y - second.X * first.Y⟩

/-- Line 197: `VecLength`, with the library function `sqrtf` as a parameter. -/
def VecLength (sqrtf : F → F) (v : vec3 F) : F := sqrtf (VecDot v v)

/-- Line 208: `VecNormalize`. -/
def VecNormalize (sqrtf : F → F) (v : vec3 F) : vec3 F :=
  let len := VecLength sqrtf v
  ⟨v.X / len, v.Y / len, v.Z / len⟩

/-! ## Matrices (`lmath.h`, lines 217-406) -/

/-- The assignment `m[i] = x`. -/
def mat4.set (m : mat4 F) (i : Fin 16) (x : F) : mat4 F := Function.update m i x

/-- The initialiser `mat4 tmp = { 0 }`. -/
def mat4.zero : mat4 F := fun _ => 0

/-- Lines 224-229: the constant table `iden`. -/
def iden : mat4 F := ![1, 0, 0, 0,  0, 1, 0, 0,  0, 0, 1, 0,  0, 0, 0, 1]

/-- Lines 223-234: `MatIdentity`, the loop over `i = 0 .. 15`. -/
def MatIdentity (m : mat4 F) : mat4 F :=
  (List.finRange 16).foldl (fun m i => m.set i (iden i)) m

/-- Lines 246-250: the body of the loop of `MatMulMat` for one `i`; the four
reads of `first` come before the four writes, every write reads `second`. -/
def MatMulMat.body (second : mat4 F) (first : mat4 F) (i : Fin 16) : mat4 F :=
  let a0 := first i
  let a1 := first (i + 4)
  let a2 := first (i + 8)
  let a3 := first (i + 12)
  let first := first.set i (a0 * second 0 + a1 * second 1 + a2 * second 2 + a3 * second 3)
  let first := first.set (i + 4) (a0 * second 4 + a1 * second 5 + a2 * second 6 + a3 * second 7)
  let first := first.set (i + 8) (a0 * second 8 + a1 * second 9 + a2 * second 10 + a3 * second 11)
  let first := first.set (i + 12) (a0 * second 12 + a1 * second 13 + a2 * second 14 + a3 * second 15)
  first

/-- Lines 244-252: `MatMulMat` on two distinct arrays; the result is the new
content of `first` (`second` is only read). -/
def MatMulMat (first second : mat4 F) : mat4 F :=
  ([0, 1, 2, 3] : List (Fin 16)).foldl (MatMulMat.body second) first

/-! ## `MatMulMat` on a memory with two array addresses -/

/-- Lines 246-250 of `MatMulMat` on a memory: `first` and `second` are the addresses of
the two arrays, every read is made in the memory as the writes before it left it. -/
def MatMulMat.bodyInPlace (first second : Nat) (mem : Nat → F) (i : Nat) : Nat → F :=
  let a0 := mem (first + i)
  let a1 := mem (first + (i + 4))
  let a2 := mem (first + (i + 8))
  let a3 := mem (first + (i + 12))
  let mem := Function.update mem (first + i)
    (a0 * mem (second + 0) + a1 * mem (second + 1) + a2 * mem (second + 2) + a3 * mem (second + 3))
  let mem := Function.update mem (first + (i + 4))
    (a0 * mem (second + 4) + a1 * mem (second + 5) + a2 * mem (second + 6) + a3 * mem (second + 7))
  let mem := Function.update mem (first + (i + 8))
    (a0 * mem (second + 8) + a1 * mem (second + 9) + a2 * mem (second + 10) + a3 * mem (second + 11))
  let mem := Function.update mem (first + (i + 12))
    (a0 * mem (second + 12) + a1 * mem (second + 13) + a2 * mem (second + 14) + a3 * mem (second + 15))
  mem

/-- Lines 244-252: `MatMulMat` on a memory, for any two addresses. -/
def MatMulMat.inPlace (first second : Nat) (mem : Nat → F) : Nat → F :=
  ([0, 1, 2, 3] : List Nat).foldl (MatMulMat.bodyInPlace first second) mem

/-- The array of sixteen floats at address `p`. -/
def mat4.load (mem : Nat → F) (p : Nat) : mat4 F := fun i => mem (p + i.val)

/-- A memory holding the float `a` at every address `a`. -/
def countingMem : Nat → ℚ := fun a => (a : ℚ)

/-- Lines 261-266: `MatTranslate`. -/
def MatTranslate (m : mat4 F) (v : vec3 F) : mat4 F :=
  let m := m.set 12 (m 0 * v.X + m 4 * v.Y + m 8 * v.Z + m 12)
  let m := m.set 13 (m 1 * v.X + m 5 * v.Y + m 9 * v.Z + m 13)
  let m := m.set 14 (m 2 * v.X + m 6 * v.Y + m 10 * v.Z + m 14)
  let m := m.set 15 (m 3 * v.X + m 7 * v.Y + m 11 * v.Z + m 15)
  m

/-- Lines 275-280: `MatScale`. -/
def MatScale (m : mat4 F) (v : vec3 F) : mat4 F :=
  let m := m.set 0 (m 0 * v.X)
  let m := m.set 4 (m 4 * v.Y)
  let m := m.set 8 (m 8 * v.Z)
  let m := m.set 1 (m 1 * v.X)
  let m := m.set 5 (m 5 * v.Y)
  let m := m.set 9 (m 9 * v.Z)
  let m := m.set 2 (m 2 * v.X)
  let m := m.set 6 (m 6 * v.Y)
  let m := m.set 10 (m 10 * v.Z)
  let m := m.set 3 (m 3 * v.X)
  let m := m.set 7 (m 7 * v.Y)
  let m := m.set 11 (m 11 * v.Z)
  m

/-- Lines 294-327 of `MatRotate`: the matrix `tmp` built from the axis length
`len`, the angle `d` and the axis `a`. The array `tmp` is uninitialised before
`MatIdentity(tmp)`, which overwrites all of it; it starts here as `mat4.zero`. -/
def MatRotate.tmp (sinf cosf : F → F) (M_PI : F) (len d : F) (a : vec3 F) : mat4 F :=
  let x := a.X / len
  let y := a.Y / len
  let z := a.Z / len
  let rad := Radians M_PI d
  let s := sinf rad
  let c := cosf rad
  let xx := x * x
  let yy := y * y
  let zz := z * z
  let xy := x * y
  let yz := y * z
  let zx := z * x
  let xs := x * s
  let ys := y * s
  let zs := z * s
  let onec := 1 - c
  let tmp := MatIdentity mat4.zero
  let tmp := tmp.set 0 ((onec * xx) + c)
  let tmp := tmp.set 4 ((onec * xy) - zs)
  let tmp := tmp.set 8 ((onec * zx) + ys)
  let tmp := tmp.set 1 ((onec * xy) + zs)
  let tmp := tmp.set 5 ((onec * yy) + c)
  let tmp := tmp.set 9 ((onec * yz) - xs)
  let tmp := tmp.set 2 ((onec * zx) - ys)
  let tmp := tmp.set 6 ((onec * yz) + xs)
  let tmp := tmp.set 10 ((onec * zz) + c)
  tmp

/-- Lines 290-331: `MatRotate`, with `sqrtf`, `sinf`, `cosf` and `M_PI` as parameters. -/
def MatRotate (sqrtf sinf cosf : F → F) (M_PI : F) (m : mat4 F) (d : F) (a : vec3 F) : mat4 F :=
  let len := VecLength sqrtf a
  if len > 1e-4 then
    MatMulMat m (MatRotate.tmp sinf cosf M_PI len d a)
  else m

/-- Lines 290-331: `MatRotate` together with the divisions it performs, each as the pair
(dividend, divisor), in program order: the three divisions by the axis length of lines
294-296 and the division of `Radians` (line 298, `lmath.h` line 69), all inside the `if`;
no division is made outside it. -/
def MatRotate.traced (sqrtf sinf cosf : F → F) (M_PI : F) (m : mat4 F) (d : F) (a : vec3 F) :
    mat4 F × List (F × F) :=
  let len := VecLength sqrtf a
  if len > 1e-4 then
    (MatMulMat m (MatRotate.tmp sinf cosf M_PI len d a),
      [(a.X, len), (a.Y, len), (a.Z, len), (d * M_PI, 180)])
  else (m, [])

/-- Lines 340-348 of `MatOrtho`: the matrix `tmp`. -/
def MatOrtho.tmp (left right bottom top n f : F) : mat4 F :=
  let tmp : mat4 F := mat4.zero
  let tmp := tmp.set 0 (2 / (right - left))
  let tmp := tmp.set 5 (2 / (top - bottom))
  let tmp := tmp.set 10 (-2 / (f - n))
  let tmp := tmp.set 12 (-(right + left) / (right / left))
  let tmp := tmp.set 13 (-(top + bottom) / (top - bottom))
  let tmp := tmp.set 14 (-(f + n) / (f - n))
  let tmp := tmp.set 15 1
  tmp

/-- Lines 339-351: `MatOrtho`. -/
def MatOrtho (m : mat4 F) (left right bottom top n f : F) : mat4 F :=
  MatMulMat m (MatOrtho.tmp left right bottom top n f)

/-- Lines 360-379 of `MatFrustum`: the matrix `tmp`. -/
def MatFrustum.tmp (left right bottom top n f : F) : mat4 F :=
  let tmp : mat4 F := mat4.zero
  let x := (2 * n) / (right - left)
  let y := (2 * n) / (top - bottom)
  let a := (right + left) / (right - left)
  let b := (top + bottom) / (top - bottom)
  let c := -(f + n) / (f - n)
  let d := -(2 * f * n) / (f - n)
  let tmp := tmp.set 0 x
  let tmp := tmp.set 5 y
  let tmp := tmp.set 8 a
  let tmp := tmp.set 9 b
  let tmp := tmp.set 10 c
  let tmp := tmp.set 11 (-1)
  let tmp := tmp.set 14 d
  let tmp := tmp.set 15 0
  tmp

/-- Lines 359-382: `MatFrustum`. -/
def MatFrustum (m : mat4 F) (left right bottom top n f : F) : mat4 F :=
  MatMulMat m (MatFrustum.tmp left right bottom top n f)

/-- Lines 394-403 of `MatLookAt`: the matrix `tmp`. -/
def MatLookAt.tmp (sqrtf : F → F) (pos target up : vec3 F) : mat4 F :=
  let zaxis := VecNormalize sqrtf (VecSub pos target)
  let xaxis := VecNormalize sqrtf (VecCross up zaxis)
  let yaxis := VecCross zaxis xaxis
  ![xaxis.X, yaxis.X, zaxis.X, 0,
    xaxis.Y, yaxis.Y, zaxis.Y, 0,
    xaxis.Z, yaxis.Z, zaxis.Z, 0,
    -VecDot xaxis pos, -VecDot yaxis pos, -VecDot zaxis pos, 1]

/-- Lines 393-406: `MatLookAt`. -/
def MatLookAt (sqrtf : F → F) (m : mat4 F) (pos target up : vec3 F) : mat4 F :=
  MatMulMat m (MatLookAt.tmp sqrtf pos target up)

/-- Lines 183-185 of `drawRect` (`main.c`): the value of `transform` passed to the shader. -/
def drawRect (transform : mat4 F) (rect : Rect_t F) : mat4 F :=
  let transform := MatIdentity transform
  let transform := MatTranslate transform (V3 rect.offset0 rect.offset1 0)
  let transform := MatScale transform (V3 rect.extent0 rect.extent1 1)
  transform

/-- The matrix `diag(2, 1, 1, 1)`, obtained by `MatScale` from the identity. -/
def scaledX : mat4 ℚ := MatScale iden (V3 2 1 1)

/-- Column-major index of row `i`, column `j`: the entry `m[i + 4*j]`. -/
def ix (i j : Fin 4) : Fin 16 := ⟨i.val + 4 * j.val, by omega⟩

/-- Line 394 of `MatLookAt`: the local `zaxis`. -/
def MatLookAt.zaxis (sqrtf : F → F) (pos target : vec3 F) : vec3 F :=
  VecNormalize sqrtf (VecSub pos target)

/-- Line 395 of `MatLookAt`: the local `xaxis`. -/
def MatLookAt.xaxis (sqrtf : F → F) (pos target up : vec3 F) : vec3 F :=
  VecNormalize sqrtf (VecCross up (MatLookAt.zaxis sqrtf pos target))

/-- Line 396 of `MatLookAt`: the local `yaxis`. -/
def MatLookAt.yaxis (sqrtf : F → F) (pos target up : vec3 F) : vec3 F :=
  VecCross (MatLookAt.zaxis sqrtf pos target) (MatLookAt.xaxis sqrtf pos target up)

/-- Lines 224-229 of `main` (`main.c`): the four vertices of the unit quad. -/
def vertices : List (vec3 F) :=
  [⟨-0.5, -0.5, 0⟩, ⟨0.5, -0.5, 0⟩, ⟨-0.5, 0.5, 0⟩, ⟨0.5, 0.5, 0⟩]

end source

/-! ## Binary32 arithmetic

The values of a C `float` on the target (IEEE 754 binary32): a finite value is kept as
the rational number it stands for, the two zeros are not told apart.  An operation on
finite values computes the exact rational result and rounds it: to nearest, ties to
even, with 24 significant bits, a smallest place of `2 ^ (-149)` (subnormal numbers)
and overflow to an infinity from `2 ^ 128` on.  Every operation of the source rounds on
its own (`float` expressions are evaluated in `float`, no fused multiply-add), and a
literal is the binary32 number nearest to its decimal value.  Operations on an infinity
or a NaN follow the IEEE rules; a comparison with a NaN is false; a quotient by zero
has the sign of its dividend.

The constant `1e-4` of `MatRotate` is a `double` in the source, and `len > 1e-4` is
evaluated in `double`; read in binary32 the constant is `0x1.a36e2ep-14`, the binary32
number next below `1e-4`, and the test has the same outcome for every `float` value of
`len`, since no binary32 number lies between the two constants. -/

/-- A binary32 value: a finite number, an infinity with its sign, or a NaN. -/
inductive F32 where
  | fin (q : ℚ)
  | inf (neg : Bool)
  | nan
deriving DecidableEq, Repr

namespace F32

/-- The number of binary digits of `n`, by at most `fuel` halvings. -/
def bitsAux : Nat → Nat → Nat
  | 0, _ => 0
  | fuel + 1, n => if n = 0 then 0 else bitsAux fuel (n / 2) + 1

/-- The number of binary digits of `n`. -/
def bits (n : Nat) : Nat := bitsAux n n

/-- The binary exponent of `q > 0`: the `E` with `2 ^ E ≤ q < 2 ^ (E + 1)`. -/
def exponent (q : ℚ) : ℤ :=
  let e0 : ℤ := (bits q.num.natAbs : ℤ) - (bits q.den : ℤ)
  if (2 : ℚ) ^ e0 ≤ q then e0 else e0 - 1

/-- The exponent of the last place of the binary32 numbers next to `q`. -/
def quantum (q : ℚ) : ℤ := max (exponent |q| - 23) (-149)

/-- The integer nearest to `x`, the even one of the two when `x` is half way. -/
def rne (x : ℚ) : ℤ :=
  let n := ⌊x⌋
  let f := x - n
  if f < 1 / 2 then n else if 1 / 2 < f then n + 1 else if n % 2 = 0 then n else n + 1

/-- Rounding to binary32: the multiple of `2 ^ quantum q` nearest to `q` (the even one when
`q` is half way), an infinity when that is `2 ^ 128` or more in absolute value. -/
def round (q : ℚ) : F32 :=
  let p := quantum q
  let v := (rne (q / 2 ^ p) : ℚ) * 2 ^ p
  if (2 : ℚ) ^ (128 : ℤ) ≤ |v| then inf (decide (v < 0)) else fin v

/-- The sum: rounded for finite operands; `inf - inf` is a NaN. -/
def add : F32 → F32 → F32
  | fin a, fin b => round (a + b)
  | fin _, inf s => inf s
  | inf s, fin _ => inf s
  | inf s, inf t => if s = t then inf s else nan
  | _, _ => nan

/-- The opposite. -/
def neg : F32 → F32
  | fin a => fin (-a)
  | inf s => inf (!s)
  | nan => nan

/-- The difference. -/
def sub (a b : F32) : F32 := add a (neg b)

/-- The product: rounded for finite operands; `0 * inf` is a NaN. -/
def mul : F32 → F32 → F32
  | fin a, fin b => round (a * b)
  | fin a, inf s => if a = 0 then nan else inf (xor (decide (a < 0)) s)
  | inf s, fin b => if b = 0 then nan else inf (xor s (decide (b < 0)))
  | inf s, inf t => inf (xor s t)
  | _, _ => nan

/-- The quotient: rounded for finite operands with a divisor other than 0; `0 / 0` and
`inf / inf` are NaN, `x / 0` is an infinity for `x` other than 0, `x / inf` is 0 for a
finite `x`. -/
def div : F32 → F32 → F32
  | fin a, fin b => if b = 0 then (if a = 0 then nan else inf (decide (a < 0))) else round (a / b)
  | fin _, inf _ => fin 0
  | inf s, fin b => inf (xor s (decide (b < 0)))
  | _, _ => nan

/-- The comparison `<`. -/
def lt : F32 → F32 → Bool
  | fin a, fin b => decide (a < b)
  | fin _, inf s => !s
  | inf s, fin _ => s
  | inf s, inf t => s && !t
  | _, _ => false

/-- The digits of the integer square root of `x` below `2 ^ k`, added to `r`. -/
def sqrtAux (x : Nat) : Nat → Nat → Nat
  | 0, r => r
  | k + 1, r => sqrtAux x k (if (r + 2 ^ k) * (r + 2 ^ k) ≤ x then r + 2 ^ k else r)

/-- The integer square root of `x`. -/
def isqrt (x : Nat) : Nat := sqrtAux x (bits x) 0

/-- The function `sqrtf`: the square root rounded to binary32, `+inf` for `+inf`, a NaN
for a NaN or a negative number. -/
def sqrt : F32 → F32
  | fin q =>
    if q < 0 then nan else if q = 0 then fin 0 else
      let p : ℤ := exponent q / 2 - 23
      let x : ℚ := q / 4 ^ p
      let n : ℤ := isqrt ⌊x⌋.toNat
      let h : ℚ := n + 1 / 2
      let n1 : ℤ := if x < h * h then n else if h * h < x then n + 1 else if n % 2 = 0 then n else n + 1
      fin (n1 * 2 ^ p)
  | inf s => if s then nan else inf false
  | nan => nan

/-- The comparison `<=`. -/
def le : F32 → F32 → Bool
  | fin a, fin b => decide (a ≤ b)
  | fin _, inf s => !s
  | inf s, fin _ => s
  | inf s, inf t => s || !t
  | _, _ => false

instance : Zero F32 := ⟨fin 0⟩
instance : One F32 := ⟨fin 1⟩
instance : NatCast F32 := ⟨fun n => round n⟩
instance : Add F32 := ⟨add⟩
instance : Sub F32 := ⟨sub⟩
instance : Mul F32 := ⟨mul⟩
instance : Div F32 := ⟨div⟩
instance : Neg F32 := ⟨neg⟩
instance : LT F32 := ⟨fun a b => lt a b = true⟩
instance (a b : F32) : Decidable (a < b) := inferInstanceAs (Decidable (lt a b = true))
instance : LE F32 := ⟨fun a b => le a b = true⟩
instance (a b : F32) : Decidable (a ≤ b) := inferInstanceAs (Decidable (le a b = true))
instance : OfScientific F32 := ⟨fun m s e => round (OfScientific.ofScientific m s e)⟩

end F32

/-- The scenario with player 1 moving at the finite velocity `3e38f`. -/
def overflowStart : Game F32 := { (scenarioStart : Game F32) with player1Dp := 3e38 }

/-- The state `edgeStart` with every number rounded to binary32. -/
def edgeStartBinary32 : Game F32 :=
  { player1Dp := 3, player1DDp := 50, player2Dp := -3, player2DDp := -50,
    ballDX := 3, ballDY := 1,
    player1 := ⟨-0.95, 0.6, 0.04, 0.65⟩,
    player2 := ⟨0.95, -0.6, 0.04, 0.65⟩,
    ball := ⟨0, 0.95, 0.02, 0.04⟩ }

variable {F : Type} [LinearOrderedField F]

/-! ## Reference matrices of the specification -/

/-- The translation matrix of the specification: the identity matrix with
entries 12, 13, 14 set to `v.X`, `v.Y`, `v.Z`. -/
def translationMatrix (v : vec3 F) : mat4 F :=
  ((iden.set 12 v.X).set 13 v.Y).set 14 v.Z

/-- The standard orthographic projection matrix of the specification, whose
entry 12 is `-(right+left)/(right-left)`. -/
def orthoStandard (left right bottom top n f : F) : mat4 F :=
  ![2 / (right - left), 0, 0, 0,
    0, 2 / (top - bottom), 0, 0,
    0, 0, -2 / (f - n), 0,
    -(right + left) / (right - left), -(top + bottom) / (top - bottom), -(f + n) / (f - n), 1]

/-- The point `(v.X, v.Y, v.Z, 1)` in homogeneous coordinates. -/
def point (v : vec3 F) : Fin 4 → F := ![v.X, v.Y, v.Z, 1]

/-- A matrix applied to a column vector: `out[i]` is the sum over `j` of
`V[i + 4*j] * p[j]`. -/
def mat4.mulVec (V : mat4 F) (p : Fin 4 → F) : Fin 4 → F :=
  fun i => ∑ j : Fin 4, V (ix i j) * p j

/-- The standard perspective (`glFrustum`) matrix of the specification. -/
def frustumStandard (left right bottom top n f : F) : mat4 F :=
  ![2 * n / (right - left), 0, 0, 0,
    0, 2 * n / (top - bottom), 0, 0,
    (right + left) / (right - left), (top + bottom) / (top - bottom), -(f + n) / (f - n), -1,
    0, 0, -(2 * f * n) / (f - n), 0]

/-- The scaling matrix of the specification: `diag(v.X, v.Y, v.Z, 1)`. -/
def scaleMatrix (v : vec3 F) : mat4 F :=
  ![v.X, 0, 0, 0,
    0, v.Y, 0, 0,
    0, 0, v.Z, 0,
    0, 0, 0, 1]

/-- Column `j` of a matrix without its fourth entry: `(R[4*j], R[1 + 4*j], R[2 + 4*j])`. -/
def mat4.column (R : mat4 F) (j : Fin 4) : vec3 F := ⟨R (ix 0 j), R (ix 1 j), R (ix 2 j)⟩

/-- A rotation matrix: the three columns of the 3x3 block have length 1, are mutually
orthogonal and right-handed (the third is the cross product of the first two), and the
fourth row and the fourth column are those of the identity. -/
def mat4.IsRotation (R : mat4 F) : Prop :=
  VecDot (R.column 0) (R.column 0) = 1 ∧ VecDot (R.column 1) (R.column 1) = 1 ∧
  VecDot (R.column 2) (R.column 2) = 1 ∧
  VecDot (R.column 0) (R.column 1) = 0 ∧ VecDot (R.column 1) (R.column 2) = 0 ∧
  VecDot (R.column 2) (R.column 0) = 0 ∧
  VecCross (R.column 0) (R.column 1) = R.column 2 ∧
  R 3 = 0 ∧ R 7 = 0 ∧ R 11 = 0 ∧ R 12 = 0 ∧ R 13 = 0 ∧ R 14 = 0 ∧ R 15 = 1

instance (R : mat4 F) : Decidable R.IsRotation := by
  unfold mat4.IsRotation; infer_instance

/-- The image of `v` under the rotation about the unit vector `u` whose angle has
cosine `c` and sine `s` (the formula of Rodrigues):
`c v + s (u x v) + (1 - c) (u . v) u`. -/
def rotateAbout (u : vec3 F) (c s : F) (v : vec3 F) : vec3 F :=
  VecAdd (VecAdd (VecMul (V3All c) v) (VecMul (V3All s) (VecCross u v)))
    (VecMul (V3All ((1 - c) * VecDot u v)) u)

/-! ## Frame lemmas: what each block of `simulatePhysics` leaves alone -/

section frames

variable (s : Game F) (delta : F)

@[simp] theorem collidePlayer1_player1 : (collidePlayer1 s).player1 = s.player1 := by
  unfold collidePlayer1; split_ifs <;> rfl

@[simp] theorem collidePlayer1_player2 : (collidePlayer1 s).player2 = s.player2 := by
  unfold collidePlayer1; split_ifs <;> rfl

@[simp] theorem collidePlayer1_player1Dp : (collidePlayer1 s).player1Dp = s.player1Dp := by
  unfold collidePlayer1; split_ifs <;> rfl

@[simp] theorem collidePlayer1_player1DDp : (collidePlayer1 s).player1DDp = s.player1DDp := by
  unfold collidePlayer1; split_ifs <;> rfl

@[simp] theorem collidePlayer1_player2Dp : (collidePlayer1 s).player2Dp = s.player2Dp := by
  unfold collidePlayer1; split_ifs <;> rfl

@[simp] theorem collidePlayer1_player2DDp : (collidePlayer1 s).player2DDp = s.player2DDp := by
  unfold collidePlayer1; split_ifs <;> rfl

@[simp] theorem collidePlayer1_ball_offset1 : (collidePlayer1 s).ball.offset1 = s.ball.offset1 := by
  unfold collidePlayer1; split_ifs <;> rfl

@[simp] theorem collidePlayer1_ball_extent0 : (collidePlayer1 s).ball.extent0 = s.ball.extent0 := by
  unfold collidePlayer1; split_ifs <;> rfl

@[simp] theorem collidePlayer1_ball_extent1 : (collidePlayer1 s).ball.extent1 = s.ball.extent1 := by
  unfold collidePlayer1; split_ifs <;> rfl

@[simp] theorem collidePlayer2_player1 : (collidePlayer2 s).player1 = s.player1 := by
  unfold collidePlayer2; split_ifs <;> rfl

@[simp] theorem collidePlayer2_player2 : (collidePlayer2 s).player2 = s.player2 := by
  unfold collidePlayer2; split_ifs <;> rfl

@[simp] theorem collidePlayer2_player1Dp : (collidePlayer2 s).player1Dp = s.player1Dp := by
  unfold collidePlayer2; split_ifs <;> rfl

@[simp] theorem collidePlayer2_player1DDp : (collidePlayer2 s).player1DDp = s.player1DDp := by
  unfold collidePlayer2; split_ifs <;> rfl

@[simp] theorem collidePlayer2_player2Dp : (collidePlayer2 s).player2Dp = s.player2Dp := by
  unfold collidePlayer2; split_ifs <;> rfl

@[simp] theorem collidePlayer2_player2DDp : (collidePlayer2 s).player2DDp = s.player2DDp := by
  unfold collidePlayer2; split_ifs <;> rfl

@[simp] theorem collidePlayer2_ball_offset1 : (collidePlayer2 s).ball.offset1 = s.ball.offset1 := by
  unfold collidePlayer2; split_ifs <;> rfl

@[simp] theorem collidePlayer2_ball_extent0 : (collidePlayer2 s).ball.extent0 = s.ball.extent0 := by
  unfold collidePlayer2; split_ifs <;> rfl

@[simp] theorem collidePlayer2_ball_extent1 : (collidePlayer2 s).ball.extent1 = s.ball.extent1 := by
  unfold collidePlayer2; split_ifs <;> rfl

@[simp] theorem ballArenaTop_player1 : (ballArenaTop s).player1 = s.player1 := by
  unfold ballArenaTop; split_ifs <;> rfl

@[simp] theorem ballArenaTop_player2 : (ballArenaTop s).player2 = s.player2 := by
  unfold ballArenaTop; split_ifs <;> rfl

@[simp] theorem ballArenaTop_player1Dp : (ballArenaTop s).player1Dp = s.player1Dp := by
  unfold ballArenaTop; split_ifs <;> rfl

@[simp] theorem ballArenaTop_player1DDp : (ballArenaTop s).player1DDp = s.player1DDp := by
  unfold ballArenaTop; split_ifs <;> rfl

@[simp] theorem ballArenaTop_player2Dp : (ballArenaTop s).player2Dp = s.player2Dp := by
  unfold ballArenaTop; split_ifs <;> rfl

@[simp] theorem ballArenaTop_player2DDp : (ballArenaTop s).player2DDp = s.player2DDp := by
  unfold ballArenaTop; split_ifs <;> rfl

@[simp] theorem ballArenaTop_ballDX : (ballArenaTop s).ballDX = s.ballDX := by
  unfold ballArenaTop; split_ifs <;> rfl

@[simp] theorem ballArenaTop_ball_offset0 : (ballArenaTop s).ball.offset0 = s.ball.offset0 := by
  unfold ballArenaTop; split_ifs <;> rfl

@[simp] theorem ballArenaTop_ball_extent0 : (ballArenaTop s).ball.extent0 = s.ball.extent0 := by
  unfold ballArenaTop; split_ifs <;> rfl

@[simp] theorem ballArenaTop_ball_extent1 : (ballArenaTop s).ball.extent1 = s.ball.extent1 := by
  unfold ballArenaTop; split_ifs <;> rfl

@[simp] theorem ballArenaBottom_player1 : (ballArenaBottom s).player1 = s.player1 := by
  unfold ballArenaBottom; split_ifs <;> rfl

@[simp] theorem ballArenaBottom_player2 : (ballArenaBottom s).player2 = s.player2 := by
  unfold ballArenaBottom; split_ifs <;> rfl

@[simp] theorem ballArenaBottom_player1Dp : (ballArenaBottom s).player1Dp = s.player1Dp := by
  unfold ballArenaBottom; split_ifs <;> rfl

@[simp] theorem ballArenaBottom_player1DDp : (ballArenaBottom s).player1DDp = s.player1DDp := by
  unfold ballArenaBottom; split_ifs <;> rfl

@[simp] theorem ballArenaBottom_player2Dp : (ballArenaBottom s).player2Dp = s.player2Dp := by
  unfold ballArenaBottom; split_ifs <;> rfl

@[simp] theorem ballArenaBottom_player2DDp : (ballArenaBottom s).player2DDp = s.player2DDp := by
  unfold ballArenaBottom; split_ifs <;> rfl

@[simp] theorem ballArenaBottom_ballDX : (ballArenaBottom s).ballDX = s.ballDX := by
  unfold ballArenaBottom; split_ifs <;> rfl

@[simp] theorem ballArenaBottom_ball_offset0 : (ballArenaBottom s).ball.offset0 = s.ball.offset0 := by
  unfold ballArenaBottom; split_ifs <;> rfl

@[simp] theorem ballArenaBottom_ball_extent0 : (ballArenaBottom s).ball.extent0 = s.ball.extent0 := by
  unfold ballArenaBottom; split_ifs <;> rfl

@[simp] theorem ballArenaBottom_ball_extent1 : (ballArenaBottom s).ball.extent1 = s.ball.extent1 := by
  unfold ballArenaBottom; split_ifs <;> rfl

@[simp] theorem player1Lose_player1 : (player1Lose s).player1 = s.player1 := by
  unfold player1Lose; split_ifs <;> rfl

@[simp] theorem player1Lose_player2 : (player1Lose s).player2 = s.player2 := by
  unfold player1Lose; split_ifs <;> rfl

@[simp] theorem player1Lose_player1Dp : (player1Lose s).player1Dp = s.player1Dp := by
  unfold player1Lose; split_ifs <;> rfl

@[simp] theorem player1Lose_player1DDp : (player1Lose s).player1DDp = s.player1DDp := by
  unfold player1Lose; split_ifs <;> rfl

@[simp] theorem player1Lose_player2Dp : (player1Lose s).player2Dp = s.player2Dp := by
  unfold player1Lose; split_ifs <;> rfl

@[simp] theorem player1Lose_player2DDp : (player1Lose s).player2DDp = s.player2DDp := by
  unfold player1Lose; split_ifs <;> rfl

@[simp] theorem player2Lose_player1 : (player2Lose s).player1 = s.player1 := by
  unfold player2Lose; split_ifs <;> rfl

@[simp] theorem player2Lose_player2 : (player2Lose s).player2 = s.player2 := by
  unfold player2Lose; split_ifs <;> rfl

@[simp] theorem player2Lose_player1Dp : (player2Lose s).player1Dp = s.player1Dp := by
  unfold player2Lose; split_ifs <;> rfl

@[simp] theorem player2Lose_player1DDp : (player2Lose s).player1DDp = s.player1DDp := by
  unfold player2Lose; split_ifs <;> rfl

@[simp] theorem player2Lose_player2Dp : (player2Lose s).player2Dp = s.player2Dp := by
  unfold player2Lose; split_ifs <;> rfl

@[simp] theorem player2Lose_player2DDp : (player2Lose s).player2DDp = s.player2DDp := by
  unfold player2Lose; split_ifs <;> rfl

@[simp] theorem player1Arena_player2 : (player1Arena s).player2 = s.player2 := by
  unfold player1Arena; dsimp only; split_ifs <;> rfl

@[simp] theorem player1Arena_ball : (player1Arena s).ball = s.ball := by
  unfold player1Arena; dsimp only; split_ifs <;> rfl

@[simp] theorem player1Arena_ballDX : (player1Arena s).ballDX = s.ballDX := by
  unfold player1Arena; dsimp only; split_ifs <;> rfl

@[simp] theorem player1Arena_ballDY : (player1Arena s).ballDY = s.ballDY := by
  unfold player1Arena; dsimp only; split_ifs <;> rfl

@[simp] theorem player1Arena_player1DDp : (player1Arena s).player1DDp = s.player1DDp := by
  unfold player1Arena; dsimp only; split_ifs <;> rfl

@[simp] theorem player1Arena_player2Dp : (player1Arena s).player2Dp = s.player2Dp := by
  unfold player1Arena; dsimp only; split_ifs <;> rfl

@[simp] theorem player1Arena_player2DDp : (player1Arena s).player2DDp = s.player2DDp := by
  unfold player1Arena; dsimp only; split_ifs <;> rfl

@[simp] theorem player1Arena_player1_offset0 : (player1Arena s).player1.offset0 = s.player1.offset0 := by
  unfold player1Arena; dsimp only; split_ifs <;> rfl

@[simp] theorem player1Arena_player1_extent0 : (player1Arena s).player1.extent0 = s.player1.extent0 := by
  unfold player1Arena; dsimp only; split_ifs <;> rfl

@[simp] theorem player1Arena_player1_extent1 : (player1Arena s).player1.extent1 = s.player1.extent1 := by
  unfold player1Arena; dsimp only; split_ifs <;> rfl

@[simp] theorem player2Arena_player1 : (player2Arena s).player1 = s.player1 := by
  unfold player2Arena; dsimp only; split_ifs <;> rfl

@[simp] theorem player2Arena_ball : (player2Arena s).ball = s.ball := by
  unfold player2Arena; dsimp only; split_ifs <;> rfl

@[simp] theorem player2Arena_ballDX : (player2Arena s).ballDX = s.ballDX := by
  unfold player2Arena; dsimp only; split_ifs <;> rfl

@[simp] theorem player2Arena_ballDY : (player2Arena s).ballDY = s.ballDY := by
  unfold player2Arena; dsimp only; split_ifs <;> rfl

@[simp] theorem player2Arena_player1Dp : (player2Arena s).player1Dp = s.player1Dp := by
  unfold player2Arena; dsimp only; split_ifs <;> rfl

@[simp] theorem player2Arena_player1DDp : (player2Arena s).player1DDp = s.player1DDp := by
  unfold player2Arena; dsimp only; split_ifs <;> rfl

@[simp] theorem player2Arena_player2DDp : (player2Arena s).player2DDp = s.player2DDp := by
  unfold player2Arena; dsimp only; split_ifs <;> rfl

@[simp] theorem player2Arena_player2_offset0 : (player2Arena s).player2.offset0 = s.player2.offset0 := by
  unfold player2Arena; dsimp only; split_ifs <;> rfl

@[simp] theorem player2Arena_player2_extent0 : (player2Arena s).player2.extent0 = s.player2.extent0 := by
  unfold player2Arena; dsimp only; split_ifs <;> rfl

@[simp] theorem player2Arena_player2_extent1 : (player2Arena s).player2.extent1 = s.player2.extent1 := by
  unfold player2Arena; dsimp only; split_ifs <;> rfl

end frames

/-! ## Bounds established by the clamping blocks -/

theorem player1Arena_bounds (s : Game F) (h2 : s.player1.extent1 ≤ 2) :
    (player1Arena s).player1.offset1 + s.player1.extent1 / 2 ≤ 1 ∧
    -1 ≤ (player1Arena s).player1.offset1 - s.player1.extent1 / 2 := by
  unfold player1Arena; dsimp only
  split_ifs with h1 h3 h4 <;> refine ⟨?_, ?_⟩ <;> dsimp only at * <;> linarith

theorem player2Arena_bounds (s : Game F) (h2 : s.player2.extent1 ≤ 2) :
    (player2Arena s).player2.offset1 + s.player2.extent1 / 2 ≤ 1 ∧
    -1 ≤ (player2Arena s).player2.offset1 - s.player2.extent1 / 2 := by
  unfold player2Arena; dsimp only
  split_ifs with h1 h3 h4 <;> refine ⟨?_, ?_⟩ <;> dsimp only at * <;> linarith

theorem ballArena_bounds (s : Game F) (h2 : s.ball.extent1 ≤ 2) :
    (ballArena s).ball.offset1 + s.ball.extent1 / 2 ≤ 1 ∧
    -1 ≤ (ballArena s).ball.offset1 - s.ball.extent1 / 2 := by
  unfold ballArena ballArenaBottom ballArenaTop
  split_ifs with h1 h3 h4 <;> refine ⟨?_, ?_⟩ <;> dsimp only at * <;> linarith

theorem loseCondition_bounds (s : Game F)
    (h : s.ball.offset1 + s.ball.extent1 / 2 ≤ 1 ∧ -1 ≤ s.ball.offset1 - s.ball.extent1 / 2) :
    (loseCondition s).ball.offset1 + (loseCondition s).ball.extent1 / 2 ≤ 1 ∧
    -1 ≤ (loseCondition s).ball.offset1 - (loseCondition s).ball.extent1 / 2 := by
  unfold loseCondition player2Lose player1Lose
  split_ifs <;> first | exact h | (simp only [resetBall, ballReset]; norm_num)

@[simp] theorem afterPaddles_ball_extent1 (s : Game F) (delta : F) :
    (afterPaddles s delta).ball.extent1 = s.ball.extent1 := by
  simp [afterPaddles, motion, stepBall, stepPlayer2, stepPlayer1]

@[simp] theorem beforeArena_player1_extent1 (s : Game F) (delta : F) :
    (loseCondition (afterWalls s delta)).player1.extent1 = s.player1.extent1 := by
  simp [loseCondition, afterWalls, ballArena, afterPaddles, motion, stepBall, stepPlayer2,
    stepPlayer1]

@[simp] theorem beforeArena_player2_extent1 (s : Game F) (delta : F) :
    (loseCondition (afterWalls s delta)).player2.extent1 = s.player2.extent1 := by
  simp [loseCondition, afterWalls, ballArena, afterPaddles, motion, stepBall, stepPlayer2,
    stepPlayer1]

/-! ## Binary32: rounding keeps a value within a power of two -/

namespace F32

/-- The number of halvings counted by `bitsAux` is the number of binary digits. -/
theorem bitsAux_spec : ∀ fuel n : Nat, n ≤ fuel → 0 < n →
    2 ^ (bitsAux fuel n - 1) ≤ n ∧ n < 2 ^ bitsAux fuel n ∧ 0 < bitsAux fuel n := by
  intro fuel
  induction fuel with
  | zero => intro n h h0; omega
  | succ fuel ih =>
    intro n h h0
    have hn : n ≠ 0 := by omega
    simp only [bitsAux, if_neg hn]
    by_cases h2 : n / 2 = 0
    · have h1 : n = 1 := by omega
      subst h1
      cases fuel <;> simp [bitsAux]
    · obtain ⟨a, b, c⟩ := ih (n / 2) (by omega) (by omega)
      refine ⟨?_, ?_, by omega⟩
      · have : bitsAux fuel (n / 2) + 1 - 1 = (bitsAux fuel (n / 2) - 1) + 1 := by omega
        rw [this, pow_succ]
        omega
      · rw [pow_succ]
        omega

theorem bits_spec (n : Nat) (h : 0 < n) :
    2 ^ (bits n - 1) ≤ n ∧ n < 2 ^ bits n ∧ 0 < bits n :=
  bitsAux_spec n n le_rfl h

/-- The exponent computed for `q > 0` is the one of its leading binary digit. -/
theorem exponent_spec (q : ℚ) (h : 0 < q) :
    (2 : ℚ) ^ exponent q ≤ q ∧ q < (2 : ℚ) ^ (exponent q + 1) := by
  have hnum : 0 < q.num := Rat.num_pos.mpr h
  have hden : 0 < q.den := q.den_pos
  have hnat : 0 < q.num.natAbs := Int.natAbs_pos.mpr hnum.ne'
  obtain ⟨a1, a2, a3⟩ := bits_spec q.num.natAbs hnat
  obtain ⟨b1, b2, b3⟩ := bits_spec q.den hden
  have hq : q = (q.num.natAbs : ℚ) / (q.den : ℚ) := by
    have h1 : ((q.num.natAbs : ℤ) : ℚ) = (q.num : ℚ) := by
      rw [Int.natAbs_of_nonneg hnum.le]
    rw [← Int.cast_natCast, h1]
    exact (Rat.num_div_den q).symm
  have hd : (0 : ℚ) < (q.den : ℚ) := by exact_mod_cast hden
  set a := bits q.num.natAbs
  set b := bits q.den
  set N := q.num.natAbs
  set D := q.den
  have A1 : (2 : ℚ) ^ ((a : ℤ) - 1) ≤ (N : ℚ) := by
    have : ((a : ℤ) - 1) = ((a - 1 : ℕ) : ℤ) := by omega
    rw [this, zpow_natCast]
    exact_mod_cast a1
  have A2 : (N : ℚ) < (2 : ℚ) ^ (a : ℤ) := by
    rw [zpow_natCast]
    exact_mod_cast a2
  have B1 : (2 : ℚ) ^ ((b : ℤ) - 1) ≤ (D : ℚ) := by
    have : ((b : ℤ) - 1) = ((b - 1 : ℕ) : ℤ) := by omega
    rw [this, zpow_natCast]
    exact_mod_cast b1
  have B2 : (D : ℚ) < (2 : ℚ) ^ (b : ℤ) := by
    rw [zpow_natCast]
    exact_mod_cast b2
  have two : (0 : ℚ) < 2 := by norm_num
  have two' : (2 : ℚ) ≠ 0 := by norm_num
  -- upper bound: q < 2 ^ (a - b + 1)
  have U : q < (2 : ℚ) ^ ((a : ℤ) - b + 1) := by
    have e : (2 : ℚ) ^ ((a : ℤ) - b + 1) = (2 : ℚ) ^ (a : ℤ) / (2 : ℚ) ^ ((b : ℤ) - 1) := by
      rw [← zpow_sub₀ two']
      congr 1
      ring
    rw [e, hq, div_lt_div_iff₀ hd (zpow_pos two _)]
    calc (N : ℚ) * (2 : ℚ) ^ ((b : ℤ) - 1) ≤ (N : ℚ) * D :=
          mul_le_mul_of_nonneg_left B1 (by positivity)
      _ < (2 : ℚ) ^ (a : ℤ) * D := mul_lt_mul_of_pos_right A2 hd
  -- lower bound: 2 ^ (a - b - 1) ≤ q
  have L : (2 : ℚ) ^ ((a : ℤ) - b - 1) ≤ q := by
    have e : (2 : ℚ) ^ ((a : ℤ) - b - 1) = (2 : ℚ) ^ ((a : ℤ) - 1) / (2 : ℚ) ^ (b : ℤ) := by
      rw [← zpow_sub₀ two']
      congr 1
      ring
    rw [e, hq, div_le_div_iff₀ (zpow_pos two _) hd]
    calc (2 : ℚ) ^ ((a : ℤ) - 1) * D ≤ (N : ℚ) * D :=
          mul_le_mul_of_nonneg_right A1 hd.le
      _ ≤ (N : ℚ) * (2 : ℚ) ^ (b : ℤ) := mul_le_mul_of_nonneg_left B2.le (by positivity)
  unfold exponent
  simp only []
  split_ifs with hc
  · exact ⟨hc, U⟩
  · refine ⟨L, ?_⟩
    rw [sub_add_cancel]
    exact lt_of_not_le hc

theorem rne_le (x : ℚ) (m : ℤ) (h : x ≤ m) : rne x ≤ m := by
  have hf : ⌊x⌋ ≤ m := Int.floor_le_iff.mpr (lt_of_le_of_lt h (by exact_mod_cast (lt_add_one (m : ℚ))))
  unfold rne
  simp only []
  rcases hf.lt_or_eq with hlt | heq
  · split_ifs <;> omega
  · have hx : x - (⌊x⌋ : ℚ) < 1 / 2 := by
      rw [heq]
      linarith
    rw [if_pos hx, heq]

theorem le_rne (x : ℚ) (m : ℤ) (h : (m : ℚ) ≤ x) : m ≤ rne x := by
  have hf : m ≤ ⌊x⌋ := Int.le_floor.mpr h
  unfold rne
  simp only []
  split_ifs <;> omega

theorem rne_half_up (x : ℚ) (m : ℤ) (hm : m % 2 = 0) (h1 : (m : ℚ) ≤ x) (h2 : x ≤ m + 1 / 2) :
    rne x = m := by
  have hf : ⌊x⌋ = m := Int.floor_eq_iff.mpr ⟨h1, by linarith⟩
  unfold rne
  simp only [hf]
  have hx : ¬ (1 / 2 : ℚ) < x - m := by linarith
  split_ifs <;> rfl

theorem rne_half_down (x : ℚ) (m : ℤ) (hm : m % 2 = 0) (h1 : (m : ℚ) - 1 / 2 ≤ x) (h2 : x ≤ m) :
    rne x = m := by
  rcases h2.lt_or_eq with hlt | heq
  · have hf : ⌊x⌋ = m - 1 := Int.floor_eq_iff.mpr ⟨by push_cast; linarith, by push_cast; linarith⟩
    unfold rne
    simp only [hf]
    have hx : ¬ x - ((m - 1 : ℤ) : ℚ) < 1 / 2 := by push_cast; linarith
    have hodd : ¬ (m - 1) % 2 = 0 := by omega
    rw [if_neg hx]
    split_ifs <;> omega
  · exact rne_half_up x m hm heq.ge (by linarith)

theorem round_zero : round 0 = fin 0 := by decide!

/-- Rounding keeps a number inside `[-2 ^ e, 2 ^ e]`, also from half an ulp outside, and
keeps its sign. -/
theorem round_bound (e : ℤ) (h1 : -126 ≤ e) (h2 : e ≤ 127) (q : ℚ)
    (hq : |q| ≤ (2 : ℚ) ^ e + (2 : ℚ) ^ (e - 24)) :
    ∃ v : ℚ, round q = fin v ∧ |v| ≤ (2 : ℚ) ^ e ∧ (0 ≤ q → 0 ≤ v) ∧ (q ≤ 0 → v ≤ 0) := by
  have two : (0 : ℚ) < 2 := by norm_num
  have two' : (2 : ℚ) ≠ 0 := by norm_num
  have one2 : (1 : ℚ) ≤ 2 := by norm_num
  set p := quantum q with hp
  have hp0 : (0 : ℚ) < (2 : ℚ) ^ p := zpow_pos two p
  -- the rounded integer is at most `2 ^ (e - p)` in absolute value
  have hk : |((rne (q / 2 ^ p) : ℤ) : ℚ)| ≤ (2 : ℚ) ^ (e - p) := by
    by_cases hq0 : q = 0
    · subst hq0
      have hr : rne ((0 : ℚ) / 2 ^ p) = 0 := by rw [zero_div]; decide!
      rw [hr]
      simp only [Int.cast_zero, abs_zero]
      exact (zpow_pos two _).le
    · have hpos : 0 < |q| := abs_pos.mpr hq0
      obtain ⟨E1, E2⟩ := exponent_spec |q| hpos
      have hpq : p = max (exponent |q| - 23) (-149) := rfl
      have hx : |q / 2 ^ p| = |q| / 2 ^ p := by rw [abs_div, abs_of_pos hp0]
      by_cases hA : |q| ≤ (2 : ℚ) ^ e
      · have hE : exponent |q| ≤ e :=
          (zpow_le_zpow_iff_right₀ (by norm_num : (1 : ℚ) < 2)).mp (E1.trans hA)
        have hpe : p ≤ e := by rw [hpq]; exact max_le (by omega) (by omega)
        have hM : (((2 : ℤ) ^ (e - p).toNat : ℤ) : ℚ) = (2 : ℚ) ^ (e - p) := by
          rw [Int.cast_pow, ← zpow_natCast, Int.toNat_of_nonneg (by omega)]
          norm_num
        have hxM : |q / 2 ^ p| ≤ (((2 : ℤ) ^ (e - p).toNat : ℤ) : ℚ) := by
          rw [hM, hx, zpow_sub₀ two']
          exact div_le_div_of_nonneg_right hA hp0.le
        obtain ⟨l, u⟩ := abs_le.mp hxM
        have hu := rne_le _ _ u
        have hl := le_rne (q / 2 ^ p) (-(2 : ℤ) ^ (e - p).toNat) (by push_cast at l ⊢; exact l)
        rw [← hM]
        rw [abs_le]
        constructor
        · exact_mod_cast hl
        · exact_mod_cast hu
      · have hA' : (2 : ℚ) ^ e < |q| := lt_of_not_le hA
        have hsmall : (2 : ℚ) ^ (e - 24) < (2 : ℚ) ^ e :=
          zpow_lt_zpow_right₀ (by norm_num) (by omega)
        have hE1 : e ≤ exponent |q| := by
          have := (zpow_lt_zpow_iff_right₀ (by norm_num : (1 : ℚ) < 2)).mp (hA'.trans E2)
          omega
        have hE2 : exponent |q| ≤ e := by
          have h3 : (2 : ℚ) ^ exponent |q| < (2 : ℚ) ^ (e + 1) := by
            rw [zpow_add_one₀ two']
            linarith
          have := (zpow_lt_zpow_iff_right₀ (by norm_num : (1 : ℚ) < 2)).mp h3
          omega
        have hpe : p = e - 23 := by rw [hpq]; omega
        have hep : e - p = 23 := by omega
        have h23 : (2 : ℚ) ^ e = 8388608 * (2 : ℚ) ^ p := by
          have : e = 23 + p := by omega
          rw [this, zpow_add₀ two']
          norm_num
        have h24 : (2 : ℚ) ^ (e - 24) = 1 / 2 * (2 : ℚ) ^ p := by
          have : e - 24 = -1 + p := by omega
          rw [this, zpow_add₀ two']
          norm_num
        have hxl : (8388608 : ℚ) < |q| / 2 ^ p := by
          rw [lt_div_iff₀ hp0]
          linarith
        have hxu : |q| / 2 ^ p ≤ 8388608 + 1 / 2 := by
          rw [div_le_iff₀ hp0]
          linarith
        rw [hep]
        have hval : rne (q / 2 ^ p) = 8388608 ∨ rne (q / 2 ^ p) = -8388608 := by
          rcases le_or_lt 0 q with h0 | h0
          · left
            rw [abs_of_nonneg h0] at hxl hxu
            exact rne_half_up _ 8388608 (by decide) (by push_cast; linarith) (by push_cast; linarith)
          · right
            rw [abs_of_neg h0, neg_div] at hxl hxu
            exact rne_half_down _ (-8388608) (by decide) (by push_cast; linarith)
              (by push_cast; linarith)
        rcases hval with h | h <;> rw [h] <;> norm_num
  have hv : |((rne (q / 2 ^ p) : ℤ) : ℚ) * 2 ^ p| ≤ (2 : ℚ) ^ e := by
    rw [abs_mul, abs_of_pos hp0]
    calc |((rne (q / 2 ^ p) : ℤ) : ℚ)| * 2 ^ p ≤ (2 : ℚ) ^ (e - p) * 2 ^ p :=
          mul_le_mul_of_nonneg_right hk hp0.le
      _ = (2 : ℚ) ^ e := by rw [← zpow_add₀ two', sub_add_cancel]
  have hlt : ¬ (2 : ℚ) ^ (128 : ℤ) ≤ |((rne (q / 2 ^ p) : ℤ) : ℚ) * 2 ^ p| := by
    have : (2 : ℚ) ^ e < (2 : ℚ) ^ (128 : ℤ) := zpow_lt_zpow_right₀ (by norm_num) (by omega)
    intro h
    linarith
  refine ⟨((rne (q / 2 ^ p) : ℤ) : ℚ) * 2 ^ p, ?_, hv, ?_, ?_⟩
  · unfold round
    simp only [← hp, if_neg hlt]
  · intro h0
    have : (0 : ℤ) ≤ rne (q / 2 ^ p) := le_rne _ 0 (by simpa using div_nonneg h0 hp0.le)
    have : (0 : ℚ) ≤ ((rne (q / 2 ^ p) : ℤ) : ℚ) := by exact_mod_cast this
    positivity
  · intro h0
    have : rne (q / 2 ^ p) ≤ (0 : ℤ) :=
      rne_le _ 0 (by simpa using div_nonpos_of_nonpos_of_nonneg h0 hp0.le)
    have : ((rne (q / 2 ^ p) : ℤ) : ℚ) ≤ 0 := by exact_mod_cast this
    exact mul_nonpos_of_nonpos_of_nonneg this hp0.le

theorem add_fin (a b : ℚ) : (fin a + fin b : F32) = round (a + b) := rfl

theorem sub_fin (a b : ℚ) : (fin a - fin b : F32) = round (a + -b) := rfl

theorem mul_fin (a b : ℚ) : (fin a * fin b : F32) = round (a * b) := rfl

theorem one_sub_fin (c : ℚ) : ((1 : F32) - fin c) = round (1 + -c) := rfl

theorem lt_fin (a b : ℚ) : (fin a < fin b) ↔ a < b := by
  show lt (fin a) (fin b) = true ↔ a < b
  simp [lt]

/-! ### Rounding error on `[-1, 1]` and the wall tests in binary32 -/

/-- Rounding to the nearest integer moves a number by at most one half. -/
theorem rne_error (x : ℚ) : |((rne x : ℤ) : ℚ) - x| ≤ 1 / 2 := by
  have h1 := Int.floor_le x
  have h2 := Int.lt_floor_add_one x
  unfold rne
  simp only []
  split_ifs with a b c <;> push_cast <;> rw [abs_le] <;> constructor <;> linarith

/-- A finite result of `round` is the rounded multiple of the quantum. -/
theorem round_eq (q : ℚ) (v : ℚ) (h : round q = fin v) :
    v = (rne (q / 2 ^ quantum q) : ℚ) * 2 ^ quantum q := by
  unfold round at h
  simp only [] at h
  split_ifs at h
  exact (fin.inj h).symm

/-- Rounding never yields a NaN. -/
theorem round_ne_nan (q : ℚ) : round q ≠ nan := by
  unfold round
  simp only []
  split_ifs <;> simp

/-- Rounding a number of `[-1, 1]` moves it by at most `2 ^ (-24)`. -/
theorem round_error (q : ℚ) (hq : |q| ≤ 1) :
    ∃ v : ℚ, round q = fin v ∧ |v| ≤ 1 ∧ |v - q| ≤ 1 / 16777216 ∧ (0 ≤ q → 0 ≤ v) ∧
      (q ≤ 0 → v ≤ 0) := by
  have two : (0 : ℚ) < 2 := by norm_num
  have two' : (2 : ℚ) ≠ 0 := by norm_num
  obtain ⟨v, hv, hvb, hs1, hs2⟩ := round_bound 0 (by norm_num) (by norm_num) q (by
    have : (0 : ℚ) ≤ (2 : ℚ) ^ ((0 : ℤ) - 24) := by positivity
    rw [zpow_zero]
    linarith)
  rw [zpow_zero] at hvb
  refine ⟨v, hv, hvb, ?_, hs1, hs2⟩
  have hveq := round_eq q v hv
  set p := quantum q with hp
  have hp0 : (0 : ℚ) < (2 : ℚ) ^ p := zpow_pos two p
  by_cases hq0 : q = 0
  · subst hq0
    have hr : rne ((0 : ℚ) / 2 ^ p) = 0 := by rw [zero_div]; decide!
    rw [hveq, hr]
    norm_num
  · have hpos : 0 < |q| := abs_pos.mpr hq0
    obtain ⟨E1, -⟩ := exponent_spec |q| hpos
    have hE : exponent |q| ≤ 0 := by
      have h1 : (2 : ℚ) ^ exponent |q| ≤ (2 : ℚ) ^ (0 : ℤ) := by rw [zpow_zero]; exact E1.trans hq
      exact (zpow_le_zpow_iff_right₀ (by norm_num : (1 : ℚ) < 2)).mp h1
    have hpq : p = max (exponent |q| - 23) (-149) := rfl
    have hp23 : p ≤ -23 := by rw [hpq]; exact max_le (by omega) (by omega)
    have hpow : (2 : ℚ) ^ p ≤ (2 : ℚ) ^ (-23 : ℤ) :=
      (zpow_le_zpow_iff_right₀ (by norm_num : (1 : ℚ) < 2)).mpr hp23
    have h23 : (2 : ℚ) ^ (-23 : ℤ) = 1 / 8388608 := by norm_num
    have hx : q = q / 2 ^ p * 2 ^ p := by field_simp
    have he := rne_error (q / 2 ^ p)
    have : v - q = (((rne (q / 2 ^ p) : ℤ) : ℚ) - q / 2 ^ p) * 2 ^ p := by
      rw [hveq]; field_simp
    rw [this, abs_mul, abs_of_pos hp0]
    calc |((rne (q / 2 ^ p) : ℤ) : ℚ) - q / 2 ^ p| * 2 ^ p ≤ 1 / 2 * 2 ^ p :=
          mul_le_mul_of_nonneg_right he hp0.le
      _ ≤ 1 / 2 * (1 / 8388608) := by rw [← h23]; exact mul_le_mul_of_nonneg_left hpow (by norm_num)
      _ = 1 / 16777216 := by norm_num

/-- The comparison `<=` of two finite numbers is the one of the rationals. -/
theorem le_fin (a b : ℚ) : (fin a ≤ fin b) ↔ a ≤ b := by
  show le (fin a) (fin b) = true ↔ a ≤ b
  simp [le]

/-- The number 1 of binary32. -/
theorem one_eq : (1 : F32) = fin 1 := rfl

/-- The number -1 of binary32. -/
theorem neg_one_eq : (-1 : F32) = fin (-1) := rfl

/-- A value that is not above 1 is a NaN or at most 1. -/
theorem le_one_of_not_gt (x : F32) (h : ¬ x > 1) : x = nan ∨ x ≤ 1 := by
  rcases x with q | s | _
  · right
    rw [one_eq] at h ⊢
    rw [gt_iff_lt, lt_fin] at h
    rw [le_fin]
    exact not_lt.mp h
  · right
    cases s
    · exact absurd (by decide : (inf false : F32) > 1) h
    · decide
  · left; rfl

/-- A value that is not below -1 is a NaN or at least -1. -/
theorem ge_neg_one_of_not_lt (x : F32) (h : ¬ x < -1) : x = nan ∨ x ≥ -1 := by
  rcases x with q | s | _
  · right
    rw [neg_one_eq] at h ⊢
    rw [lt_fin] at h
    rw [ge_iff_le, le_fin]
    exact not_lt.mp h
  · right
    cases s
    · decide
    · exact absurd (by decide : (inf true : F32) < -1) h
  · left; rfl

/-- A sum with a finite number is a NaN only if the other term is one. -/
theorem add_fin_eq_nan (x : F32) (h : ℚ) (e : x + fin h = nan) : x = nan := by
  rcases x with q | s | _
  · rw [add_fin] at e
    exact absurd e (round_ne_nan _)
  · exact absurd e (by show add (inf s) (fin h) ≠ nan; simp [add])
  · rfl

/-- A difference with a finite number is a NaN only if the other term is one. -/
theorem sub_fin_eq_nan (x : F32) (h : ℚ) (e : x - fin h = nan) : x = nan := by
  rcases x with q | s | _
  · rw [sub_fin] at e
    exact absurd e (round_ne_nan _)
  · exact absurd e (by show add (inf s) (neg (fin h)) ≠ nan; simp [add, neg])
  · rfl

/-- The two wall tests of `simulatePhysics` on an ordinate `o` with the half extent `h`
in `[0, 1]`: the ordinate they leave is a NaN or within the two bounds. -/
theorem clamp_bounds (o : F32) (h : ℚ) (h0 : 0 ≤ h) (h1 : h ≤ 1) :
    (if (if o + fin h > 1 then 1 - fin h else o) - fin h < -1 then -1 + fin h
      else (if o + fin h > 1 then 1 - fin h else o)) = nan ∨
    ((if (if o + fin h > 1 then 1 - fin h else o) - fin h < -1 then -1 + fin h
      else (if o + fin h > 1 then 1 - fin h else o)) + fin h ≤ 1 ∧
     (if (if o + fin h > 1 then 1 - fin h else o) - fin h < -1 then -1 + fin h
      else (if o + fin h > 1 then 1 - fin h else o)) - fin h ≥ -1) := by
  have t24 : (2 : ℚ) ^ (0 : ℤ) + (2 : ℚ) ^ ((0 : ℤ) - 24) = 1 + 1 / 16777216 := by norm_num
  -- the top clamp `1 - h` and the bottom clamp `-1 + h`
  obtain ⟨a, ha, hab, hae, ha0, -⟩ := round_error (1 + -h) (by rw [abs_le]; constructor <;> linarith)
  obtain ⟨b, hb, hbb, hbe, -, hb0⟩ := round_error (-1 + h) (by rw [abs_le]; constructor <;> linarith)
  have ha0' : 0 ≤ a := ha0 (by linarith)
  have hb0' : b ≤ 0 := hb0 (by linarith)
  rw [abs_le] at hab hae hbb hbe
  have top : (1 : F32) - fin h = fin a := by rw [one_sub_fin, ha]
  have bot : (-1 : F32) + fin h = fin b := by rw [neg_one_eq, add_fin, hb]
  -- the edges of the clamped rectangles
  obtain ⟨a1, ha1, ha1b, -, -⟩ := round_bound 0 (by norm_num) (by norm_num) (a + h) (by
    rw [t24, abs_le]; constructor <;> linarith)
  obtain ⟨a2, ha2, ha2b, -, -⟩ := round_bound 0 (by norm_num) (by norm_num) (a + -h) (by
    rw [t24, abs_le]; constructor <;> linarith)
  obtain ⟨b1, hb1, hb1b, -, -⟩ := round_bound 0 (by norm_num) (by norm_num) (b + h) (by
    rw [t24, abs_le]; constructor <;> linarith)
  obtain ⟨b2, hb2, hb2b, -, -⟩ := round_bound 0 (by norm_num) (by norm_num) (b + -h) (by
    rw [t24, abs_le]; constructor <;> linarith)
  rw [zpow_zero, abs_le] at ha1b ha2b hb1b hb2b
  have ea1 : fin a + fin h ≤ (1 : F32) := by rw [add_fin, ha1, one_eq, le_fin]; exact ha1b.2
  have ea2 : fin a - fin h ≥ (-1 : F32) := by
    rw [sub_fin, ha2, neg_one_eq, ge_iff_le, le_fin]; exact ha2b.1
  have ea2' : ¬ fin a - fin h < (-1 : F32) := by
    rw [sub_fin, ha2, neg_one_eq, lt_fin]; exact not_lt.mpr ha2b.1
  have eb1 : fin b + fin h ≤ (1 : F32) := by rw [add_fin, hb1, one_eq, le_fin]; exact hb1b.2
  have eb2 : fin b - fin h ≥ (-1 : F32) := by
    rw [sub_fin, hb2, neg_one_eq, ge_iff_le, le_fin]; exact hb2b.1
  by_cases T1 : o + fin h > 1
  · rw [if_pos T1, top, if_neg ea2']
    exact Or.inr ⟨ea1, ea2⟩
  · rw [if_neg T1]
    by_cases T2 : o - fin h < -1
    · rw [if_pos T2, bot]
      exact Or.inr ⟨eb1, eb2⟩
    · rw [if_neg T2]
      rcases le_one_of_not_gt _ T1 with e | e
      · exact Or.inl (add_fin_eq_nan o h e)
      · rcases ge_neg_one_of_not_lt _ T2 with e' | e'
        · exact Or.inl (sub_fin_eq_nan o h e')
        · exact Or.inr ⟨e, e'⟩

/-- A value at most `c` is not above `c`; a NaN is neither. -/
theorem not_lt_of_le (x c : F32) (h : x ≤ c) : ¬ c < x := by
  rcases x with a | s | _ <;> rcases c with b | t | _
  · rw [le_fin] at h; rw [lt_fin]; exact not_lt.mpr h
  all_goals (revert h; show le _ _ = true → ¬ lt _ _ = true; simp [le, lt]; try (cases s <;> cases t <;> simp))

end F32

/-! ## Claims on `simulatePhysics` -/

/-- Vertical bounds in exact arithmetic (`F` a linearly ordered field): if each of the three rectangles has a vertical extent between 0 and 2 before the
call, then after `simulatePhysics` every rectangle satisfies
`offset[1] + extent[1]/2 <= 1` and `offset[1] - extent[1]/2 >= -1`, for every delta and
whatever the positions, velocities and accelerations were. -/
theorem simulatePhysics_vertical_bounds_exact (s : Game F) (delta : F)
    (h1 : 0 ≤ s.player1.extent1 ∧ s.player1.extent1 ≤ 2)
    (h2 : 0 ≤ s.player2.extent1 ∧ s.player2.extent1 ≤ 2)
    (hb : 0 ≤ s.ball.extent1 ∧ s.ball.extent1 ≤ 2) :
    ((simulatePhysics s delta).player1.offset1 + (simulatePhysics s delta).player1.extent1 / 2 ≤ 1 ∧
      (simulatePhysics s delta).player1.offset1 - (simulatePhysics s delta).player1.extent1 / 2 ≥ -1) ∧
    ((simulatePhysics s delta).player2.offset1 + (simulatePhysics s delta).player2.extent1 / 2 ≤ 1 ∧
      (simulatePhysics s delta).player2.offset1 - (simulatePhysics s delta).player2.extent1 / 2 ≥ -1) ∧
    ((simulatePhysics s delta).ball.offset1 + (simulatePhysics s delta).ball.extent1 / 2 ≤ 1 ∧
      (simulatePhysics s delta).ball.offset1 - (simulatePhysics s delta).ball.extent1 / 2 ≥ -1) := by
  unfold simulatePhysics
  refine ⟨?_, ?_, ?_⟩
  · have h := player1Arena_bounds (loseCondition (afterWalls s delta)) (by simpa using h1.2)
    simpa using h
  · have h := player2Arena_bounds (player1Arena (loseCondition (afterWalls s delta)))
      (by simpa using h2.2)
    simpa using h
  · have h := ballArena_bounds (afterPaddles s delta) (by simpa using hb.2)
    have h' := loseCondition_bounds (afterWalls s delta) (by simpa [afterWalls, ballArena] using h)
    simpa using h'

/-- An extent between 0 and 2 is a finite number, and so is half of it, between 0 and 1. -/
theorem half_extent (e : F32) (h : 0 ≤ e ∧ e ≤ 2) :
    ∃ h' : ℚ, e / 2 = F32.fin h' ∧ 0 ≤ h' ∧ h' ≤ 1 := by
  have two_eq : (2 : F32) = F32.fin 2 := by decide!
  have zero_eq : (0 : F32) = F32.fin 0 := rfl
  rcases e with q | s | _
  · rw [zero_eq, two_eq, F32.le_fin, F32.le_fin] at h
    obtain ⟨v, hv, hvb, hv0, -⟩ := F32.round_bound 0 (by norm_num) (by norm_num) (q / 2) (by
      have : (0 : ℚ) ≤ (2 : ℚ) ^ ((0 : ℤ) - 24) := by positivity
      rw [zpow_zero, abs_le]; constructor <;> linarith)
    rw [zpow_zero, abs_le] at hvb
    refine ⟨v, ?_, hv0 (by linarith), hvb.2⟩
    rw [two_eq]
    show F32.div (F32.fin q) (F32.fin 2) = F32.fin v
    simp only [F32.div]
    rw [if_neg (by norm_num), hv]
  · cases s
    · exact absurd h.2 (by decide!)
    · exact absurd h.1 (by decide!)
  · exact absurd h.1 (by decide!)

/-- The wall tests of player 1 in binary32 leave a NaN or an ordinate within the bounds. -/
theorem player1Arena_bounds32 (s : Game F32)
    (h : 0 ≤ s.player1.extent1 ∧ s.player1.extent1 ≤ 2) :
    (player1Arena s).player1.offset1 = F32.nan ∨
    ((player1Arena s).player1.offset1 + (player1Arena s).player1.extent1 / 2 ≤ 1 ∧
     (player1Arena s).player1.offset1 - (player1Arena s).player1.extent1 / 2 ≥ -1) := by
  obtain ⟨h', he, h0, h1⟩ := half_extent _ h
  have key := F32.clamp_bounds s.player1.offset1 h' h0 h1
  rw [← he] at key
  have e1 : (player1Arena s).player1.extent1 = s.player1.extent1 := by
    simp only [player1Arena]; split_ifs <;> rfl
  have e2 : (player1Arena s).player1.offset1 =
      (if (if s.player1.offset1 + s.player1.extent1 / 2 > 1 then 1 - s.player1.extent1 / 2
          else s.player1.offset1) - s.player1.extent1 / 2 < -1 then -1 + s.player1.extent1 / 2
        else (if s.player1.offset1 + s.player1.extent1 / 2 > 1 then 1 - s.player1.extent1 / 2
          else s.player1.offset1)) := by
    simp only [player1Arena]; split_ifs <;> rfl
  rw [e1, e2]
  exact key

/-- The wall tests of player 2 in binary32 leave a NaN or an ordinate within the bounds. -/
theorem player2Arena_bounds32 (s : Game F32)
    (h : 0 ≤ s.player2.extent1 ∧ s.player2.extent1 ≤ 2) :
    (player2Arena s).player2.offset1 = F32.nan ∨
    ((player2Arena s).player2.offset1 + (player2Arena s).player2.extent1 / 2 ≤ 1 ∧
     (player2Arena s).player2.offset1 - (player2Arena s).player2.extent1 / 2 ≥ -1) := by
  obtain ⟨h', he, h0, h1⟩ := half_extent _ h
  have key := F32.clamp_bounds s.player2.offset1 h' h0 h1
  rw [← he] at key
  have e1 : (player2Arena s).player2.extent1 = s.player2.extent1 := by
    simp only [player2Arena]; split_ifs <;> rfl
  have e2 : (player2Arena s).player2.offset1 =
      (if (if s.player2.offset1 + s.player2.extent1 / 2 > 1 then 1 - s.player2.extent1 / 2
          else s.player2.offset1) - s.player2.extent1 / 2 < -1 then -1 + s.player2.extent1 / 2
        else (if s.player2.offset1 + s.player2.extent1 / 2 > 1 then 1 - s.player2.extent1 / 2
          else s.player2.offset1)) := by
    simp only [player2Arena]; split_ifs <;> rfl
  rw [e1, e2]
  exact key

/-- The wall tests of the ball in binary32 leave a NaN or an ordinate within the bounds. -/
theorem ballArena_bounds32 (s : Game F32)
    (h : 0 ≤ s.ball.extent1 ∧ s.ball.extent1 ≤ 2) :
    (ballArena s).ball.offset1 = F32.nan ∨
    ((ballArena s).ball.offset1 + (ballArena s).ball.extent1 / 2 ≤ 1 ∧
     (ballArena s).ball.offset1 - (ballArena s).ball.extent1 / 2 ≥ -1) := by
  obtain ⟨h', he, h0, h1⟩ := half_extent _ h
  have key := F32.clamp_bounds s.ball.offset1 h' h0 h1
  rw [← he] at key
  have e1 : (ballArena s).ball.extent1 = s.ball.extent1 := by
    simp only [ballArena, ballArenaTop, ballArenaBottom]; split_ifs <;> rfl
  have e2 : (ballArena s).ball.offset1 =
      (if (if s.ball.offset1 + s.ball.extent1 / 2 > 1 then 1 - s.ball.extent1 / 2
          else s.ball.offset1) - s.ball.extent1 / 2 < -1 then -1 + s.ball.extent1 / 2
        else (if s.ball.offset1 + s.ball.extent1 / 2 > 1 then 1 - s.ball.extent1 / 2
          else s.ball.offset1)) := by
    simp only [ballArena, ballArenaTop, ballArenaBottom]; split_ifs <;> rfl
  rw [e1, e2]
  exact key

/-- The lose tests leave the ball alone or reset it. -/
theorem loseCondition_ball32 (s : Game F32) :
    (loseCondition s).ball = s.ball ∨ (loseCondition s).ball = ballReset := by
  simp only [loseCondition, player1Lose, player2Lose, resetBall]
  split_ifs <;> simp

/-- What the blocks of `simulatePhysics` leave alone, in binary32. -/
theorem frame32 (s : Game F32) (delta : F32) :
    (loseCondition (afterWalls s delta)).player1.extent1 = s.player1.extent1 ∧
    (player1Arena (loseCondition (afterWalls s delta))).player2.extent1 = s.player2.extent1 ∧
    (afterPaddles s delta).ball.extent1 = s.ball.extent1 ∧
    (simulatePhysics s delta).player1 = (player1Arena (loseCondition (afterWalls s delta))).player1 ∧
    (simulatePhysics s delta).ball = (loseCondition (ballArena (afterPaddles s delta))).ball := by
  have c1 : ∀ t : Game F32, (collidePlayer1 t).player1 = t.player1 ∧
      (collidePlayer1 t).player2 = t.player2 ∧ (collidePlayer1 t).ball.extent1 = t.ball.extent1 := by
    intro t; simp only [collidePlayer1, bouncePlayer1]; split_ifs <;> exact ⟨rfl, rfl, rfl⟩
  have c2 : ∀ t : Game F32, (collidePlayer2 t).player1 = t.player1 ∧
      (collidePlayer2 t).player2 = t.player2 ∧ (collidePlayer2 t).ball.extent1 = t.ball.extent1 := by
    intro t; simp only [collidePlayer2, bouncePlayer2]; split_ifs <;> exact ⟨rfl, rfl, rfl⟩
  have ba : ∀ t : Game F32, (ballArena t).player1 = t.player1 ∧ (ballArena t).player2 = t.player2 := by
    intro t; simp only [ballArena, ballArenaTop, ballArenaBottom]; split_ifs <;> exact ⟨rfl, rfl⟩
  have lc : ∀ t : Game F32, (loseCondition t).player1 = t.player1 ∧
      (loseCondition t).player2 = t.player2 := by
    intro t; simp only [loseCondition, player1Lose, player2Lose, resetBall]
    split_ifs <;> exact ⟨rfl, rfl⟩
  have p1 : ∀ t : Game F32, (player1Arena t).player2 = t.player2 ∧ (player1Arena t).ball = t.ball := by
    intro t; simp only [player1Arena]; split_ifs <;> exact ⟨rfl, rfl⟩
  have p2 : ∀ t : Game F32, (player2Arena t).player1 = t.player1 ∧ (player2Arena t).ball = t.ball := by
    intro t; simp only [player2Arena]; split_ifs <;> exact ⟨rfl, rfl⟩
  have m1 : (motion s delta).player1.extent1 = s.player1.extent1 := rfl
  have m2 : (motion s delta).player2.extent1 = s.player2.extent1 := rfl
  have m3 : (motion s delta).ball.extent1 = s.ball.extent1 := rfl
  refine ⟨?_, ?_, ?_, ?_, ?_⟩
  · rw [(lc _).1, afterWalls, (ba _).1, afterPaddles, (c2 _).1, (c1 _).1, m1]
  · rw [(p1 _).1, (lc _).2, afterWalls, (ba _).2, afterPaddles, (c2 _).2.1, (c1 _).2.1, m2]
  · rw [afterPaddles, (c2 _).2.2, (c1 _).2.2, m3]
  · rw [simulatePhysics, (p2 _).1]
  · rw [simulatePhysics, (p2 _).2, (p1 _).2, afterWalls]

/-- Vertical bounds in binary32: after `simulatePhysics` each rectangle has a NaN ordinate
or passes the two bound tests as the program evaluates them. -/
theorem simulatePhysics_vertical_bounds_binary32 (s : Game F32) (delta : F32)
    (h1 : 0 ≤ s.player1.extent1 ∧ s.player1.extent1 ≤ 2)
    (h2 : 0 ≤ s.player2.extent1 ∧ s.player2.extent1 ≤ 2)
    (hb : 0 ≤ s.ball.extent1 ∧ s.ball.extent1 ≤ 2) :
    ((simulatePhysics s delta).player1.offset1 = F32.nan ∨
      ((simulatePhysics s delta).player1.offset1 + (simulatePhysics s delta).player1.extent1 / 2 ≤ 1 ∧
       (simulatePhysics s delta).player1.offset1 - (simulatePhysics s delta).player1.extent1 / 2 ≥ -1)) ∧
    ((simulatePhysics s delta).player2.offset1 = F32.nan ∨
      ((simulatePhysics s delta).player2.offset1 + (simulatePhysics s delta).player2.extent1 / 2 ≤ 1 ∧
       (simulatePhysics s delta).player2.offset1 - (simulatePhysics s delta).player2.extent1 / 2 ≥ -1)) ∧
    ((simulatePhysics s delta).ball.offset1 = F32.nan ∨
      ((simulatePhysics s delta).ball.offset1 + (simulatePhysics s delta).ball.extent1 / 2 ≤ 1 ∧
       (simulatePhysics s delta).ball.offset1 - (simulatePhysics s delta).ball.extent1 / 2 ≥ -1)) := by
  obtain ⟨f1, f2, f3, f4, f5⟩ := frame32 s delta
  refine ⟨?_, ?_, ?_⟩
  · rw [f4]
    exact player1Arena_bounds32 _ (by rw [f1]; exact h1)
  · exact player2Arena_bounds32 _ (by rw [f2]; exact h2)
  · rw [f5]
    rcases loseCondition_ball32 (ballArena (afterPaddles s delta)) with e | e
    · rw [e]
      exact ballArena_bounds32 _ (by rw [f3]; exact hb)
    · rw [e]
      exact Or.inr (by decide!)

/-- C1, amended. Vertical-bounds invariant. In binary32, the arithmetic of the program:
if each of the three rectangles has a vertical extent between 0 and 2 before the call,
then after `simulatePhysics`, for every delta and whatever the positions, velocities and
accelerations were, every rectangle whose `offset[1]` is not a NaN satisfies
`offset[1] + extent[1]/2 <= 1` and `offset[1] - extent[1]/2 >= -1`, the sum, the
difference and the quotient being the rounded ones the program computes. In exact
arithmetic (`K` a linearly ordered field) the two bounds hold for the three rectangles. -/
theorem simulatePhysics_vertical_bounds :
    (∀ (s : Game F32) (delta : F32),
      (0 ≤ s.player1.extent1 ∧ s.player1.extent1 ≤ 2) →
      (0 ≤ s.player2.extent1 ∧ s.player2.extent1 ≤ 2) →
      (0 ≤ s.ball.extent1 ∧ s.ball.extent1 ≤ 2) →
      ((simulatePhysics s delta).player1.offset1 = F32.nan ∨
        ((simulatePhysics s delta).player1.offset1 + (simulatePhysics s delta).player1.extent1 / 2 ≤ 1 ∧
         (simulatePhysics s delta).player1.offset1 - (simulatePhysics s delta).player1.extent1 / 2 ≥ -1)) ∧
      ((simulatePhysics s delta).player2.offset1 = F32.nan ∨
        ((simulatePhysics s delta).player2.offset1 + (simulatePhysics s delta).player2.extent1 / 2 ≤ 1 ∧
         (simulatePhysics s delta).player2.offset1 - (simulatePhysics s delta).player2.extent1 / 2 ≥ -1)) ∧
      ((simulatePhysics s delta).ball.offset1 = F32.nan ∨
        ((simulatePhysics s delta).ball.offset1 + (simulatePhysics s delta).ball.extent1 / 2 ≤ 1 ∧
         (simulatePhysics s delta).ball.offset1 - (simulatePhysics s delta).ball.extent1 / 2 ≥ -1))) ∧
    (∀ (K : Type) [LinearOrderedField K] (s : Game K) (delta : K),
      (0 ≤ s.player1.extent1 ∧ s.player1.extent1 ≤ 2) →
      (0 ≤ s.player2.extent1 ∧ s.player2.extent1 ≤ 2) →
      (0 ≤ s.ball.extent1 ∧ s.ball.extent1 ≤ 2) →
      ((simulatePhysics s delta).player1.offset1 + (simulatePhysics s delta).player1.extent1 / 2 ≤ 1 ∧
        (simulatePhysics s delta).player1.offset1 - (simulatePhysics s delta).player1.extent1 / 2 ≥ -1) ∧
      ((simulatePhysics s delta).player2.offset1 + (simulatePhysics s delta).player2.extent1 / 2 ≤ 1 ∧
        (simulatePhysics s delta).player2.offset1 - (simulatePhysics s delta).player2.extent1 / 2 ≥ -1) ∧
      ((simulatePhysics s delta).ball.offset1 + (simulatePhysics s delta).ball.extent1 / 2 ≤ 1 ∧
        (simulatePhysics s delta).ball.offset1 - (simulatePhysics s delta).ball.extent1 / 2 ≥ -1)) :=
  ⟨simulatePhysics_vertical_bounds_binary32,
   fun _ _ s delta => simulatePhysics_vertical_bounds_exact s delta⟩

/-- Witness of C1 amended: in binary32 at `edgeStartBinary32` with `delta = 0.1f`, in
exact arithmetic at `edgeStart` with `delta = 1/10`; in both states the two paddles and
the ball cross a wall during the step. -/
theorem simulatePhysics_vertical_bounds_witness :
    (((0 : F32) ≤ edgeStartBinary32.player1.extent1 ∧ edgeStartBinary32.player1.extent1 ≤ 2) ∧
     ((0 : F32) ≤ edgeStartBinary32.player2.extent1 ∧ edgeStartBinary32.player2.extent1 ≤ 2) ∧
     ((0 : F32) ≤ edgeStartBinary32.ball.extent1 ∧ edgeStartBinary32.ball.extent1 ≤ 2)) ∧
    (((simulatePhysics edgeStartBinary32 0.1).player1.offset1 = F32.nan ∨
        ((simulatePhysics edgeStartBinary32 0.1).player1.offset1 + (simulatePhysics edgeStartBinary32 0.1).player1.extent1 / 2 ≤ 1 ∧
         (simulatePhysics edgeStartBinary32 0.1).player1.offset1 - (simulatePhysics edgeStartBinary32 0.1).player1.extent1 / 2 ≥ -1)) ∧
      ((simulatePhysics edgeStartBinary32 0.1).player2.offset1 = F32.nan ∨
        ((simulatePhysics edgeStartBinary32 0.1).player2.offset1 + (simulatePhysics edgeStartBinary32 0.1).player2.extent1 / 2 ≤ 1 ∧
         (simulatePhysics edgeStartBinary32 0.1).player2.offset1 - (simulatePhysics edgeStartBinary32 0.1).player2.extent1 / 2 ≥ -1)) ∧
      ((simulatePhysics edgeStartBinary32 0.1).ball.offset1 = F32.nan ∨
        ((simulatePhysics edgeStartBinary32 0.1).ball.offset1 + (simulatePhysics edgeStartBinary32 0.1).ball.extent1 / 2 ≤ 1 ∧
         (simulatePhysics edgeStartBinary32 0.1).ball.offset1 - (simulatePhysics edgeStartBinary32 0.1).ball.extent1 / 2 ≥ -1))) ∧
    (edgeStart.player1.extent1 = 0.65 ∧ edgeStart.player2.extent1 = 0.65 ∧
      edgeStart.ball.extent1 = 0.04) ∧
    ((simulatePhysics edgeStart (1/10)).player1.offset1 + (simulatePhysics edgeStart (1/10)).player1.extent1 / 2 ≤ 1 ∧
      (simulatePhysics edgeStart (1/10)).player1.offset1 - (simulatePhysics edgeStart (1/10)).player1.extent1 / 2 ≥ -1) ∧
    ((simulatePhysics edgeStart (1/10)).player2.offset1 + (simulatePhysics edgeStart (1/10)).player2.extent1 / 2 ≤ 1 ∧
      (simulatePhysics edgeStart (1/10)).player2.offset1 - (simulatePhysics edgeStart (1/10)).player2.extent1 / 2 ≥ -1) ∧
    ((simulatePhysics edgeStart (1/10)).ball.offset1 + (simulatePhysics edgeStart (1/10)).ball.extent1 / 2 ≤ 1 ∧
      (simulatePhysics edgeStart (1/10)).ball.offset1 - (simulatePhysics edgeStart (1/10)).ball.extent1 / 2 ≥ -1) :=
  ⟨by decide!,
   simulatePhysics_vertical_bounds.1 edgeStartBinary32 0.1 (by decide!) (by decide!) (by decide!),
   ⟨rfl, rfl, rfl⟩,
   simulatePhysics_vertical_bounds.2 ℚ edgeStart (1/10)
    (by norm_num [edgeStart]) (by norm_num [edgeStart]) (by norm_num [edgeStart])⟩

/-- C1, as stated, fails in binary32, in two ways. From the finite state `overflowStart`
(the scenario with `player1Dp = 3e38f`; vertical extents 0.65 and 0.04) and `delta = 2`
the drag `player1Dp * 10` overflows to an infinity, line 103 adds `+inf` and `-inf`, and
`player1.offset[1]` is left a NaN: no wall test passes on it and neither bound holds.
From `edgeStartBinary32` and `delta = 0.1f` the ball crosses the top wall and line 163
stores the rounded `1 - 0.02f`: the stored ordinate plus the stored half extent is
`1 + 5 / 2 ^ 28` as a sum of numbers, above 1, and it is only the rounded sum of the
program that is 1. -/
theorem simulatePhysics_bounds_overflow :
    (((0 : F32) ≤ overflowStart.player1.extent1 ∧ overflowStart.player1.extent1 ≤ 2) ∧
     ((0 : F32) ≤ overflowStart.player2.extent1 ∧ overflowStart.player2.extent1 ≤ 2) ∧
     ((0 : F32) ≤ overflowStart.ball.extent1 ∧ overflowStart.ball.extent1 ≤ 2) ∧
     overflowStart.player1Dp = F32.fin 300000000549775575777803994281145270272 ∧
     (simulatePhysics overflowStart 2).player1.offset1 = F32.nan ∧
     ¬ ((simulatePhysics overflowStart 2).player1.offset1
         + (simulatePhysics overflowStart 2).player1.extent1 / 2 ≤ 1) ∧
     ¬ ((simulatePhysics overflowStart 2).player1.offset1
         - (simulatePhysics overflowStart 2).player1.extent1 / 2 ≥ -1)) ∧
    (((0 : F32) ≤ edgeStartBinary32.ball.extent1 ∧ edgeStartBinary32.ball.extent1 ≤ 2) ∧
     (simulatePhysics edgeStartBinary32 0.1).ball.offset1 = F32.fin (2055209 / 2097152) ∧
     (simulatePhysics edgeStartBinary32 0.1).ball.extent1 / 2 = F32.fin (5368709 / 268435456) ∧
     ¬ ((2055209 / 2097152 : ℚ) + 5368709 / 268435456 ≤ 1) ∧
     (simulatePhysics edgeStartBinary32 0.1).ball.offset1
       + (simulatePhysics edgeStartBinary32 0.1).ball.extent1 / 2 = 1) := by
  decide!

theorem loseCondition_of_exit (s : Game F) (h : player1Loses s ∨ player2Loses s) :
    loseCondition s = resetBall s := by
  unfold loseCondition player2Lose player1Lose
  by_cases h1 : player1Loses s
  · rw [if_pos h1, if_neg]
    simp only [player2Loses, resetBall, ballReset]
    norm_num
  · rw [if_neg h1, if_pos (h.resolve_left h1)]

/-- C3. Reset on exit: if after the motion, paddle-collision and vertical-wall steps the
ball's left edge is below -1 or its right edge is above 1, then after `simulatePhysics`
the ball has offset (0,0), extent (0.02,0.04), `ballDX = -1` and `ballDY = 0`,
whichever side it left on. -/
theorem simulatePhysics_reset_on_exit (s : Game F) (delta : F)
    (h : (afterWalls s delta).ball.offset0 - (afterWalls s delta).ball.extent0 / 2 < -1 ∨
         (afterWalls s delta).ball.offset0 + (afterWalls s delta).ball.extent0 / 2 > 1) :
    (simulatePhysics s delta).ball = ⟨0, 0, 0.02, 0.04⟩ ∧
    (simulatePhysics s delta).ballDX = -1 ∧
    (simulatePhysics s delta).ballDY = 0 := by
  have hr := loseCondition_of_exit (afterWalls s delta) h
  unfold simulatePhysics
  simp only [player2Arena_ball, player1Arena_ball, player2Arena_ballDX, player1Arena_ballDX,
    player2Arena_ballDY, player1Arena_ballDY, hr]
  exact ⟨rfl, rfl, rfl⟩

/-- Witness of C3: the ball leaves on the right. -/
theorem simulatePhysics_reset_on_exit_witness :
    (afterWalls exitStart (1/100)).ball.offset0 + (afterWalls exitStart (1/100)).ball.extent0 / 2 > 1 ∧
    (simulatePhysics exitStart (1/100)).ball = ⟨0, 0, 0.02, 0.04⟩ ∧
    (simulatePhysics exitStart (1/100)).ballDX = -1 ∧
    (simulatePhysics exitStart (1/100)).ballDY = 0 :=
  have h : (afterWalls exitStart (1/100)).ball.offset0 +
      (afterWalls exitStart (1/100)).ball.extent0 / 2 > 1 := by
    norm_num [exitStart, afterWalls, ballArena, ballArenaBottom, ballArenaTop, afterPaddles,
      collidePlayer2, collidePlayer1, hitsPlayer1, hitsPlayer2, motion, stepBall, stepPlayer2,
      stepPlayer1]
  ⟨h, simulatePhysics_reset_on_exit exitStart (1/100) (Or.inr h)⟩

theorem player1Arena_top (s : Game F) (h2 : s.player1.extent1 ≤ 2)
    (h : s.player1.offset1 + s.player1.extent1 / 2 > 1) :
    (player1Arena s).player1.offset1 = 1 - s.player1.extent1 / 2 ∧ (player1Arena s).player1Dp = 0 := by
  unfold player1Arena; dsimp only
  split_ifs with a b <;> first | exact ⟨rfl, rfl⟩ | (exfalso; dsimp only at *; linarith)

theorem player1Arena_bottom (s : Game F) (h2 : s.player1.extent1 ≤ 2)
    (h : s.player1.offset1 - s.player1.extent1 / 2 < -1) :
    (player1Arena s).player1.offset1 = -1 + s.player1.extent1 / 2 ∧ (player1Arena s).player1Dp = 0 := by
  unfold player1Arena; dsimp only
  split_ifs with a b <;> first | exact ⟨rfl, rfl⟩ | (exfalso; dsimp only at *; linarith)

theorem player2Arena_top (s : Game F) (h2 : s.player2.extent1 ≤ 2)
    (h : s.player2.offset1 + s.player2.extent1 / 2 > 1) :
    (player2Arena s).player2.offset1 = 1 - s.player2.extent1 / 2 ∧ (player2Arena s).player2Dp = 0 := by
  unfold player2Arena; dsimp only
  split_ifs with a b <;> first | exact ⟨rfl, rfl⟩ | (exfalso; dsimp only at *; linarith)

theorem player2Arena_bottom (s : Game F) (h2 : s.player2.extent1 ≤ 2)
    (h : s.player2.offset1 - s.player2.extent1 / 2 < -1) :
    (player2Arena s).player2.offset1 = -1 + s.player2.extent1 / 2 ∧ (player2Arena s).player2Dp = 0 := by
  unfold player2Arena; dsimp only
  split_ifs with a b <;> first | exact ⟨rfl, rfl⟩ | (exfalso; dsimp only at *; linarith)

theorem beforeArena_player1 (s : Game F) (delta : F) :
    (loseCondition (afterWalls s delta)).player1 = (stepPlayer1 s delta).player1 := by
  simp [loseCondition, afterWalls, ballArena, afterPaddles, motion, stepBall, stepPlayer2]

theorem beforeArena_player2 (s : Game F) (delta : F) :
    (loseCondition (afterWalls s delta)).player2 = (stepPlayer2 s delta).player2 := by
  simp [loseCondition, afterWalls, ballArena, afterPaddles, motion, stepBall, stepPlayer2,
    stepPlayer1]

/-- C4. Paddle wall stop: when player1's vertical extent `e` is between 0 and 2 and its
integrated position `offset[1] + player1Dp*delta + 0.5*player1DDp'*delta^2` (with
`player1DDp'` the acceleration after the drag of 10) has its top edge above 1, the
post-state has `player1.offset[1] = 1 - e/2` and `player1Dp = 0`; a bottom edge below -1
gives `-1 + e/2` and velocity 0; the same holds for player2 with its drag of 5. -/
theorem simulatePhysics_paddle_wall_stop (s : Game F) (delta : F) :
    (0 ≤ s.player1.extent1 ∧ s.player1.extent1 ≤ 2 →
      (s.player1.offset1 + s.player1Dp * delta
          + 0.5 * (s.player1DDp - s.player1Dp * 10) * delta ^ 2 + s.player1.extent1 / 2 > 1 →
        (simulatePhysics s delta).player1.offset1 = 1 - s.player1.extent1 / 2 ∧
        (simulatePhysics s delta).player1Dp = 0) ∧
      (s.player1.offset1 + s.player1Dp * delta
          + 0.5 * (s.player1DDp - s.player1Dp * 10) * delta ^ 2 - s.player1.extent1 / 2 < -1 →
        (simulatePhysics s delta).player1.offset1 = -1 + s.player1.extent1 / 2 ∧
        (simulatePhysics s delta).player1Dp = 0)) ∧
    (0 ≤ s.player2.extent1 ∧ s.player2.extent1 ≤ 2 →
      (s.player2.offset1 + s.player2Dp * delta
          + 0.5 * (s.player2DDp - s.player2Dp * 5) * delta ^ 2 + s.player2.extent1 / 2 > 1 →
        (simulatePhysics s delta).player2.offset1 = 1 - s.player2.extent1 / 2 ∧
        (simulatePhysics s delta).player2Dp = 0) ∧
      (s.player2.offset1 + s.player2Dp * delta
          + 0.5 * (s.player2DDp - s.player2Dp * 5) * delta ^ 2 - s.player2.extent1 / 2 < -1 →
        (simulatePhysics s delta).player2.offset1 = -1 + s.player2.extent1 / 2 ∧
        (simulatePhysics s delta).player2Dp = 0)) := by
  have e1 : s.player1.offset1 + s.player1Dp * delta
      + 0.5 * (s.player1DDp - s.player1Dp * 10) * delta ^ 2
      = ((loseCondition (afterWalls s delta)).player1).offset1 := by
    rw [beforeArena_player1]; simp only [stepPlayer1]; ring
  have e2 : s.player2.offset1 + s.player2Dp * delta
      + 0.5 * (s.player2DDp - s.player2Dp * 5) * delta ^ 2
      = ((player1Arena (loseCondition (afterWalls s delta))).player2).offset1 := by
    rw [player1Arena_player2, beforeArena_player2]; simp only [stepPlayer2]; ring
  have x1 := beforeArena_player1_extent1 s delta
  have x2 : (player1Arena (loseCondition (afterWalls s delta))).player2.extent1
      = s.player2.extent1 := by simp
  unfold simulatePhysics
  refine ⟨fun he => ⟨fun h => ?_, fun h => ?_⟩, fun he => ⟨fun h => ?_, fun h => ?_⟩⟩
  · rw [e1, ← x1] at h
    have := player1Arena_top _ (by rw [x1]; exact he.2) h
    simpa [x1] using this
  · rw [e1, ← x1] at h
    have := player1Arena_bottom _ (by rw [x1]; exact he.2) h
    simpa [x1] using this
  · rw [e2, ← x2] at h
    have := player2Arena_top _ (by rw [x2]; exact he.2) h
    simpa [x2] using this
  · rw [e2, ← x2] at h
    have := player2Arena_bottom _ (by rw [x2]; exact he.2) h
    simpa [x2] using this

/-- Witness of C4: in `edgeStart` player 1 crosses the top and player 2 the bottom, in
`edgeStartMirror` the other way round; all four are stopped at the wall. -/
theorem simulatePhysics_paddle_wall_stop_witness :
    ((simulatePhysics edgeStart (1/10)).player1.offset1 = 1 - 0.65 / 2 ∧
      (simulatePhysics edgeStart (1/10)).player1Dp = 0) ∧
    ((simulatePhysics edgeStart (1/10)).player2.offset1 = -1 + 0.65 / 2 ∧
      (simulatePhysics edgeStart (1/10)).player2Dp = 0) ∧
    ((simulatePhysics edgeStartMirror (1/10)).player1.offset1 = -1 + 0.65 / 2 ∧
      (simulatePhysics edgeStartMirror (1/10)).player1Dp = 0) ∧
    ((simulatePhysics edgeStartMirror (1/10)).player2.offset1 = 1 - 0.65 / 2 ∧
      (simulatePhysics edgeStartMirror (1/10)).player2Dp = 0) :=
  ⟨((simulatePhysics_paddle_wall_stop edgeStart (1/10)).1
      (by norm_num [edgeStart])).1 (by norm_num [edgeStart]),
   ((simulatePhysics_paddle_wall_stop edgeStart (1/10)).2
      (by norm_num [edgeStart])).2 (by norm_num [edgeStart]),
   ((simulatePhysics_paddle_wall_stop edgeStartMirror (1/10)).1
      (by norm_num [edgeStartMirror])).2 (by norm_num [edgeStartMirror]),
   ((simulatePhysics_paddle_wall_stop edgeStartMirror (1/10)).2
      (by norm_num [edgeStartMirror])).1 (by norm_num [edgeStartMirror])⟩

theorem motion_flight (delta : F) (k : Nat) :
    motion (flight delta k) delta = flight delta (k + 1) := by
  simp only [motion, stepBall, stepPlayer2, stepPlayer1, flight, scenarioStart]
  ext <;> simp; ring

theorem flight_step (delta : F) (k : Nat) (h0 : 0 ≤ delta) (h : ((k : F) + 1) * delta ≤ 0.94) :
    simulatePhysics (flight delta k) delta = flight delta (k + 1) ∧
    ¬ takesPlayer1Branch (flight delta k) delta ∧ ¬ resetsBall (flight delta k) delta := by
  have hk : (0 : F) ≤ ((k : F) + 1) * delta := by positivity
  have hm := motion_flight delta k
  have h1 : ¬ hitsPlayer1 (flight delta (k + 1)) := by
    simp only [hitsPlayer1, flight, scenarioStart]
    rintro ⟨a, -⟩
    norm_num at a h
    linarith
  have h2 : ¬ hitsPlayer2 (flight delta (k + 1)) := by
    simp only [hitsPlayer2, flight, scenarioStart]
    rintro ⟨-, a, -⟩
    norm_num at a h
    linarith
  have hp : afterPaddles (flight delta k) delta = flight delta (k + 1) := by
    simp only [afterPaddles, hm, collidePlayer1, if_neg h1, collidePlayer2, if_neg h2]
  have hw : afterWalls (flight delta k) delta = flight delta (k + 1) := by
    simp only [afterWalls, hp, ballArena, ballArenaTop, ballArenaBottom]
    norm_num [flight, scenarioStart]
  have l1 : ¬ player1Loses (flight delta (k + 1)) := by
    simp only [player1Loses, flight, scenarioStart]
    intro a
    norm_num at a h
    linarith
  have l2 : ¬ player2Loses (flight delta (k + 1)) := by
    simp only [player2Loses, flight, scenarioStart]
    intro a
    norm_num at a h
    linarith
  refine ⟨?_, ?_, ?_⟩
  · simp only [simulatePhysics, hw, loseCondition, player1Lose, if_neg l1, player2Lose, if_neg l2]
    simp only [player1Arena, player2Arena]
    norm_num [flight, scenarioStart]
  · simpa only [takesPlayer1Branch, hm] using h1
  · simp only [resetsBall, hw, player1Lose, if_neg l1]
    exact fun a => a.elim l1 l2

theorem flight_hit (delta : F) (k : Nat) (h1 : delta < 0.02)
    (hk : (k : F) * delta ≤ 0.94) (hk1 : 0.94 < ((k : F) + 1) * delta) :
    takesPlayer1Branch (flight delta k) delta ∧ ¬ resetsBall (flight delta k) delta ∧
    simulatePhysics (flight delta k) delta = bounced := by
  have hm := motion_flight delta k
  have hh : hitsPlayer1 (flight delta (k + 1)) := by
    simp only [hitsPlayer1, flight, scenarioStart]
    norm_num at hk hk1 h1 ⊢
    constructor <;> nlinarith
  have hb : collidePlayer1 (flight delta (k + 1)) = bounced := by
    simp only [collidePlayer1, if_pos hh]
    simp only [bouncePlayer1, flight, scenarioStart, bounced]
    ext <;> norm_num
  have h2 : ¬ hitsPlayer2 (bounced : Game F) := by
    simp only [hitsPlayer2, bounced, scenarioStart]
    norm_num
  have hp : afterPaddles (flight delta k) delta = bounced := by
    simp only [afterPaddles, hm, hb, collidePlayer2, if_neg h2]
  have hw : afterWalls (flight delta k) delta = bounced := by
    simp only [afterWalls, hp, ballArena, ballArenaTop, ballArenaBottom]
    norm_num [bounced, scenarioStart]
  have l1 : ¬ player1Loses (bounced : Game F) := by
    simp only [player1Loses, bounced, scenarioStart]
    norm_num
  have l2 : ¬ player2Loses (bounced : Game F) := by
    simp only [player2Loses, bounced, scenarioStart]
    norm_num
  refine ⟨?_, ?_, ?_⟩
  · simpa only [takesPlayer1Branch, hm] using hh
  · simp only [resetsBall, hw, player1Lose, if_neg l1]
    exact fun a => a.elim l1 l2
  · simp only [simulatePhysics, hw, loseCondition, player1Lose, if_neg l1, player2Lose, if_neg l2]
    simp only [player1Arena, player2Arena]
    norm_num [bounced, scenarioStart]

theorem simulateN_flight (delta : F) (h0 : 0 ≤ delta) :
    ∀ k : Nat, (k : F) * delta ≤ 0.94 → simulateN scenarioStart delta k = flight delta k := by
  intro k
  induction k with
  | zero =>
    intro _
    simp only [simulateN, flight, scenarioStart]
    ext <;> simp
  | succ k ih =>
    intro h
    have h' : ((k : F) + 1) * delta ≤ 0.94 := by push_cast at h; exact h
    have hk : (k : F) * delta ≤ 0.94 := by nlinarith
    rw [simulateN, ih hk]
    exact (flight_step delta k h0 h').1

theorem exists_last_flight [Archimedean F] (delta : F) (h0 : 0 < delta) :
    ∃ n : Nat, (n : F) * delta ≤ 0.94 ∧ 0.94 < ((n : F) + 1) * delta := by
  classical
  have hex : ∃ m : Nat, (0.94 : F) < (m : F) * delta := by
    obtain ⟨m, hm⟩ := exists_nat_gt ((0.94 : F) / delta)
    exact ⟨m, (div_lt_iff₀ h0).mp hm⟩
  have hpos : 0 < Nat.find hex := by
    rcases Nat.eq_zero_or_pos (Nat.find hex) with h | h
    · have := Nat.find_spec hex
      rw [h] at this
      norm_num at this
    · exact h
  refine ⟨Nat.find hex - 1, ?_, ?_⟩
  · have := Nat.find_min hex (Nat.sub_lt hpos Nat.one_pos)
    exact not_lt.mp this
  · have h := Nat.find_spec hex
    have e : ((Nat.find hex - 1 : Nat) : F) + 1 = (Nat.find hex : F) := by
      have : Nat.find hex - 1 + 1 = Nat.find hex := Nat.sub_add_cancel hpos
      exact_mod_cast this
    rw [e]
    exact h

/-- C2, amended. Bounce scenario in exact arithmetic (`F` an Archimedean linearly ordered
field, such as the rationals and the reals): from `scenarioStart` (ball at (0,0) with
velocity (-1,0) and extent (0.02,0.04), paddles at (-0.95,0) and (0.95,0) with extent
(0.04,0.65), at rest),
for every step `delta` with `0 < delta < 0.02` there is a number `n` of steps after which
the next step takes the player 1 collision branch; none of the steps up to and including
that one resets the ball, no earlier step takes the branch, and right after that step
`ballDX = 1.01` and `ball.offset[0] = -0.93`. -/
theorem bounce_scenario [Archimedean F] (delta : F) (h0 : 0 < delta) (h1 : delta < 0.02) :
    ∃ n : Nat,
      (∀ k, k < n → ¬ takesPlayer1Branch (simulateN scenarioStart delta k) delta ∧
                    ¬ resetsBall (simulateN scenarioStart delta k) delta) ∧
      takesPlayer1Branch (simulateN scenarioStart delta n) delta ∧
      ¬ resetsBall (simulateN scenarioStart delta n) delta ∧
      (simulateN scenarioStart delta (n + 1)).ballDX = 1.01 ∧
      (simulateN scenarioStart delta (n + 1)).ball.offset0 = -0.93 := by
  obtain ⟨n, hn, hn1⟩ := exists_last_flight delta h0
  have hle : ∀ k : Nat, k ≤ n → (k : F) * delta ≤ 0.94 := by
    intro k hk
    have : (k : F) ≤ (n : F) := by exact_mod_cast hk
    nlinarith
  have hit := flight_hit delta n h1 hn hn1
  refine ⟨n, ?_, ?_, ?_, ?_, ?_⟩
  · intro k hk
    rw [simulateN_flight delta h0.le k (hle k hk.le)]
    have h := hle (k + 1) hk
    push_cast at h
    exact (flight_step delta k h0.le h).2
  · rw [simulateN_flight delta h0.le n hn]; exact hit.1
  · rw [simulateN_flight delta h0.le n hn]; exact hit.2.1
  · rw [simulateN, simulateN_flight delta h0.le n hn, hit.2.2]; rfl
  · rw [simulateN, simulateN_flight delta h0.le n hn, hit.2.2]; rfl

/-- Witness of C2 amended, over the rationals with `delta = 1/100`. -/
theorem bounce_scenario_witness :
    (0 : ℚ) < 1 / 100 ∧ (1 / 100 : ℚ) < 0.02 ∧
    ∃ n : Nat,
      (∀ k, k < n → ¬ takesPlayer1Branch (simulateN (scenarioStart : Game ℚ) (1 / 100) k) (1 / 100) ∧
                    ¬ resetsBall (simulateN (scenarioStart : Game ℚ) (1 / 100) k) (1 / 100)) ∧
      takesPlayer1Branch (simulateN (scenarioStart : Game ℚ) (1 / 100) n) (1 / 100) ∧
      ¬ resetsBall (simulateN (scenarioStart : Game ℚ) (1 / 100) n) (1 / 100) ∧
      (simulateN (scenarioStart : Game ℚ) (1 / 100) (n + 1)).ballDX = 1.01 ∧
      (simulateN (scenarioStart : Game ℚ) (1 / 100) (n + 1)).ball.offset0 = -0.93 :=
  ⟨by norm_num, by norm_num, bounce_scenario (1 / 100) (by norm_num) (by norm_num)⟩

/-! ### The scenario in binary32 with `delta = 1e-9f` -/

theorem withBallX_withBallX (s : Game F32) (x y : F32) :
    withBallX (withBallX s x) y = withBallX s y :=
  rfl

theorem motion_withBallX (s : Game F32) (x delta : F32) :
    motion (withBallX s x) delta = withBallX (motion s delta) (x + s.ballDX * delta) :=
  rfl

theorem ballArena_withBallX (s : Game F32) (x : F32) :
    ballArena (withBallX s x) = withBallX (ballArena s) x := by
  simp only [ballArena, ballArenaTop, ballArenaBottom, withBallX]
  split_ifs <;> rfl

theorem player1Arena_withBallX (s : Game F32) (x : F32) :
    player1Arena (withBallX s x) = withBallX (player1Arena s) x := by
  simp only [player1Arena, withBallX]
  split_ifs <;> rfl

theorem player2Arena_withBallX (s : Game F32) (x : F32) :
    player2Arena (withBallX s x) = withBallX (player2Arena s) x := by
  simp only [player2Arena, withBallX]
  split_ifs <;> rfl

/-- A call of `simulatePhysics` in which neither collision test and neither lose test
passes: only the motion and the wall blocks act. -/
theorem simulatePhysics_of_miss (s : Game F32) (delta : F32)
    (h1 : ¬ hitsPlayer1 (motion s delta)) (h2 : ¬ hitsPlayer2 (motion s delta))
    (h3 : ¬ player1Loses (ballArena (motion s delta)))
    (h4 : ¬ player2Loses (ballArena (motion s delta))) :
    simulatePhysics s delta = player2Arena (player1Arena (ballArena (motion s delta))) := by
  simp only [simulatePhysics, afterWalls, afterPaddles, loseCondition, collidePlayer1,
    collidePlayer2, player1Lose, player2Lose, if_neg h1, if_neg h2, if_neg h3, if_neg h4]

/-- The values of the scenario that do not depend on the abscissa of the ball, computed
in binary32 for `delta = 1e-9f`: the paddles and the ordinate of the ball stay as they
are, the ball's displacement is `-1e-9f`, its half width `0.01f`, the right face of
player 1 `-0.93f` and the left face of player 2 `0.93f`. -/
theorem stall_const :
    motion (scenarioStart : Game F32) 1e-9 =
      withBallX scenarioStart (F32.fin (-9007199 / 9007199254740992)) ∧
    ballArena (scenarioStart : Game F32) = scenarioStart ∧
    player1Arena (scenarioStart : Game F32) = scenarioStart ∧
    player2Arena (scenarioStart : Game F32) = scenarioStart ∧
    (scenarioStart : Game F32).ballDX * 1e-9 = F32.fin (-9007199 / 9007199254740992) ∧
    (scenarioStart : Game F32).ball.extent0 / 2 = F32.fin (5368709 / 536870912) ∧
    (scenarioStart : Game F32).player1.offset0 + (scenarioStart : Game F32).player1.extent0 / 2
      = F32.fin (-15602811 / 16777216) ∧
    (scenarioStart : Game F32).player2.offset0 - (scenarioStart : Game F32).player2.extent0 / 2
      = F32.fin (15602811 / 16777216) ∧
    (-1 : F32) = F32.fin (-1) ∧ (1 : F32) = F32.fin 1 ∧
    (scenarioStart : Game F32) = withBallX scenarioStart (F32.fin 0) := by
  decide!

/-- One step of `1e-9f` from the scenario with the ball's centre at `q` in
`[-1/32, 0]`: the new centre is again in `[-1/32, 0]` (at `-1/32` the sum
`q - 1e-9` rounds back to `-1/32`), nothing else changes and the player 1 collision
branch is not taken. -/
theorem stall_step (q : ℚ) (h1 : -(1 / 32) ≤ q) (h2 : q ≤ 0) :
    ∃ v : ℚ, -(1 / 32) ≤ v ∧ v ≤ 0 ∧
      simulatePhysics (withBallX (scenarioStart : Game F32) (F32.fin q)) 1e-9 =
        withBallX scenarioStart (F32.fin v) ∧
      ¬ takesPlayer1Branch (withBallX (scenarioStart : Game F32) (F32.fin q)) 1e-9 := by
  obtain ⟨k0, k2, k3, k4, kd, ke, kp1, kp2, km1, k1, -⟩ := stall_const
  have p5 : (2 : ℚ) ^ (-5 : ℤ) = 1 / 32 := by norm_num
  have p29 : (2 : ℚ) ^ (-5 - 24 : ℤ) = 1 / 536870912 := by norm_num
  have p4 : (2 : ℚ) ^ (-4 : ℤ) = 1 / 16 := by norm_num
  have p28 : (0 : ℚ) ≤ (2 : ℚ) ^ (-4 - 24 : ℤ) := by positivity
  -- the new abscissa of the ball
  obtain ⟨v, hv, hvb, -, hv0⟩ := F32.round_bound (-5) (by norm_num) (by norm_num)
    (q + -9007199 / 9007199254740992) (by
      rw [p5, p29, abs_le]
      constructor <;> linarith)
  rw [p5, abs_le] at hvb
  have hv0' : v ≤ 0 := hv0 (by linarith)
  -- its right and left edges
  obtain ⟨w, hw, hwb, -, -⟩ := F32.round_bound (-4) (by norm_num) (by norm_num)
    (v + 5368709 / 536870912) (by
      rw [p4, abs_le]
      constructor <;> linarith)
  obtain ⟨u, hu, hub, -, -⟩ := F32.round_bound (-4) (by norm_num) (by norm_num)
    (v + -(5368709 / 536870912)) (by
      rw [p4, abs_le]
      constructor <;> linarith)
  rw [p4, abs_le] at hwb hub
  have hm : motion (withBallX (scenarioStart : Game F32) (F32.fin q)) 1e-9 =
      withBallX scenarioStart (F32.fin v) := by
    rw [motion_withBallX, k0, withBallX_withBallX, kd, F32.add_fin, hv]
  have hb : ballArena (withBallX (scenarioStart : Game F32) (F32.fin v)) =
      withBallX scenarioStart (F32.fin v) := by
    rw [ballArena_withBallX, k2]
  have e1 : (withBallX (scenarioStart : Game F32) (F32.fin v)).ball.offset0
      + (withBallX (scenarioStart : Game F32) (F32.fin v)).ball.extent0 / 2 = F32.fin w := by
    show F32.fin v + (scenarioStart : Game F32).ball.extent0 / 2 = F32.fin w
    rw [ke, F32.add_fin, hw]
  have e2 : (withBallX (scenarioStart : Game F32) (F32.fin v)).ball.offset0
      - (withBallX (scenarioStart : Game F32) (F32.fin v)).ball.extent0 / 2 = F32.fin u := by
    show F32.fin v - (scenarioStart : Game F32).ball.extent0 / 2 = F32.fin u
    rw [ke, F32.sub_fin, hu]
  have m1 : ¬ hitsPlayer1 (withBallX (scenarioStart : Game F32) (F32.fin v)) := by
    intro h
    have h' := h.1
    rw [e1] at h'
    have : F32.fin w < F32.fin (-15602811 / 16777216) := by
      rw [← kp1]; exact h'
    rw [F32.lt_fin] at this
    linarith
  have m2 : ¬ hitsPlayer2 (withBallX (scenarioStart : Game F32) (F32.fin v)) := by
    intro h
    have h' := h.2.1
    rw [e2] at h'
    have : F32.fin (15602811 / 16777216) < F32.fin u := by
      rw [← kp2]; exact h'
    rw [F32.lt_fin] at this
    linarith
  have m3 : ¬ player1Loses (withBallX (scenarioStart : Game F32) (F32.fin v)) := by
    intro h
    unfold player1Loses at h
    rw [e2, km1, F32.lt_fin] at h
    linarith
  have m4 : ¬ player2Loses (withBallX (scenarioStart : Game F32) (F32.fin v)) := by
    intro h
    unfold player2Loses at h
    rw [e1] at h
    have : F32.fin 1 < F32.fin w := by
      rw [← k1]; exact h
    rw [F32.lt_fin] at this
    linarith
  refine ⟨v, hvb.1, hv0', ?_, ?_⟩
  · rw [simulatePhysics_of_miss _ _ (by rw [hm]; exact m1) (by rw [hm]; exact m2)
      (by rw [hm, hb]; exact m3) (by rw [hm, hb]; exact m4), hm, hb, player1Arena_withBallX, k3,
      player2Arena_withBallX, k4]
  · unfold takesPlayer1Branch
    rw [hm]
    exact m1

/-- The state after any number of steps of `1e-9f`: the scenario with the ball's centre
somewhere in `[-1/32, 0]`. -/
theorem stall_state (n : Nat) :
    ∃ v : ℚ, -(1 / 32) ≤ v ∧ v ≤ 0 ∧
      simulateN (scenarioStart : Game F32) 1e-9 n = withBallX scenarioStart (F32.fin v) := by
  induction n with
  | zero => exact ⟨0, by norm_num, le_rfl, stall_const.2.2.2.2.2.2.2.2.2.2⟩
  | succ n ih =>
    obtain ⟨v, h1, h2, h⟩ := ih
    obtain ⟨v', h1', h2', h', -⟩ := stall_step v h1 h2
    exact ⟨v', h1', h2', by rw [simulateN, h, h']⟩

/-- An ordinary step in binary32, for comparison: with `delta = 0.01f` the first 94 steps
from `scenarioStart` neither take the player 1 branch nor reset the ball, the next step
takes the branch, and right after it `ballDX = 1.01f` and `ball.offset[0] = -0.93f`. -/
theorem bounce_scenario_binary32 :
    (∀ k : Fin 94, ¬ takesPlayer1Branch (simulateN (scenarioStart : Game F32) 0.01 k) 0.01 ∧
      ¬ resetsBall (simulateN (scenarioStart : Game F32) 0.01 k) 0.01) ∧
    takesPlayer1Branch (simulateN (scenarioStart : Game F32) 0.01 94) 0.01 ∧
    ¬ resetsBall (simulateN (scenarioStart : Game F32) 0.01 94) 0.01 ∧
    (simulateN (scenarioStart : Game F32) 0.01 95).ballDX = 1.01 ∧
    (simulateN (scenarioStart : Game F32) 0.01 95).ball.offset0 = -0.93 := by
  decide!

/-- C2, as stated, fails in binary32: `delta = 1e-9f` satisfies `0 < delta < 0.02`, and
from `scenarioStart` no step ever takes the player 1 collision branch: after every
number `n` of steps `ballDX` is still `-1` and the ball's centre is at an abscissa not
below `-1/32 = -0.03125`, where `x - 1e-9` rounds back to `x`. -/
theorem bounce_stalls_binary32 :
    ((0 : F32) < 1e-9 ∧ (1e-9 : F32) < 0.02) ∧
    ∀ n : Nat,
      ¬ takesPlayer1Branch (simulateN (scenarioStart : Game F32) 1e-9 n) 1e-9 ∧
      (simulateN (scenarioStart : Game F32) 1e-9 n).ballDX = -1 ∧
      ∃ v : ℚ, -(1 / 32) ≤ v ∧
        (simulateN (scenarioStart : Game F32) 1e-9 n).ball.offset0 = F32.fin v := by
  refine ⟨by decide!, fun n => ?_⟩
  obtain ⟨v, h1, h2, h⟩ := stall_state n
  obtain ⟨-, -, -, -, hb⟩ := stall_step v h1 h2
  rw [h]
  exact ⟨hb, rfl, v, h1, rfl⟩

/-! ## Evaluation lemmas for the matrix library -/

theorem mat4.set_apply {F : Type} (m : mat4 F) (i j : Fin 16) (x : F) :
    (m.set i x) j = if j = i then x else m j := by
  simp [mat4.set, Function.update_apply]

theorem finRange16 :
    List.finRange 16 = [0, 1, 2, 3, 4, 5, 6, 7, 8, 9, 10, 11, 12, 13, 14, 15] := by
  rfl

theorem iden_apply (i : Fin 16) : (iden : mat4 F) i = if i % 5 = 0 then 1 else 0 := by
  fin_cases i <;> rfl

theorem MatIdentity_eq (m : mat4 F) : MatIdentity m = iden := by
  funext i
  fin_cases i <;> simp [MatIdentity, finRange16, iden_apply, mat4.set_apply]

theorem MatMulMat.body_apply (second first : mat4 F) (i j : Fin 16) (hi : i.val < 4) :
    MatMulMat.body second first i j =
      if j % 4 = i then
        first i * second (j / 4 * 4) + first (i + 4) * second (j / 4 * 4 + 1) +
        first (i + 8) * second (j / 4 * 4 + 2) + first (i + 12) * second (j / 4 * 4 + 3)
      else first j := by
  have h : i = 0 ∨ i = 1 ∨ i = 2 ∨ i = 3 := by
    rcases i with ⟨i, h16⟩
    simp only [Fin.ext_iff]
    simp at hi ⊢
    omega
  rcases h with rfl | rfl | rfl | rfl <;> fin_cases j <;>
    simp only [MatMulMat.body, mat4.set_apply, Fin.reduceAdd, Fin.reduceEq, ↓reduceIte,
      Fin.isValue, Fin.reduceMod, Fin.reduceDiv, Fin.reduceMul, Fin.zero_eta, Fin.mk_one,
      Fin.reduceFinMk, zero_add]

theorem MatMulMat_apply (first second : mat4 F) (idx : Fin 16) :
    MatMulMat first second idx =
      first (idx % 4) * second (idx / 4 * 4) + first (idx % 4 + 4) * second (idx / 4 * 4 + 1) +
      first (idx % 4 + 8) * second (idx / 4 * 4 + 2) +
      first (idx % 4 + 12) * second (idx / 4 * 4 + 3) := by
  have h0 : ((0 : Fin 16) : Nat) < 4 := by decide
  have h1 : ((1 : Fin 16) : Nat) < 4 := by decide
  have h2 : ((2 : Fin 16) : Nat) < 4 := by decide
  have h3 : ((3 : Fin 16) : Nat) < 4 := by decide
  fin_cases idx <;>
    simp only [MatMulMat, List.foldl, MatMulMat.body_apply _ _ _ _ h0,
      MatMulMat.body_apply _ _ _ _ h1, MatMulMat.body_apply _ _ _ _ h2,
      MatMulMat.body_apply _ _ _ _ h3, Fin.reduceAdd, Fin.reduceEq, ↓reduceIte,
      Fin.isValue, Fin.reduceMod, Fin.reduceDiv, Fin.reduceMul, Fin.zero_eta, Fin.mk_one,
      Fin.reduceFinMk, zero_add]

theorem MatMulMat_iden_right (m : mat4 F) : MatMulMat m iden = m := by
  funext idx
  rw [MatMulMat_apply]
  fin_cases idx <;>
    simp [iden_apply]

theorem MatMulMat_iden_left (m : mat4 F) : MatMulMat iden m = m := by
  funext idx
  rw [MatMulMat_apply]
  fin_cases idx <;>
    simp [iden_apply]

/-! ## The in-place loop of `MatMulMat` on non-overlapping arrays -/

theorem MatMulMat.bodyInPlace_frame (first second : Nat) (mem : Nat → F) (i a : Nat)
    (hi : i < 4) (ha : a < first ∨ first + 16 ≤ a) :
    MatMulMat.bodyInPlace first second mem i a = mem a := by
  unfold MatMulMat.bodyInPlace
  rw [Function.update_noteq (by omega), Function.update_noteq (by omega),
    Function.update_noteq (by omega), Function.update_noteq (by omega)]

theorem MatMulMat.bodyInPlace_load (first second : Nat) (mem : Nat → F) (i : Fin 16)
    (hi : i.val < 4) (hd : first + 16 ≤ second ∨ second + 16 ≤ first) :
    mat4.load (MatMulMat.bodyInPlace first second mem i.val) first =
      MatMulMat.body (mat4.load mem second) (mat4.load mem first) i := by
  have h : i = 0 ∨ i = 1 ∨ i = 2 ∨ i = 3 := by
    rcases i with ⟨i, h16⟩
    simp only [Fin.ext_iff]
    simp at hi ⊢
    omega
  funext j
  rcases h with rfl | rfl | rfl | rfl <;> fin_cases j <;>
    simp (disch := omega) only [MatMulMat.bodyInPlace, MatMulMat.body, mat4.load, mat4.set_apply,
      Function.update_noteq, Function.update_same,
      Fin.reduceAdd, Fin.reduceEq, ↓reduceIte,
      Fin.isValue, Fin.reduceMod, Fin.reduceDiv, Fin.reduceMul, Fin.zero_eta, Fin.mk_one,
      Fin.reduceFinMk, zero_add, add_zero, Fin.val_zero, Fin.val_one, Fin.val_two, Nat.reduceAdd,
      Fin.coe_ofNat_eq_mod, Nat.reduceMod]

theorem MatMulMat.bodyInPlace_load_second (first second : Nat) (mem : Nat → F) (i : Nat)
    (hi : i < 4) (hd : first + 16 ≤ second ∨ second + 16 ≤ first) :
    mat4.load (MatMulMat.bodyInPlace first second mem i) second = mat4.load mem second := by
  funext j
  have hj := j.isLt
  exact MatMulMat.bodyInPlace_frame first second mem i _ hi (by omega)

theorem MatMulMat.inPlace_load (first second : Nat) (mem : Nat → F)
    (hd : first + 16 ≤ second ∨ second + 16 ≤ first) :
    mat4.load (MatMulMat.inPlace first second mem) first =
      MatMulMat (mat4.load mem first) (mat4.load mem second) := by
  have step : ∀ (m : Nat → F) (i : Fin 16) (n : Nat), n = i.val → i.val < 4 →
      mat4.load (MatMulMat.bodyInPlace first second m n) first =
        MatMulMat.body (mat4.load m second) (mat4.load m first) i ∧
      mat4.load (MatMulMat.bodyInPlace first second m n) second = mat4.load m second := by
    intro m i n hn hi
    subst hn
    exact ⟨MatMulMat.bodyInPlace_load first second m i hi hd,
      MatMulMat.bodyInPlace_load_second first second m i.val hi hd⟩
  simp only [MatMulMat.inPlace, MatMulMat, List.foldl]
  obtain ⟨h0, s0⟩ := step mem 0 0 rfl (by decide)
  obtain ⟨h1, s1⟩ := step (MatMulMat.bodyInPlace first second mem 0) 1 1 rfl (by decide)
  obtain ⟨h2, s2⟩ := step
    (MatMulMat.bodyInPlace first second (MatMulMat.bodyInPlace first second mem 0) 1)
    2 2 rfl (by decide)
  obtain ⟨h3, -⟩ := step
    (MatMulMat.bodyInPlace first second
      (MatMulMat.bodyInPlace first second (MatMulMat.bodyInPlace first second mem 0) 1) 2)
    3 3 rfl (by decide)
  rw [h3, s2, s1, s0, h2, s1, s0, h1, s0, h0]

theorem MatMulMat.inPlace_frame (first second : Nat) (mem : Nat → F) (a : Nat)
    (ha : a < first ∨ first + 16 ≤ a) :
    MatMulMat.inPlace first second mem a = mem a := by
  simp only [MatMulMat.inPlace, List.foldl]
  rw [MatMulMat.bodyInPlace_frame _ _ _ _ _ (by decide) ha,
    MatMulMat.bodyInPlace_frame _ _ _ _ _ (by decide) ha,
    MatMulMat.bodyInPlace_frame _ _ _ _ _ (by decide) ha,
    MatMulMat.bodyInPlace_frame _ _ _ _ _ (by decide) ha]

theorem MatMulMat_entry (first second : mat4 F) (i j : Fin 4) :
    MatMulMat first second (ix i j) = ∑ k : Fin 4, first (ix i k) * second (ix k j) := by
  rw [MatMulMat_apply, Fin.sum_univ_four]
  fin_cases i <;> fin_cases j <;> rfl

/-! ## Claims on the matrix library -/

/-- C5. `MatMulMat(first, second)` on two distinct matrices (arrays of 16 floats that do
not overlap) overwrites `first` with the column-major product: for all `i`, `j` in 0..3
the new `first[i + 4*j]` is the sum over `k` of `(old first)[i + 4*k] * second[k + 4*j]`,
and `second` is unchanged. The loop works in place, row by row, and the result is the
product of the old content of `first`: it reads no entry it has overwritten. -/
theorem MatMulMat_product (mem : Nat → F) (first second : Nat)
    (hd : first + 16 ≤ second ∨ second + 16 ≤ first) :
    (∀ i j : Fin 4, MatMulMat.inPlace first second mem (first + (i.val + 4 * j.val)) =
      ∑ k : Fin 4, mem (first + (i.val + 4 * k.val)) * mem (second + (k.val + 4 * j.val))) ∧
    (∀ k : Nat, k < 16 → MatMulMat.inPlace first second mem (second + k) = mem (second + k)) ∧
    mat4.load (MatMulMat.inPlace first second mem) first =
      MatMulMat (mat4.load mem first) (mat4.load mem second) := by
  have hl := MatMulMat.inPlace_load first second mem hd
  refine ⟨fun i j => ?_, fun k hk => ?_, hl⟩
  · have h := congrFun hl (ix i j)
    rw [MatMulMat_entry] at h
    exact h
  · exact MatMulMat.inPlace_frame first second mem _ (by omega)

/-- Witness of C5: `first` at address 0 and `second` at address 16 of `countingMem`;
entry `1 + 4*2` of the product is `1*24 + 5*25 + 9*26 + 13*27 = 734`, entry 5 of
`second` keeps its value 21. -/
theorem MatMulMat_product_witness :
    (0 + 16 ≤ 16) ∧
    MatMulMat.inPlace 0 16 countingMem (0 + (1 + 4 * 2)) = 734 ∧
    MatMulMat.inPlace 0 16 countingMem (16 + 5) = 21 :=
  ⟨le_refl _,
   ((MatMulMat_product countingMem 0 16 (Or.inl (le_refl _))).1 1 2).trans
     (by
      have h3 : ((3 : Fin 4) : ℕ) = 3 := rfl
      simp only [Fin.sum_univ_four, countingMem, h3]
      norm_num),
   ((MatMulMat_product countingMem 0 16 (Or.inl (le_refl _))).2.1 5 (by decide)).trans
     (by norm_num [countingMem])⟩

/-- C6. Identity law: with `I` the matrix written by `MatIdentity` (into any array `t`),
`MatMulMat(M, I)` leaves `M` unchanged and `MatMulMat(I, M)` leaves `M` in `I`. -/
theorem MatMulMat_identity_law (M t : mat4 F) :
    MatMulMat M (MatIdentity t) = M ∧ MatMulMat (MatIdentity t) M = M := by
  rw [MatIdentity_eq]
  exact ⟨MatMulMat_iden_right M, MatMulMat_iden_left M⟩

theorem MatTranslate_apply (m : mat4 F) (v : vec3 F) (idx : Fin 16) :
    MatTranslate m v idx =
      if idx / 4 = 3 then
        m (idx % 4) * v.X + m (idx % 4 + 4) * v.Y + m (idx % 4 + 8) * v.Z + m (idx % 4 + 12)
      else m idx := by
  fin_cases idx <;>
    simp only [MatTranslate, mat4.set_apply, Fin.reduceAdd, Fin.reduceEq, ↓reduceIte,
      Fin.isValue, Fin.reduceMod, Fin.reduceDiv, Fin.reduceMul, Fin.zero_eta, Fin.mk_one,
      Fin.reduceFinMk, zero_add]

theorem translationMatrix_apply (v : vec3 F) (idx : Fin 16) :
    translationMatrix v idx =
      if idx = 14 then v.Z else if idx = 13 then v.Y else if idx = 12 then v.X
      else if idx % 5 = 0 then 1 else 0 := by
  simp only [translationMatrix, mat4.set_apply, iden_apply]

/-- C7, as stated, fails: on `diag(2,1,1,1)` and `v = (1,0,0)`, `MatTranslate` leaves 2
in entry 12 while `MatMulMat(T, m)` leaves 1 there. -/
theorem MatTranslate_ne_left_product :
    MatTranslate scaledX (V3 1 0 0) ≠ MatMulMat (translationMatrix (V3 1 0 0)) scaledX := by
  intro h
  have h12 := congrFun h 12
  rw [MatTranslate_apply, MatMulMat_apply] at h12
  simp [translationMatrix_apply, scaledX, MatScale, mat4.set_apply, iden_apply, V3] at h12

/-- C7, amended. `MatTranslate(m, v)` leaves in `m` the product `m * T`, the result of
`MatMulMat(m, T)`, where `T` is the identity matrix with entries 12, 13, 14 set to
`v.X`, `v.Y`, `v.Z`. -/
theorem MatTranslate_eq_right_product (m : mat4 F) (v : vec3 F) :
    MatTranslate m v = MatMulMat m (translationMatrix v) := by
  funext idx
  rw [MatTranslate_apply, MatMulMat_apply]
  fin_cases idx <;> simp [translationMatrix_apply]

theorem MatOrtho.tmp_apply (left right bottom top n f : F) (idx : Fin 16) :
    MatOrtho.tmp left right bottom top n f idx =
      if idx = 15 then 1 else if idx = 14 then -(f + n) / (f - n)
      else if idx = 13 then -(top + bottom) / (top - bottom)
      else if idx = 12 then -(right + left) / (right / left)
      else if idx = 10 then -2 / (f - n) else if idx = 5 then 2 / (top - bottom)
      else if idx = 0 then 2 / (right - left) else 0 := by
  simp only [MatOrtho.tmp, mat4.set_apply, mat4.zero]

theorem orthoStandard_apply (left right bottom top n f : F) (idx : Fin 16) :
    orthoStandard left right bottom top n f idx =
      if idx = 15 then 1 else if idx = 14 then -(f + n) / (f - n)
      else if idx = 13 then -(top + bottom) / (top - bottom)
      else if idx = 12 then -(right + left) / (right - left)
      else if idx = 10 then -2 / (f - n) else if idx = 5 then 2 / (top - bottom)
      else if idx = 0 then 2 / (right - left) else 0 := by
  fin_cases idx <;> rfl

theorem MatOrtho.tmp_off12 (left right bottom top n f : F) (idx : Fin 16) (h : idx ≠ 12) :
    MatOrtho.tmp left right bottom top n f idx = orthoStandard left right bottom top n f idx := by
  rw [MatOrtho.tmp_apply, orthoStandard_apply]
  simp only [if_neg h]

/-- C8, the code at a failing input: for `left = 1`, `right = 3` on the identity matrix,
`MatOrtho` leaves `-(3+1)/(3/1) = -4/3` in entry 12, the product with the standard
orthographic matrix has `-(3+1)/(3-1) = -2` there. -/
theorem MatOrtho_entry12_divergence :
    MatOrtho (iden : mat4 ℚ) 1 3 (-1) 1 (-1) 1 12 = -4 / 3 ∧
    MatMulMat (iden : mat4 ℚ) (orthoStandard 1 3 (-1) 1 (-1) 1) 12 = -2 ∧
    MatOrtho (iden : mat4 ℚ) 1 3 (-1) 1 (-1) 1 ≠
      MatMulMat (iden : mat4 ℚ) (orthoStandard 1 3 (-1) 1 (-1) 1) := by
  have h1 : MatOrtho (iden : mat4 ℚ) 1 3 (-1) 1 (-1) 1 12 = -4 / 3 := by
    rw [MatOrtho, MatMulMat_apply]
    simp [MatOrtho.tmp_apply, iden_apply]
    norm_num
  have h2 : MatMulMat (iden : mat4 ℚ) (orthoStandard 1 3 (-1) 1 (-1) 1) 12 = -2 := by
    rw [MatMulMat_apply]
    simp [orthoStandard_apply, iden_apply]
    norm_num
  refine ⟨h1, h2, fun h => ?_⟩
  have := congrFun h 12
  rw [h1, h2] at this
  norm_num at this

theorem MatRotate.tmp_full_turn (sinf cosf : F → F) (M_PI : F) (len : F) (a : vec3 F)
    (hs : sinf (Radians M_PI 360) = 0) (hc : cosf (Radians M_PI 360) = 1) :
    MatRotate.tmp sinf cosf M_PI len 360 a = iden := by
  funext idx
  simp only [MatRotate.tmp, hs, hc, MatIdentity_eq, mat4.set_apply, iden_apply]
  fin_cases idx <;> simp

/-- C9. Full-turn rotation: with `sinf`, `cosf`, `sqrtf` the real functions and `M_PI`
the real number pi, `MatRotate(m, 360, a)` leaves `m` equal to its pre-rotation value,
for every matrix `m` and every axis `a` (of any length). -/
theorem MatRotate_full_turn (m : mat4 ℝ) (a : vec3 ℝ) :
    MatRotate Real.sqrt Real.sin Real.cos Real.pi m 360 a = m := by
  have hr : Radians Real.pi 360 = 2 * Real.pi := by unfold Radians; ring
  unfold MatRotate
  dsimp only
  split_ifs
  · rw [MatRotate.tmp_full_turn Real.sin Real.cos Real.pi _ a
      (by rw [hr, Real.sin_two_pi]) (by rw [hr, Real.cos_two_pi])]
    exact MatMulMat_iden_right m
  · rfl

/-! ## Claims on the vector functions -/

/-- C11, amended. Cross-product orthogonality in exact arithmetic (`F` a linearly ordered
field): for every pair of vectors `a`, `b` (parallel or not),
`VecDot(VecCross(a, b), a) = 0` and `VecDot(VecCross(a, b), b) = 0`. -/
theorem VecCross_orthogonal (a b : vec3 F) :
    VecDot (VecCross a b) a = 0 ∧ VecDot (VecCross a b) b = 0 := by
  simp only [VecDot, VecCross]
  constructor <;> ring

/-- C11, as stated, fails in binary32: for `a = (0.1f, 0.2f, 0.3f)` and
`b = (0.4f, 0.5f, 0.7f)` the rounded products and sums of `VecCross` and `VecDot` leave
`-2^-30` (about `-9.3e-10`) and `-2^-28` (about `-3.7e-9`), not 0. -/
theorem VecCross_rounding :
    VecDot (VecCross (⟨0.1, 0.2, 0.3⟩ : vec3 F32) ⟨0.4, 0.5, 0.7⟩) ⟨0.1, 0.2, 0.3⟩
      = F32.fin (-1 / 2 ^ 30) ∧
    VecDot (VecCross (⟨0.1, 0.2, 0.3⟩ : vec3 F32) ⟨0.4, 0.5, 0.7⟩) ⟨0.4, 0.5, 0.7⟩
      = F32.fin (-1 / 2 ^ 28) ∧
    VecDot (VecCross (⟨0.1, 0.2, 0.3⟩ : vec3 F32) ⟨0.4, 0.5, 0.7⟩) ⟨0.1, 0.2, 0.3⟩ ≠ 0 ∧
    VecDot (VecCross (⟨0.1, 0.2, 0.3⟩ : vec3 F32) ⟨0.4, 0.5, 0.7⟩) ⟨0.4, 0.5, 0.7⟩ ≠ 0 := by
  decide!

theorem VecDot_self_pos (v : vec3 F) (h : v ≠ ⟨0, 0, 0⟩) : 0 < VecDot v v := by
  rcases v with ⟨x, y, z⟩
  simp only [VecDot]
  by_contra hn
  have hx : x = 0 := by nlinarith [mul_self_nonneg x, mul_self_nonneg y, mul_self_nonneg z]
  have hy : y = 0 := by nlinarith [mul_self_nonneg x, mul_self_nonneg y, mul_self_nonneg z]
  have hz : z = 0 := by nlinarith [mul_self_nonneg x, mul_self_nonneg y, mul_self_nonneg z]
  exact h (by rw [hx, hy, hz])

theorem VecLength_pos (v : vec3 ℝ) (h : 0 < VecDot v v) :
    0 < VecLength Real.sqrt v ∧ VecLength Real.sqrt v * VecLength Real.sqrt v = VecDot v v :=
  ⟨Real.sqrt_pos.mpr h, Real.mul_self_sqrt h.le⟩

theorem VecNormalize_dot_self (v : vec3 ℝ) (h : 0 < VecDot v v) :
    VecDot (VecNormalize Real.sqrt v) (VecNormalize Real.sqrt v) = 1 := by
  obtain ⟨hp, hm⟩ := VecLength_pos v h
  simp only [VecNormalize]
  generalize VecLength Real.sqrt v = len at hp hm
  simp only [VecDot] at hm ⊢
  have hl : len ≠ 0 := hp.ne'
  field_simp
  linarith

/-- C12. Normalisation yields a unit vector: over the reals, with `sqrtf` the real square
root, `VecLength(VecNormalize(v)) = 1` for every vector `v` other than `(0, 0, 0)`. -/
theorem VecNormalize_unit (v : vec3 ℝ) (h : v ≠ ⟨0, 0, 0⟩) :
    VecLength Real.sqrt (VecNormalize Real.sqrt v) = 1 := by
  unfold VecLength
  rw [VecNormalize_dot_self v (VecDot_self_pos v h), Real.sqrt_one]

/-- Witness of C12 on the vector `(3, 4, 0)`. -/
theorem VecNormalize_unit_witness :
    (⟨3, 4, 0⟩ : vec3 ℝ) ≠ ⟨0, 0, 0⟩ ∧
    VecLength Real.sqrt (VecNormalize Real.sqrt ⟨3, 4, 0⟩) = 1 :=
  have h : (⟨3, 4, 0⟩ : vec3 ℝ) ≠ ⟨0, 0, 0⟩ := by simp
  ⟨h, VecNormalize_unit ⟨3, 4, 0⟩ h⟩

theorem MatLookAt_tmp_apply (sqrtf : F → F) (pos target up : vec3 F) (idx : Fin 16) :
    MatLookAt.tmp sqrtf pos target up idx =
      if idx = 0 then (MatLookAt.xaxis sqrtf pos target up).X
      else if idx = 1 then (MatLookAt.yaxis sqrtf pos target up).X
      else if idx = 2 then (MatLookAt.zaxis sqrtf pos target).X
      else if idx = 4 then (MatLookAt.xaxis sqrtf pos target up).Y
      else if idx = 5 then (MatLookAt.yaxis sqrtf pos target up).Y
      else if idx = 6 then (MatLookAt.zaxis sqrtf pos target).Y
      else if idx = 8 then (MatLookAt.xaxis sqrtf pos target up).Z
      else if idx = 9 then (MatLookAt.yaxis sqrtf pos target up).Z
      else if idx = 10 then (MatLookAt.zaxis sqrtf pos target).Z
      else if idx = 12 then -VecDot (MatLookAt.xaxis sqrtf pos target up) pos
      else if idx = 13 then -VecDot (MatLookAt.yaxis sqrtf pos target up) pos
      else if idx = 14 then -VecDot (MatLookAt.zaxis sqrtf pos target) pos
      else if idx = 15 then 1 else 0 := by
  fin_cases idx <;> rfl

theorem ix_table :
    (ix 0 0 = 0 ∧ ix 1 0 = 1 ∧ ix 2 0 = 2 ∧ ix 3 0 = 3) ∧
    (ix 0 1 = 4 ∧ ix 1 1 = 5 ∧ ix 2 1 = 6 ∧ ix 3 1 = 7) ∧
    (ix 0 2 = 8 ∧ ix 1 2 = 9 ∧ ix 2 2 = 10 ∧ ix 3 2 = 11) ∧
    (ix 0 3 = 12 ∧ ix 1 3 = 13 ∧ ix 2 3 = 14 ∧ ix 3 3 = 15) := by
  decide

theorem mat4.mulVec_point (V : mat4 F) (v : vec3 F) :
    mat4.mulVec V (point v) =
      ![V 0 * v.X + V 4 * v.Y + V 8 * v.Z + V 12,
        V 1 * v.X + V 5 * v.Y + V 9 * v.Z + V 13,
        V 2 * v.X + V 6 * v.Y + V 10 * v.Z + V 14,
        V 3 * v.X + V 7 * v.Y + V 11 * v.Z + V 15] := by
  obtain ⟨⟨a0, a1, a2, a3⟩, ⟨b0, b1, b2, b3⟩, ⟨c0, c1, c2, c3⟩, ⟨d0, d1, d2, d3⟩⟩ := ix_table
  funext i
  fin_cases i <;>
    simp [mat4.mulVec, Fin.sum_univ_four, point, a0, a1, a2, a3, b0, b1, b2, b3, c0, c1, c2, c3,
      d0, d1, d2, d3]

theorem MatLookAt_mulVec (sqrtf : F → F) (pos target up p : vec3 F) :
    mat4.mulVec (MatLookAt sqrtf iden pos target up) (point p) =
      ![VecDot (MatLookAt.xaxis sqrtf pos target up) (VecSub p pos),
        VecDot (MatLookAt.yaxis sqrtf pos target up) (VecSub p pos),
        VecDot (MatLookAt.zaxis sqrtf pos target) (VecSub p pos), 1] := by
  rw [mat4.mulVec_point, MatLookAt, MatMulMat_iden_left]
  funext i
  fin_cases i <;>
    simp [MatLookAt_tmp_apply, VecDot, VecSub] <;> ring

theorem MatLookAt.xaxis_dot_dir (sqrtf : F → F) (pos target up : vec3 F) :
    VecDot (MatLookAt.xaxis sqrtf pos target up) (VecSub target pos) = 0 := by
  simp only [MatLookAt.xaxis, MatLookAt.zaxis, VecNormalize, VecCross, VecDot, VecSub]
  ring

theorem MatLookAt.yaxis_dot_dir (sqrtf : F → F) (pos target up : vec3 F) :
    VecDot (MatLookAt.yaxis sqrtf pos target up) (VecSub target pos) = 0 := by
  simp only [MatLookAt.yaxis, MatLookAt.xaxis, MatLookAt.zaxis, VecNormalize, VecCross, VecDot,
    VecSub]
  ring

theorem MatLookAt.axes_orthogonal (sqrtf : F → F) (pos target up : vec3 F) :
    VecDot (MatLookAt.xaxis sqrtf pos target up) (MatLookAt.yaxis sqrtf pos target up) = 0 ∧
    VecDot (MatLookAt.yaxis sqrtf pos target up) (MatLookAt.zaxis sqrtf pos target) = 0 ∧
    VecDot (MatLookAt.zaxis sqrtf pos target) (MatLookAt.xaxis sqrtf pos target up) = 0 := by
  simp only [MatLookAt.yaxis, MatLookAt.xaxis, VecNormalize, VecCross, VecDot]
  refine ⟨?_, ?_, ?_⟩ <;> ring

theorem VecSub_ne_zero (a b : vec3 F) (h : a ≠ b) : VecSub a b ≠ ⟨0, 0, 0⟩ := by
  intro h0
  apply h
  rcases a with ⟨ax, ay, az⟩
  rcases b with ⟨bx, by', bz⟩
  simp only [VecSub, vec3.mk.injEq] at h0 ⊢
  exact ⟨sub_eq_zero.mp h0.1, sub_eq_zero.mp h0.2.1, sub_eq_zero.mp h0.2.2⟩

theorem MatLookAt.zaxis_dot_dir (pos target : vec3 ℝ) (h : pos ≠ target) :
    VecDot (MatLookAt.zaxis Real.sqrt pos target) (VecSub target pos) =
      -VecLength Real.sqrt (VecSub pos target) := by
  obtain ⟨hp, hm⟩ := VecLength_pos _ (VecDot_self_pos _ (VecSub_ne_zero pos target h))
  simp only [MatLookAt.zaxis, VecNormalize]
  generalize VecLength Real.sqrt (VecSub pos target) = len at hp hm
  simp only [VecDot, VecSub] at hm ⊢
  have hl : len ≠ 0 := hp.ne'
  field_simp
  linarith

theorem MatLookAt.xaxis_unit (pos target up : vec3 ℝ) (h : pos ≠ target)
    (hup : VecCross up (VecSub pos target) ≠ ⟨0, 0, 0⟩) :
    VecDot (MatLookAt.xaxis Real.sqrt pos target up) (MatLookAt.xaxis Real.sqrt pos target up)
      = 1 := by
  obtain ⟨hp, -⟩ := VecLength_pos _ (VecDot_self_pos _ (VecSub_ne_zero pos target h))
  have he := VecDot_self_pos _ hup
  apply VecNormalize_dot_self
  have hc : VecDot (VecCross up (MatLookAt.zaxis Real.sqrt pos target))
        (VecCross up (MatLookAt.zaxis Real.sqrt pos target)) =
      VecDot (VecCross up (VecSub pos target)) (VecCross up (VecSub pos target)) /
        (VecLength Real.sqrt (VecSub pos target) * VecLength Real.sqrt (VecSub pos target)) := by
    simp only [MatLookAt.zaxis, VecNormalize]
    generalize VecLength Real.sqrt (VecSub pos target) = len at hp
    simp only [VecDot, VecCross]
    have hl : len ≠ 0 := hp.ne'
    field_simp
  rw [hc]
  exact div_pos he (mul_pos hp hp)

theorem VecCross_triple (x z : vec3 F) (hx : VecDot x x = 1) (hxz : VecDot x z = 0) :
    VecCross x (VecCross z x) = z := by
  rcases x with ⟨a, b, c⟩
  rcases z with ⟨p, q, r⟩
  simp only [VecDot] at hx hxz
  simp only [VecCross, vec3.mk.injEq]
  refine ⟨?_, ?_, ?_⟩
  · linear_combination p * hx - a * hxz
  · linear_combination q * hx - b * hxz
  · linear_combination r * hx - c * hxz

/-- C13, amended. `MatLookAt` builds a right-handed view matrix in exact arithmetic: over
the reals with `sqrtf` the real square root, for `pos ≠ target`
and `up` not parallel to `pos - target` (their cross product is not zero), the matrix
`V` left by `MatLookAt` on the identity matrix maps the eye point `(pos, 1)` to
`(0, 0, 0, 1)` and the target point `(target, 1)` to `(0, 0, -|pos - target|, 1)`; its
basis vectors `xaxis`, `yaxis`, `zaxis` are mutually orthogonal and
`VecCross(xaxis, yaxis) = zaxis`. -/
theorem MatLookAt_view (pos target up : vec3 ℝ) (hpt : pos ≠ target)
    (hup : VecCross up (VecSub pos target) ≠ ⟨0, 0, 0⟩) :
    mat4.mulVec (MatLookAt Real.sqrt iden pos target up) (point pos) = ![0, 0, 0, 1] ∧
    mat4.mulVec (MatLookAt Real.sqrt iden pos target up) (point target) =
      ![0, 0, -VecLength Real.sqrt (VecSub pos target), 1] ∧
    VecDot (MatLookAt.xaxis Real.sqrt pos target up) (MatLookAt.yaxis Real.sqrt pos target up) = 0 ∧
    VecDot (MatLookAt.yaxis Real.sqrt pos target up) (MatLookAt.zaxis Real.sqrt pos target) = 0 ∧
    VecDot (MatLookAt.zaxis Real.sqrt pos target) (MatLookAt.xaxis Real.sqrt pos target up) = 0 ∧
    VecCross (MatLookAt.xaxis Real.sqrt pos target up) (MatLookAt.yaxis Real.sqrt pos target up) =
      MatLookAt.zaxis Real.sqrt pos target := by
  obtain ⟨hxy, hyz, hzx⟩ := MatLookAt.axes_orthogonal Real.sqrt pos target up
  refine ⟨?_, ?_, hxy, hyz, hzx, ?_⟩
  · rw [MatLookAt_mulVec]
    simp [VecDot, VecSub]
  · rw [MatLookAt_mulVec, MatLookAt.xaxis_dot_dir, MatLookAt.yaxis_dot_dir,
      MatLookAt.zaxis_dot_dir pos target hpt]
  · have hxz : VecDot (MatLookAt.xaxis Real.sqrt pos target up)
        (MatLookAt.zaxis Real.sqrt pos target) = 0 := by
      simp only [VecDot] at hzx ⊢
      linarith
    exact VecCross_triple _ _ (MatLookAt.xaxis_unit pos target up hpt hup) hxz

/-- Witness of C13 amended: the camera at `(0, 0, 5)` looking at the origin with
`up = (0, 1, 0)`. -/
theorem MatLookAt_view_witness :
    (⟨0, 0, 5⟩ : vec3 ℝ) ≠ ⟨0, 0, 0⟩ ∧
    VecCross (⟨0, 1, 0⟩ : vec3 ℝ) (VecSub ⟨0, 0, 5⟩ ⟨0, 0, 0⟩) ≠ ⟨0, 0, 0⟩ ∧
    mat4.mulVec (MatLookAt Real.sqrt iden ⟨0, 0, 5⟩ ⟨0, 0, 0⟩ ⟨0, 1, 0⟩)
      (point ⟨0, 0, 0⟩) =
      ![0, 0, -VecLength Real.sqrt (VecSub ⟨0, 0, 5⟩ ⟨0, 0, 0⟩), 1] ∧
    VecCross (MatLookAt.xaxis Real.sqrt ⟨0, 0, 5⟩ ⟨0, 0, 0⟩ ⟨0, 1, 0⟩)
        (MatLookAt.yaxis Real.sqrt ⟨0, 0, 5⟩ ⟨0, 0, 0⟩ ⟨0, 1, 0⟩) =
      MatLookAt.zaxis Real.sqrt ⟨0, 0, 5⟩ ⟨0, 0, 0⟩ :=
  have h1 : (⟨0, 0, 5⟩ : vec3 ℝ) ≠ ⟨0, 0, 0⟩ := by simp
  have h2 : VecCross (⟨0, 1, 0⟩ : vec3 ℝ) (VecSub ⟨0, 0, 5⟩ ⟨0, 0, 0⟩) ≠ ⟨0, 0, 0⟩ := by
    simp [VecCross, VecSub]
  have h := MatLookAt_view ⟨0, 0, 5⟩ ⟨0, 0, 0⟩ ⟨0, 1, 0⟩ h1 h2
  ⟨h1, h2, h.2.1, h.2.2.2.2.2⟩

/-- C13, as stated, fails in binary32: for `pos = (0, 0, 1e-30f)`, `target = (0, 0, 0)` and
`up = (0, 1, 0)` (so `pos != target` and `up` is not parallel to `pos - target`) the
squared length `1e-60` of `pos - target` underflows to 0, `VecNormalize` divides by
`sqrtf(0) = 0`, and all 16 entries of the matrix left by `MatLookAt` on the identity
matrix are NaN: it maps no point to `(0, 0, 0, 1)`. -/
theorem MatLookAt_underflow :
    (⟨0, 0, 1e-30⟩ : vec3 F32) ≠ ⟨0, 0, 0⟩ ∧
    VecCross (⟨0, 1, 0⟩ : vec3 F32) (VecSub ⟨0, 0, 1e-30⟩ ⟨0, 0, 0⟩) ≠ ⟨0, 0, 0⟩ ∧
    VecDot (VecSub (⟨0, 0, 1e-30⟩ : vec3 F32) ⟨0, 0, 0⟩) (VecSub ⟨0, 0, 1e-30⟩ ⟨0, 0, 0⟩) = 0 ∧
    MatLookAt F32.sqrt iden (⟨0, 0, 1e-30⟩ : vec3 F32) ⟨0, 0, 0⟩ ⟨0, 1, 0⟩ = fun _ => F32.nan := by
  decide!

/-! ## The guard of `MatRotate` and the rotation it composes -/

/-- The sixteen entries of the matrix `tmp` of `MatRotate`, in any arithmetic. -/
theorem MatRotate_tmp_apply {G : Type} [Zero G] [One G] [NatCast G] [Add G] [Sub G] [Mul G]
    [Div G] (sinf cosf : G → G) (M_PI len d : G) (a : vec3 G) (idx : Fin 16) :
    MatRotate.tmp sinf cosf M_PI len d a idx =
      if idx = 0 then
        (1 - cosf (Radians M_PI d)) * (a.X / len * (a.X / len)) + cosf (Radians M_PI d)
      else if idx = 1 then
        (1 - cosf (Radians M_PI d)) * (a.X / len * (a.Y / len)) + a.Z / len * sinf (Radians M_PI d)
      else if idx = 2 then
        (1 - cosf (Radians M_PI d)) * (a.Z / len * (a.X / len)) - a.Y / len * sinf (Radians M_PI d)
      else if idx = 4 then
        (1 - cosf (Radians M_PI d)) * (a.X / len * (a.Y / len)) - a.Z / len * sinf (Radians M_PI d)
      else if idx = 5 then
        (1 - cosf (Radians M_PI d)) * (a.Y / len * (a.Y / len)) + cosf (Radians M_PI d)
      else if idx = 6 then
        (1 - cosf (Radians M_PI d)) * (a.Y / len * (a.Z / len)) + a.X / len * sinf (Radians M_PI d)
      else if idx = 8 then
        (1 - cosf (Radians M_PI d)) * (a.Z / len * (a.X / len)) + a.Y / len * sinf (Radians M_PI d)
      else if idx = 9 then
        (1 - cosf (Radians M_PI d)) * (a.Y / len * (a.Z / len)) - a.X / len * sinf (Radians M_PI d)
      else if idx = 10 then
        (1 - cosf (Radians M_PI d)) * (a.Z / len * (a.Z / len)) + cosf (Radians M_PI d)
      else if idx = 15 then 1 else 0 := by
  fin_cases idx <;> rfl

/-- In exact arithmetic the matrix `tmp` of `MatRotate` is a rotation matrix when the
axis divided by `len` has length 1 and `sinf`, `cosf` return a sine and a cosine. -/
theorem MatRotate.tmp_rotation (sinf cosf : F → F) (M_PI len d : F) (a : vec3 F)
    (hu : a.X / len * (a.X / len) + a.Y / len * (a.Y / len) + a.Z / len * (a.Z / len) = 1)
    (ht : sinf (Radians M_PI d) * sinf (Radians M_PI d)
      + cosf (Radians M_PI d) * cosf (Radians M_PI d) = 1) :
    (MatRotate.tmp sinf cosf M_PI len d a).IsRotation := by
  obtain ⟨⟨a0, a1, a2, -⟩, ⟨b0, b1, b2, -⟩, ⟨c0, c1, c2, -⟩, -⟩ := ix_table
  simp only [mat4.IsRotation, mat4.column, a0, a1, a2, b0, b1, b2, c0, c1, c2, VecDot, VecCross,
    MatRotate_tmp_apply, Fin.reduceEq, ↓reduceIte, Fin.isValue, vec3.mk.injEq]
  generalize a.X / len = x at *
  generalize a.Y / len = y at *
  generalize a.Z / len = z at *
  generalize sinf (Radians M_PI d) = s at *
  generalize cosf (Radians M_PI d) = c at *
  refine ⟨?_, ?_, ?_, ?_, ?_, ?_, ⟨?_, ?_, ?_⟩, trivial, trivial, trivial, trivial, trivial,
    trivial, trivial⟩
  · linear_combination ((1 - c) * (1 - c) * (x * x) + s * s) * hu + (1 - x * x) * ht
  · linear_combination ((1 - c) * (1 - c) * (y * y) + s * s) * hu + (1 - y * y) * ht
  · linear_combination ((1 - c) * (1 - c) * (z * z) + s * s) * hu + (1 - z * z) * ht
  · linear_combination ((1 - c) * (1 - c) * (x * y)) * hu - (x * y) * ht
  · linear_combination ((1 - c) * (1 - c) * (y * z)) * hu - (y * z) * ht
  · linear_combination ((1 - c) * (1 - c) * (z * x)) * hu - (z * x) * ht
  · linear_combination ((1 - c) * y * s) * hu + (x * z) * ht
  · linear_combination (-((1 - c) * x * s)) * hu + (y * z) * ht
  · linear_combination (c * (1 - c)) * hu + (z * z) * ht

/-- In exact arithmetic the matrix `tmp` of `MatRotate` maps every point `v` to its image
under the formula of Rodrigues for the axis divided by `len`. -/
theorem MatRotate.tmp_mulVec (sinf cosf : F → F) (M_PI len d : F) (a v : vec3 F) :
    mat4.mulVec (MatRotate.tmp sinf cosf M_PI len d a) (point v) =
      point (rotateAbout ⟨a.X / len, a.Y / len, a.Z / len⟩ (cosf (Radians M_PI d))
        (sinf (Radians M_PI d)) v) := by
  rw [mat4.mulVec_point]
  simp only [MatRotate_tmp_apply, Fin.reduceEq, ↓reduceIte, Fin.isValue, point, rotateAbout,
    VecAdd, VecMul, V3All, V3, VecCross, VecDot]
  funext i
  fin_cases i <;> simp <;> ring

/-- The formula of Rodrigues leaves the points of the axis where they are. -/
theorem rotateAbout_axis (u : vec3 F) (c s : F) (hu : VecDot u u = 1) :
    rotateAbout u c s u = u := by
  rcases u with ⟨x, y, z⟩
  simp only [rotateAbout, VecAdd, VecMul, V3All, V3, VecCross, VecDot, vec3.mk.injEq] at hu ⊢
  refine ⟨?_, ?_, ?_⟩
  · linear_combination ((1 - c) * x) * hu
  · linear_combination ((1 - c) * y) * hu
  · linear_combination ((1 - c) * z) * hu

/-- The matrix of `MatRotate.traced` is the one of `MatRotate`, in any arithmetic. -/
theorem MatRotate_traced_fst {G : Type} [Zero G] [One G] [NatCast G] [OfScientific G] [Add G]
    [Sub G] [Mul G] [Div G] [LT G] [(a b : G) → Decidable (a < b)]
    (sqrtf sinf cosf : G → G) (M_PI : G) (m : mat4 G) (d : G) (a : vec3 G) :
    (MatRotate.traced sqrtf sinf cosf M_PI m d a).1 = MatRotate sqrtf sinf cosf M_PI m d a := by
  unfold MatRotate.traced MatRotate
  dsimp only
  split_ifs <;> rfl

/-- When the test `len > 1e-4` of line 292 fails, `MatRotate` returns `m` and has made no
division, in any arithmetic (binary32 included) and whatever `sqrtf`, `sinf` and `cosf`
return. -/
theorem MatRotate_traced_guard {G : Type} [Zero G] [One G] [NatCast G] [OfScientific G] [Add G]
    [Sub G] [Mul G] [Div G] [LT G] [(a b : G) → Decidable (a < b)]
    (sqrtf sinf cosf : G → G) (M_PI : G) (m : mat4 G) (d : G) (a : vec3 G)
    (h : ¬ VecLength sqrtf a > 1e-4) :
    MatRotate.traced sqrtf sinf cosf M_PI m d a = (m, []) := by
  unfold MatRotate.traced
  dsimp only
  rw [if_neg h]

/-- The guard of `MatRotate` over the real numbers, with `sqrtf`, `sinf`, `cosf` the real functions and
`M_PI` the real number pi. When `VecLength(a) <= 1e-4` (the zero vector and a length of
exactly `1e-4` included) `MatRotate(m, d, a)` leaves all 16 entries of `m` unchanged and
performs no division at all (the list of its divisions is empty). When
`VecLength(a) > 1e-4` its divisions are those of `a.X`, `a.Y`, `a.Z` by the length and the
one of `Radians`, and the result is `MatMulMat(m, tmp)` where `tmp` is the rotation by
`d` degrees about `a / VecLength(a)`: `tmp` is a rotation matrix (orthonormal,
right-handed columns, fourth row and column of the identity), the axis `a / VecLength(a)`
has length 1 and is left in place, and every point `v` is mapped to
`cos v + sin (u x v) + (1 - cos) (u . v) u` for `u = a / VecLength(a)` and the angle
`d * pi / 180`. -/
theorem MatRotate_guard_real (m : mat4 ℝ) (d : ℝ) (a : vec3 ℝ) :
    (VecLength Real.sqrt a ≤ 1e-4 →
      MatRotate Real.sqrt Real.sin Real.cos Real.pi m d a = m ∧
      MatRotate.traced Real.sqrt Real.sin Real.cos Real.pi m d a = (m, [])) ∧
    (VecLength Real.sqrt a > 1e-4 →
      MatRotate.traced Real.sqrt Real.sin Real.cos Real.pi m d a =
        (MatMulMat m (MatRotate.tmp Real.sin Real.cos Real.pi (VecLength Real.sqrt a) d a),
          [(a.X, VecLength Real.sqrt a), (a.Y, VecLength Real.sqrt a),
            (a.Z, VecLength Real.sqrt a), (d * Real.pi, 180)]) ∧
      MatRotate Real.sqrt Real.sin Real.cos Real.pi m d a =
        MatMulMat m (MatRotate.tmp Real.sin Real.cos Real.pi (VecLength Real.sqrt a) d a) ∧
      (MatRotate.tmp Real.sin Real.cos Real.pi (VecLength Real.sqrt a) d a).IsRotation ∧
      VecLength Real.sqrt (VecNormalize Real.sqrt a) = 1 ∧
      (∀ v : vec3 ℝ,
        mat4.mulVec (MatRotate.tmp Real.sin Real.cos Real.pi (VecLength Real.sqrt a) d a) (point v) =
          point (rotateAbout (VecNormalize Real.sqrt a) (Real.cos (d * Real.pi / 180))
            (Real.sin (d * Real.pi / 180)) v)) ∧
      rotateAbout (VecNormalize Real.sqrt a) (Real.cos (d * Real.pi / 180))
        (Real.sin (d * Real.pi / 180)) (VecNormalize Real.sqrt a) = VecNormalize Real.sqrt a) := by
  refine ⟨fun h => ?_, fun h => ?_⟩
  · have hn : ¬ VecLength Real.sqrt a > 1e-4 := not_lt.mpr h
    have ht := MatRotate_traced_guard Real.sqrt Real.sin Real.cos Real.pi m d a hn
    refine ⟨?_, ht⟩
    rw [← MatRotate_traced_fst, ht]
  · have hpos : (0 : ℝ) < VecLength Real.sqrt a := lt_trans (by norm_num) h
    have hdot : 0 < VecDot a a := Real.sqrt_pos.mp hpos
    have hunit := VecNormalize_dot_self a hdot
    have hu : a.X / VecLength Real.sqrt a * (a.X / VecLength Real.sqrt a)
        + a.Y / VecLength Real.sqrt a * (a.Y / VecLength Real.sqrt a)
        + a.Z / VecLength Real.sqrt a * (a.Z / VecLength Real.sqrt a) = 1 := hunit
    have hsc : Real.sin (Radians Real.pi d) * Real.sin (Radians Real.pi d)
        + Real.cos (Radians Real.pi d) * Real.cos (Radians Real.pi d) = 1 := by
      have := Real.sin_sq_add_cos_sq (Radians Real.pi d)
      nlinarith [this]
    have ht : MatRotate.traced Real.sqrt Real.sin Real.cos Real.pi m d a =
        (MatMulMat m (MatRotate.tmp Real.sin Real.cos Real.pi (VecLength Real.sqrt a) d a),
          [(a.X, VecLength Real.sqrt a), (a.Y, VecLength Real.sqrt a),
            (a.Z, VecLength Real.sqrt a), (d * Real.pi, 180)]) := by
      unfold MatRotate.traced
      dsimp only
      rw [if_pos h]
    refine ⟨ht, ?_, MatRotate.tmp_rotation Real.sin Real.cos Real.pi _ d a hu hsc, ?_, ?_, ?_⟩
    · rw [← MatRotate_traced_fst, ht]
    · unfold VecLength
      rw [show VecDot (VecNormalize Real.sqrt a) (VecNormalize Real.sqrt a) = 1 from hunit]
      exact Real.sqrt_one
    · intro v
      exact MatRotate.tmp_mulVec Real.sin Real.cos Real.pi _ d a v
    · exact rotateAbout_axis _ _ _ hunit

/-- The guard of `MatRotate` in binary32, whatever the library functions return: a
length at most `1e-4f` leaves `m` alone without a division; a greater length makes the
four divisions and composes `tmp` into `m`. -/
theorem MatRotate_guard_binary32 (sqrtf sinf cosf : F32 → F32) (M_PI : F32) (m : mat4 F32)
    (d : F32) (a : vec3 F32) :
    (VecLength sqrtf a ≤ 1e-4 →
      MatRotate sqrtf sinf cosf M_PI m d a = m ∧
      MatRotate.traced sqrtf sinf cosf M_PI m d a = (m, [])) ∧
    (VecLength sqrtf a > 1e-4 →
      MatRotate.traced sqrtf sinf cosf M_PI m d a =
        (MatMulMat m (MatRotate.tmp sinf cosf M_PI (VecLength sqrtf a) d a),
          [(a.X, VecLength sqrtf a), (a.Y, VecLength sqrtf a),
            (a.Z, VecLength sqrtf a), (d * M_PI, 180)]) ∧
      MatRotate sqrtf sinf cosf M_PI m d a =
        MatMulMat m (MatRotate.tmp sinf cosf M_PI (VecLength sqrtf a) d a)) := by
  refine ⟨fun h => ?_, fun h => ?_⟩
  · have hn : ¬ VecLength sqrtf a > 1e-4 := F32.not_lt_of_le _ _ h
    have ht := MatRotate_traced_guard sqrtf sinf cosf M_PI m d a hn
    exact ⟨by rw [← MatRotate_traced_fst, ht], ht⟩
  · have ht : MatRotate.traced sqrtf sinf cosf M_PI m d a =
        (MatMulMat m (MatRotate.tmp sinf cosf M_PI (VecLength sqrtf a) d a),
          [(a.X, VecLength sqrtf a), (a.Y, VecLength sqrtf a),
            (a.Z, VecLength sqrtf a), (d * M_PI, 180)]) := by
      unfold MatRotate.traced
      dsimp only
      rw [if_pos h]
    exact ⟨ht, by rw [← MatRotate_traced_fst, ht]⟩

/-- C10, amended. Degenerate-axis guard. In binary32, whatever `sqrtf`, `sinf`, `cosf`
return and whatever `M_PI` is: when `VecLength(a) <= 1e-4` (the zero vector and a length
of exactly `1e-4f` included) `MatRotate(m, d, a)` leaves all 16 entries of `m` unchanged
and performs no division at all (the list of its divisions is empty); when
`VecLength(a) > 1e-4` its divisions are those of `a.X`, `a.Y`, `a.Z` by the length and the
one of `Radians`, and the result is `MatMulMat(m, tmp)`. The same holds over the real
numbers, with `sqrtf`, `sinf`, `cosf` the real functions and `M_PI` the real number pi;
and there, when `VecLength(a) > 1e-4`, the matrix `tmp` is the rotation by `d` degrees
about `a / VecLength(a)`: `tmp` is a rotation matrix
(orthonormal, right-handed columns, fourth row and column of the identity), the axis
`a / VecLength(a)` has length 1 and is left in place, and every point `v` is mapped to
`cos v + sin (u x v) + (1 - cos) (u . v) u` for `u = a / VecLength(a)` and the angle
`d * pi / 180`. -/
theorem MatRotate_guard :
    (∀ (sqrtf sinf cosf : F32 → F32) (M_PI : F32) (m : mat4 F32) (d : F32) (a : vec3 F32),
      (VecLength sqrtf a ≤ 1e-4 →
        MatRotate sqrtf sinf cosf M_PI m d a = m ∧
        MatRotate.traced sqrtf sinf cosf M_PI m d a = (m, [])) ∧
      (VecLength sqrtf a > 1e-4 →
        MatRotate.traced sqrtf sinf cosf M_PI m d a =
          (MatMulMat m (MatRotate.tmp sinf cosf M_PI (VecLength sqrtf a) d a),
            [(a.X, VecLength sqrtf a), (a.Y, VecLength sqrtf a),
              (a.Z, VecLength sqrtf a), (d * M_PI, 180)]) ∧
        MatRotate sqrtf sinf cosf M_PI m d a =
          MatMulMat m (MatRotate.tmp sinf cosf M_PI (VecLength sqrtf a) d a))) ∧
    (∀ (m : mat4 ℝ) (d : ℝ) (a : vec3 ℝ),
      (VecLength Real.sqrt a ≤ 1e-4 →
        MatRotate Real.sqrt Real.sin Real.cos Real.pi m d a = m ∧
        MatRotate.traced Real.sqrt Real.sin Real.cos Real.pi m d a = (m, [])) ∧
      (VecLength Real.sqrt a > 1e-4 →
        MatRotate.traced Real.sqrt Real.sin Real.cos Real.pi m d a =
          (MatMulMat m (MatRotate.tmp Real.sin Real.cos Real.pi (VecLength Real.sqrt a) d a),
            [(a.X, VecLength Real.sqrt a), (a.Y, VecLength Real.sqrt a),
              (a.Z, VecLength Real.sqrt a), (d * Real.pi, 180)]) ∧
        MatRotate Real.sqrt Real.sin Real.cos Real.pi m d a =
          MatMulMat m (MatRotate.tmp Real.sin Real.cos Real.pi (VecLength Real.sqrt a) d a) ∧
        (MatRotate.tmp Real.sin Real.cos Real.pi (VecLength Real.sqrt a) d a).IsRotation ∧
        VecLength Real.sqrt (VecNormalize Real.sqrt a) = 1 ∧
        (∀ v : vec3 ℝ,
          mat4.mulVec (MatRotate.tmp Real.sin Real.cos Real.pi (VecLength Real.sqrt a) d a) (point v) =
            point (rotateAbout (VecNormalize Real.sqrt a) (Real.cos (d * Real.pi / 180))
              (Real.sin (d * Real.pi / 180)) v)) ∧
        rotateAbout (VecNormalize Real.sqrt a) (Real.cos (d * Real.pi / 180))
          (Real.sin (d * Real.pi / 180)) (VecNormalize Real.sqrt a) = VecNormalize Real.sqrt a)) :=
  ⟨MatRotate_guard_binary32, MatRotate_guard_real⟩

/-- Witness of C10 amended, on the identity matrix and a quarter turn. In binary32 the
zero axis and the axis `(1e-4f, 0, 0)`, whose computed length is exactly `1e-4f`, are
no-ops without a division, and the axis `(3, 4, 0)` makes the four divisions. Over the real numbers the zero axis and the axis
`(1e-4, 0, 0)` of length exactly `1e-4` are no-ops without a division, and the axis
`(3, 4, 0)` of length 5 composes a rotation matrix after the three divisions by the
length and the one of `Radians`. -/
theorem MatRotate_guard_witness :
    (VecLength F32.sqrt (⟨1e-4, 0, 0⟩ : vec3 F32) = 1e-4 ∧
      ∀ (sinf cosf : F32 → F32) (M_PI : F32),
        MatRotate.traced F32.sqrt sinf cosf M_PI iden 90 ⟨0, 0, 0⟩ = (iden, []) ∧
        MatRotate.traced F32.sqrt sinf cosf M_PI iden 90 ⟨1e-4, 0, 0⟩ = (iden, []) ∧
        (MatRotate.traced F32.sqrt sinf cosf M_PI iden 90 ⟨3, 4, 0⟩).2 =
          [(3, 5), (4, 5), (0, 5), (90 * M_PI, 180)]) ∧
    MatRotate.traced Real.sqrt Real.sin Real.cos Real.pi iden 90 ⟨0, 0, 0⟩ = (iden, []) ∧
    MatRotate.traced Real.sqrt Real.sin Real.cos Real.pi iden 90 ⟨1e-4, 0, 0⟩ = (iden, []) ∧
    (MatRotate.tmp Real.sin Real.cos Real.pi (VecLength Real.sqrt (⟨3, 4, 0⟩ : vec3 ℝ)) 90
      ⟨3, 4, 0⟩).IsRotation ∧
    (MatRotate.traced Real.sqrt Real.sin Real.cos Real.pi iden 90 ⟨3, 4, 0⟩).2 =
      [(3, VecLength Real.sqrt (⟨3, 4, 0⟩ : vec3 ℝ)), (4, VecLength Real.sqrt (⟨3, 4, 0⟩ : vec3 ℝ)),
        (0, VecLength Real.sqrt (⟨3, 4, 0⟩ : vec3 ℝ)), (90 * Real.pi, 180)] :=
  have h5 : VecLength Real.sqrt (⟨3, 4, 0⟩ : vec3 ℝ) > 1e-4 := by
    have h : VecLength Real.sqrt (⟨3, 4, 0⟩ : vec3 ℝ) = 5 := by
      simp only [VecLength, VecDot]
      rw [show (3 : ℝ) * 3 + 4 * 4 + 0 * 0 = 5 * 5 by norm_num]
      exact Real.sqrt_mul_self (by norm_num)
    rw [h]
    norm_num
  ⟨⟨by decide!, fun sinf cosf M_PI =>
      ⟨((MatRotate_guard.1 F32.sqrt sinf cosf M_PI iden 90 ⟨0, 0, 0⟩).1 (by decide!)).2,
       ((MatRotate_guard.1 F32.sqrt sinf cosf M_PI iden 90 ⟨1e-4, 0, 0⟩).1 (by decide!)).2,
       (congrArg Prod.snd
          ((MatRotate_guard.1 F32.sqrt sinf cosf M_PI iden 90 ⟨3, 4, 0⟩).2 (by decide!)).1).trans
         (by
          have h5 : VecLength F32.sqrt (⟨3, 4, 0⟩ : vec3 F32) = 5 := by decide!
          rw [h5])⟩⟩,
   ((MatRotate_guard.2 iden 90 ⟨0, 0, 0⟩).1 (by norm_num [VecLength, VecDot])).2,
   ((MatRotate_guard.2 iden 90 ⟨1e-4, 0, 0⟩).1 (by
      have h : VecLength Real.sqrt (⟨1e-4, 0, 0⟩ : vec3 ℝ) = 1e-4 := by
        simp only [VecLength, VecDot, mul_zero, add_zero]
        exact Real.sqrt_mul_self (by norm_num)
      exact h.le)).2,
   ((MatRotate_guard.2 iden 90 ⟨3, 4, 0⟩).2 h5).2.2.1,
   congrArg Prod.snd ((MatRotate_guard.2 iden 90 ⟨3, 4, 0⟩).2 h5).1⟩

/-- The values met by `MatRotate` in binary32 on the axis `(1e20, 0, 0)`: the squared
length `1e40` overflows, the length is `+inf`, and each component divided by it is 0. -/
theorem overflowed_axis_const :
    VecLength F32.sqrt (⟨1e20, 0, 0⟩ : vec3 F32) = F32.inf false ∧
    VecLength F32.sqrt (⟨1e20, 0, 0⟩ : vec3 F32) > 1e-4 ∧
    (1e20 : F32) / F32.inf false = F32.fin 0 ∧
    (0 : F32) / F32.inf false = F32.fin 0 ∧
    (0 : F32) = F32.fin 0 := by
  decide!

/-- The matrix `diag(c, c, c, 1)` is a rotation matrix only for `c = 1`. -/
theorem diag_rotation (c : ℚ)
    (h : mat4.IsRotation (![c, 0, 0, 0, 0, c, 0, 0, 0, 0, c, 0, 0, 0, 0, 1] : mat4 ℚ)) : c = 1 := by
  obtain ⟨⟨a0, a1, a2, -⟩, ⟨b0, b1, b2, -⟩, ⟨c0, c1, c2, -⟩, -⟩ := ix_table
  obtain ⟨h1, -, -, -, -, -, h7, -⟩ := h
  simp only [mat4.column, a0, a1, a2, b0, b1, b2, c0, c1, c2, VecDot, VecCross] at h1 h7
  have e0 : (![c, 0, 0, 0, 0, c, 0, 0, 0, 0, c, 0, 0, 0, 0, 1] : mat4 ℚ) 0 = c := rfl
  have e1 : (![c, 0, 0, 0, 0, c, 0, 0, 0, 0, c, 0, 0, 0, 0, 1] : mat4 ℚ) 1 = 0 := rfl
  have e2 : (![c, 0, 0, 0, 0, c, 0, 0, 0, 0, c, 0, 0, 0, 0, 1] : mat4 ℚ) 2 = 0 := rfl
  have e4 : (![c, 0, 0, 0, 0, c, 0, 0, 0, 0, c, 0, 0, 0, 0, 1] : mat4 ℚ) 4 = 0 := rfl
  have e5 : (![c, 0, 0, 0, 0, c, 0, 0, 0, 0, c, 0, 0, 0, 0, 1] : mat4 ℚ) 5 = c := rfl
  have e6 : (![c, 0, 0, 0, 0, c, 0, 0, 0, 0, c, 0, 0, 0, 0, 1] : mat4 ℚ) 6 = 0 := rfl
  have e8 : (![c, 0, 0, 0, 0, c, 0, 0, 0, 0, c, 0, 0, 0, 0, 1] : mat4 ℚ) 8 = 0 := rfl
  have e9 : (![c, 0, 0, 0, 0, c, 0, 0, 0, 0, c, 0, 0, 0, 0, 1] : mat4 ℚ) 9 = 0 := rfl
  have e10 : (![c, 0, 0, 0, 0, c, 0, 0, 0, 0, c, 0, 0, 0, 0, 1] : mat4 ℚ) 10 = c := rfl
  rw [e0, e1, e2] at h1
  rw [e0, e1, e2, e4, e5, e6, e8, e9, e10, vec3.mk.injEq] at h7
  nlinarith [h7.2.2]

/-- In binary32, whatever finite sine and whatever cosine `c` in `[-1, 1]` the library
returns, the matrix `tmp` of `MatRotate` for the axis length `+inf` of `(1e20, 0, 0)` is
`diag(c, c, c, 1)`. -/
theorem MatRotate.tmp_overflowed (sinf cosf : F32 → F32) (M_PI d : F32) (s c : ℚ)
    (hs : sinf (Radians M_PI d) = F32.fin s) (hc : cosf (Radians M_PI d) = F32.fin c)
    (hcb : |c| ≤ 1) (hcr : F32.round c = F32.fin c) :
    MatRotate.tmp sinf cosf M_PI (F32.inf false) d ⟨1e20, 0, 0⟩ =
      ![F32.fin c, 0, 0, 0, 0, F32.fin c, 0, 0, 0, 0, F32.fin c, 0, 0, 0, 0, 1] := by
  obtain ⟨-, -, k3, k4, -⟩ := overflowed_axis_const
  have h3 : |(1 : ℚ) + -c| ≤ (2 : ℚ) ^ (1 : ℤ) + (2 : ℚ) ^ ((1 : ℤ) - 24) := by
    have hb := abs_le.mp hcb
    have : (0 : ℚ) ≤ (2 : ℚ) ^ ((1 : ℤ) - 24) := by positivity
    rw [abs_le]
    constructor <;> norm_num <;> linarith
  obtain ⟨w, hw, -, -, -⟩ := F32.round_bound 1 (by norm_num) (by norm_num) (1 + -c) h3
  funext idx
  rw [MatRotate_tmp_apply, hs, hc]
  dsimp only
  rw [k3, k4, F32.one_sub_fin, hw]
  simp only [F32.mul_fin, F32.add_fin, F32.sub_fin, mul_zero, zero_mul, add_zero, zero_add,
    neg_zero, F32.round_zero, hcr]
  fin_cases idx <;> rfl

/-- C10, as stated, fails in binary32: the finite axis `(1e20, 0, 0)` has the length
`+inf`, which passes the test `len > 1e-4`, and divided by it the axis becomes
`(0, 0, 0)`. For every angle `d` and matrix `m`, whatever finite sine and whatever
cosine `c` in `[-1, 1]` the library returns, `MatRotate` then composes `diag(c, c, c, 1)`
into `m`: the same matrix for every direction of the axis, and a rotation matrix only if
`c = 1`. -/
theorem MatRotate_overflowed_axis :
    VecLength F32.sqrt (⟨1e20, 0, 0⟩ : vec3 F32) = F32.inf false ∧
    VecLength F32.sqrt (⟨1e20, 0, 0⟩ : vec3 F32) > 1e-4 ∧
    (∀ (sinf cosf : F32 → F32) (M_PI d : F32) (m : mat4 F32) (s c : ℚ),
      sinf (Radians M_PI d) = F32.fin s → cosf (Radians M_PI d) = F32.fin c →
      |c| ≤ 1 → F32.round c = F32.fin c →
      MatRotate F32.sqrt sinf cosf M_PI m d ⟨1e20, 0, 0⟩ =
        MatMulMat m ![F32.fin c, 0, 0, 0, 0, F32.fin c, 0, 0, 0, 0, F32.fin c, 0, 0, 0, 0, 1]) ∧
    (∀ c : ℚ, mat4.IsRotation (![c, 0, 0, 0, 0, c, 0, 0, 0, 0, c, 0, 0, 0, 0, 1] : mat4 ℚ) →
      c = 1) := by
  obtain ⟨k1, k2, -, -, -⟩ := overflowed_axis_const
  refine ⟨k1, k2, ?_, diag_rotation⟩
  intro sinf cosf M_PI d m s c hs hc hcb hcr
  unfold MatRotate
  dsimp only
  rw [if_pos k2, k1, MatRotate.tmp_overflowed sinf cosf M_PI d s c hs hc hcb hcr]

/-! ## Claims on the projection, scaling and drawing matrices -/

theorem MatFrustum_tmp_apply (left right bottom top n f : F) (idx : Fin 16) :
    MatFrustum.tmp left right bottom top n f idx =
      if idx = 15 then 0 else if idx = 14 then -(2 * f * n) / (f - n)
      else if idx = 11 then -1 else if idx = 10 then -(f + n) / (f - n)
      else if idx = 9 then (top + bottom) / (top - bottom)
      else if idx = 8 then (right + left) / (right - left)
      else if idx = 5 then (2 * n) / (top - bottom)
      else if idx = 0 then (2 * n) / (right - left) else 0 := by
  simp only [MatFrustum.tmp, mat4.set_apply, mat4.zero]

theorem frustumStandard_apply (left right bottom top n f : F) (idx : Fin 16) :
    frustumStandard left right bottom top n f idx =
      if idx = 15 then 0 else if idx = 14 then -(2 * f * n) / (f - n)
      else if idx = 11 then -1 else if idx = 10 then -(f + n) / (f - n)
      else if idx = 9 then (top + bottom) / (top - bottom)
      else if idx = 8 then (right + left) / (right - left)
      else if idx = 5 then (2 * n) / (top - bottom)
      else if idx = 0 then (2 * n) / (right - left) else 0 := by
  fin_cases idx <;> rfl

theorem MatFrustum.tmp_eq (left right bottom top n f : F) :
    MatFrustum.tmp left right bottom top n f = frustumStandard left right bottom top n f := by
  funext idx
  rw [MatFrustum_tmp_apply, frustumStandard_apply]

/-- C14. `MatFrustum` builds the standard perspective (`glFrustum`) projection and
composes it into `m`: for every `m` and all bounds (those with `left ≠ right`,
`bottom ≠ top`, `n ≠ f` in particular) it leaves `m` equal to `(old m) * P`, the result
of `MatMulMat(m, P)`, where `P[0] = 2n/(right-left)`, `P[5] = 2n/(top-bottom)`,
`P[8] = (right+left)/(right-left)`, `P[9] = (top+bottom)/(top-bottom)`,
`P[10] = -(f+n)/(f-n)`, `P[11] = -1`, `P[14] = -2fn/(f-n)` and every other entry
(`P[15]` included) is 0. -/
theorem MatFrustum_standard (m : mat4 F) (left right bottom top n f : F) :
    MatFrustum m left right bottom top n f =
      MatMulMat m (frustumStandard left right bottom top n f) ∧
    ∀ idx : Fin 16, frustumStandard left right bottom top n f idx =
      if idx = 0 then 2 * n / (right - left) else if idx = 5 then 2 * n / (top - bottom)
      else if idx = 8 then (right + left) / (right - left)
      else if idx = 9 then (top + bottom) / (top - bottom)
      else if idx = 10 then -(f + n) / (f - n) else if idx = 11 then -1
      else if idx = 14 then -2 * f * n / (f - n) else 0 := by
  refine ⟨by rw [MatFrustum, MatFrustum.tmp_eq], fun idx => ?_⟩
  fin_cases idx <;> simp [frustumStandard_apply]

theorem MatScale_apply (m : mat4 F) (v : vec3 F) (idx : Fin 16) :
    MatScale m v idx =
      if idx / 4 = 0 then m idx * v.X else if idx / 4 = 1 then m idx * v.Y
      else if idx / 4 = 2 then m idx * v.Z else m idx := by
  fin_cases idx <;>
    simp only [MatScale, mat4.set_apply, Fin.reduceAdd, Fin.reduceEq, ↓reduceIte,
      Fin.isValue, Fin.reduceMod, Fin.reduceDiv, Fin.reduceMul, Fin.zero_eta, Fin.mk_one,
      Fin.reduceFinMk, zero_add]

theorem scaleMatrix_apply (v : vec3 F) (idx : Fin 16) :
    scaleMatrix v idx =
      if idx = 0 then v.X else if idx = 5 then v.Y else if idx = 10 then v.Z
      else if idx = 15 then 1 else 0 := by
  fin_cases idx <;> rfl

theorem MatScale_eq_product (m : mat4 F) (v : vec3 F) :
    MatScale m v = MatMulMat m (scaleMatrix v) := by
  funext idx
  rw [MatScale_apply, MatMulMat_apply]
  fin_cases idx <;> simp [scaleMatrix_apply]

/-- C15. `MatScale` scales the basis vectors of `m` by the components of `v`: the first
column (entries 0..3) is the old one times `v.X`, the second (4..7) times `v.Y`, the
third (8..11) times `v.Z`, the fourth (12..15, the translation) is unchanged; the result
equals `(old m) * diag(v.X, v.Y, v.Z, 1)` as computed by `MatMulMat`. -/
theorem MatScale_columns (m : mat4 F) (v : vec3 F) :
    (∀ i : Fin 4, MatScale m v (ix i 0) = m (ix i 0) * v.X ∧
      MatScale m v (ix i 1) = m (ix i 1) * v.Y ∧
      MatScale m v (ix i 2) = m (ix i 2) * v.Z ∧
      MatScale m v (ix i 3) = m (ix i 3)) ∧
    MatScale m v = MatMulMat m (scaleMatrix v) := by
  refine ⟨fun i => ?_, MatScale_eq_product m v⟩
  obtain ⟨⟨a0, a1, a2, a3⟩, ⟨b0, b1, b2, b3⟩, ⟨c0, c1, c2, c3⟩, ⟨d0, d1, d2, d3⟩⟩ := ix_table
  fin_cases i <;>
    simp [MatScale_apply, a0, a1, a2, a3, b0, b1, b2, b3, c0, c1, c2, c3, d0, d1, d2, d3]

theorem drawRect_apply (transform : mat4 F) (rect : Rect_t F) (idx : Fin 16) :
    drawRect transform rect idx =
      if idx = 0 then rect.extent0 else if idx = 5 then rect.extent1
      else if idx = 10 then 1 else if idx = 12 then rect.offset0
      else if idx = 13 then rect.offset1 else if idx = 15 then 1 else 0 := by
  simp only [drawRect, MatIdentity_eq]
  rw [MatScale_apply]
  simp only [MatTranslate_apply]
  fin_cases idx <;> simp [iden_apply, V3]

theorem drawRect_mulVec (transform : mat4 F) (rect : Rect_t F) (v : vec3 F) :
    mat4.mulVec (drawRect transform rect) (point v) =
      ![rect.offset0 + rect.extent0 * v.X, rect.offset1 + rect.extent1 * v.Y, v.Z, 1] := by
  rw [mat4.mulVec_point]
  funext i
  fin_cases i <;> simp [drawRect_apply] <;> ring

/-- C19. Single extent convention between rendering and physics: for every `Rect` the
matrix built by `drawRect` has `[0] = extent[0]`, `[5] = extent[1]`, `[10] = 1`,
`[12] = offset[0]`, `[13] = offset[1]`, `[15] = 1` and 0 elsewhere; it maps the four
vertices `(±0.5, ±0.5, 0, 1)` of the unit quad to `(offset[0] ± extent[0]/2,
offset[1] ± extent[1]/2, 0, 1)`. The drawn edges are the edges `simulatePhysics`
compares: the lose tests and the player 1 collision test read on the drawn corners of
the ball and of the paddle. -/
theorem drawRect_extent_convention (transform : mat4 F) (rect : Rect_t F) (s : Game F) :
    (∀ idx : Fin 16, drawRect transform rect idx =
      if idx = 0 then rect.extent0 else if idx = 5 then rect.extent1
      else if idx = 10 then 1 else if idx = 12 then rect.offset0
      else if idx = 13 then rect.offset1 else if idx = 15 then 1 else 0) ∧
    vertices.map (fun v => mat4.mulVec (drawRect transform rect) (point v)) =
      [![rect.offset0 - rect.extent0 / 2, rect.offset1 - rect.extent1 / 2, 0, 1],
       ![rect.offset0 + rect.extent0 / 2, rect.offset1 - rect.extent1 / 2, 0, 1],
       ![rect.offset0 - rect.extent0 / 2, rect.offset1 + rect.extent1 / 2, 0, 1],
       ![rect.offset0 + rect.extent0 / 2, rect.offset1 + rect.extent1 / 2, 0, 1]] ∧
    (player1Loses s ↔
      mat4.mulVec (drawRect transform s.ball) (point ⟨-0.5, -0.5, 0⟩) 0 < -1) ∧
    (player2Loses s ↔
      mat4.mulVec (drawRect transform s.ball) (point ⟨0.5, 0.5, 0⟩) 0 > 1) ∧
    (hitsPlayer1 s ↔
      mat4.mulVec (drawRect transform s.ball) (point ⟨0.5, 0.5, 0⟩) 0 <
        mat4.mulVec (drawRect transform s.player1) (point ⟨0.5, 0.5, 0⟩) 0 ∧
      mat4.mulVec (drawRect transform s.ball) (point ⟨-0.5, -0.5, 0⟩) 0 >
        mat4.mulVec (drawRect transform s.player1) (point ⟨-0.5, -0.5, 0⟩) 0 ∧
      mat4.mulVec (drawRect transform s.ball) (point ⟨0.5, 0.5, 0⟩) 1 <
        mat4.mulVec (drawRect transform s.player1) (point ⟨0.5, 0.5, 0⟩) 1 ∧
      mat4.mulVec (drawRect transform s.ball) (point ⟨0.5, 0.5, 0⟩) 1 >
        mat4.mulVec (drawRect transform s.player1) (point ⟨-0.5, -0.5, 0⟩) 1) := by
  have e1 : ∀ x : F, x * (-0.5) = -(x / 2) := fun x => by norm_num; ring
  have e2 : ∀ x : F, x * 0.5 = x / 2 := fun x => by norm_num; ring
  refine ⟨drawRect_apply transform rect, ?_, ?_, ?_, ?_⟩
  · simp only [vertices, List.map, drawRect_mulVec, e1, e2, sub_eq_add_neg]
  · simp only [player1Loses, drawRect_mulVec, e1, sub_eq_add_neg]
    simp
  · simp only [player2Loses, drawRect_mulVec, e2]
    simp
  · simp only [hitsPlayer1, drawRect_mulVec, e1, e2, sub_eq_add_neg]
    simp

/-! ## Further claims on `simulatePhysics` -/

theorem beforeArena_player1Dp (s : Game F) (delta : F) :
    (loseCondition (afterWalls s delta)).player1Dp = (stepPlayer1 s delta).player1Dp ∧
    (loseCondition (afterWalls s delta)).player1DDp = (stepPlayer1 s delta).player1DDp := by
  simp [loseCondition, afterWalls, ballArena, afterPaddles, motion, stepBall, stepPlayer2]

theorem beforeArena_player2Dp (s : Game F) (delta : F) :
    (loseCondition (afterWalls s delta)).player2Dp = (stepPlayer2 s delta).player2Dp ∧
    (loseCondition (afterWalls s delta)).player2DDp = (stepPlayer2 s delta).player2DDp := by
  simp [loseCondition, afterWalls, ballArena, afterPaddles, motion, stepBall, stepPlayer2,
    stepPlayer1]

/-- C16. Paddle integration step: in the state reached before the wall clamps (after
line 159) each paddle has `acceleration' = acceleration - velocity * damping` (damping 10
for player 1, 5 for player 2), `offset[1]' = offset[1] + velocity*delta +
0.5*acceleration'*delta^2` and `velocity' = velocity + acceleration'*delta`, with the old
velocity and the drag-adjusted acceleration; the wall clamps leave the acceleration
alone; a paddle with velocity 0 and acceleration 0 keeps its position and velocity. -/
theorem simulatePhysics_paddle_integration (s : Game F) (delta : F) :
    ((loseCondition (afterWalls s delta)).player1DDp = s.player1DDp - s.player1Dp * 10 ∧
      (loseCondition (afterWalls s delta)).player1.offset1 =
        s.player1.offset1 + s.player1Dp * delta
          + 0.5 * (s.player1DDp - s.player1Dp * 10) * delta ^ 2 ∧
      (loseCondition (afterWalls s delta)).player1Dp =
        s.player1Dp + (s.player1DDp - s.player1Dp * 10) * delta) ∧
    ((loseCondition (afterWalls s delta)).player2DDp = s.player2DDp - s.player2Dp * 5 ∧
      (loseCondition (afterWalls s delta)).player2.offset1 =
        s.player2.offset1 + s.player2Dp * delta
          + 0.5 * (s.player2DDp - s.player2Dp * 5) * delta ^ 2 ∧
      (loseCondition (afterWalls s delta)).player2Dp =
        s.player2Dp + (s.player2DDp - s.player2Dp * 5) * delta) ∧
    ((simulatePhysics s delta).player1DDp = s.player1DDp - s.player1Dp * 10 ∧
      (simulatePhysics s delta).player2DDp = s.player2DDp - s.player2Dp * 5) ∧
    (s.player1Dp = 0 ∧ s.player1DDp = 0 →
      (loseCondition (afterWalls s delta)).player1.offset1 = s.player1.offset1 ∧
      (loseCondition (afterWalls s delta)).player1Dp = 0) ∧
    (s.player2Dp = 0 ∧ s.player2DDp = 0 →
      (loseCondition (afterWalls s delta)).player2.offset1 = s.player2.offset1 ∧
      (loseCondition (afterWalls s delta)).player2Dp = 0) := by
  obtain ⟨v1, a1⟩ := beforeArena_player1Dp s delta
  obtain ⟨v2, a2⟩ := beforeArena_player2Dp s delta
  have o1 := beforeArena_player1 s delta
  have o2 := beforeArena_player2 s delta
  refine ⟨⟨?_, ?_, ?_⟩, ⟨?_, ?_, ?_⟩, ⟨?_, ?_⟩, ?_, ?_⟩
  · rw [a1]; rfl
  · rw [o1]; simp only [stepPlayer1]; ring
  · rw [v1]; rfl
  · rw [a2]; rfl
  · rw [o2]; simp only [stepPlayer2]; ring
  · rw [v2]; rfl
  · simp only [simulatePhysics, player2Arena_player1DDp, player1Arena_player1DDp, a1]; rfl
  · simp only [simulatePhysics, player2Arena_player2DDp, player1Arena_player2DDp, a2]; rfl
  · rintro ⟨hv, ha⟩
    rw [o1, v1]
    simp [stepPlayer1, hv, ha]
  · rintro ⟨hv, ha⟩
    rw [o2, v2]
    simp [stepPlayer2, hv, ha]

/-- Witness of C16: the two paddles of the scenario are at rest and stay where they are. -/
theorem simulatePhysics_paddle_integration_witness :
    ((loseCondition (afterWalls (scenarioStart : Game ℚ) (1 / 100))).player1.offset1 = 0 ∧
      (loseCondition (afterWalls (scenarioStart : Game ℚ) (1 / 100))).player1Dp = 0) ∧
    ((loseCondition (afterWalls (scenarioStart : Game ℚ) (1 / 100))).player2.offset1 = 0 ∧
      (loseCondition (afterWalls (scenarioStart : Game ℚ) (1 / 100))).player2Dp = 0) :=
  ⟨(simulatePhysics_paddle_integration (scenarioStart : Game ℚ) (1 / 100)).2.2.2.1 ⟨rfl, rfl⟩,
   (simulatePhysics_paddle_integration (scenarioStart : Game ℚ) (1 / 100)).2.2.2.2 ⟨rfl, rfl⟩⟩

theorem collidePlayer1_of_hit (s : Game F) (h : hitsPlayer1 s) :
    collidePlayer1 s = bouncePlayer1 s := by
  simp only [collidePlayer1, if_pos h]

theorem collidePlayer2_of_hit (s : Game F) (h : hitsPlayer2 s) :
    collidePlayer2 s = bouncePlayer2 s := by
  simp only [collidePlayer2, if_pos h]

/-- C17, the code at a failing input: in the scenario with the ball at `-0.94` and
`delta = 1/100` the player 1 test passes and line 121 leaves the ball's centre at `-0.93`,
the paddle face, so the ball's left edge is at `-0.94`, inside the paddle, where a ball
flush against the face has its left edge at `-0.93`. -/
theorem bounce_left_edge_not_on_face :
    hitsPlayer1 (motion (flight (1 / 100 : ℚ) 94) (1 / 100)) ∧
    (collidePlayer1 (motion (flight (1 / 100 : ℚ) 94) (1 / 100))).ball.offset0
        - (collidePlayer1 (motion (flight (1 / 100 : ℚ) 94) (1 / 100))).ball.extent0 / 2 = -0.94 ∧
    (collidePlayer1 (motion (flight (1 / 100 : ℚ) 94) (1 / 100))).player1.offset0
        + (collidePlayer1 (motion (flight (1 / 100 : ℚ) 94) (1 / 100))).player1.extent0 / 2 = -0.93 ∧
    (collidePlayer1 (motion (flight (1 / 100 : ℚ) 94) (1 / 100))).ball.offset0
        - (collidePlayer1 (motion (flight (1 / 100 : ℚ) 94) (1 / 100))).ball.extent0 / 2 ≠
      (collidePlayer1 (motion (flight (1 / 100 : ℚ) 94) (1 / 100))).player1.offset0
        + (collidePlayer1 (motion (flight (1 / 100 : ℚ) 94) (1 / 100))).player1.extent0 / 2 := by
  have hh : hitsPlayer1 (motion (flight (1 / 100 : ℚ) 94) (1 / 100)) := by
    rw [motion_flight]
    norm_num [hitsPlayer1, flight, scenarioStart]
  have e1 : (collidePlayer1 (motion (flight (1 / 100 : ℚ) 94) (1 / 100))).ball.offset0
        - (collidePlayer1 (motion (flight (1 / 100 : ℚ) 94) (1 / 100))).ball.extent0 / 2
        = -0.94 := by
    rw [collidePlayer1_of_hit _ hh, motion_flight]
    norm_num [bouncePlayer1, flight, scenarioStart]
  have e2 : (collidePlayer1 (motion (flight (1 / 100 : ℚ) 94) (1 / 100))).player1.offset0
        + (collidePlayer1 (motion (flight (1 / 100 : ℚ) 94) (1 / 100))).player1.extent0 / 2
        = -0.93 := by
    rw [collidePlayer1_of_hit _ hh, motion_flight]
    norm_num [bouncePlayer1, flight, scenarioStart]
  refine ⟨hh, e1, e2, ?_⟩
  rw [e1, e2]
  norm_num

/-- What lines 121 and 131 do for every state, unlike the other repositionings of the
function (lines 138, 142, 163, 167, 173, 177), which take half the extent into account:
when the player 1 collision test passes, right after that branch the
ball's centre `ball.offset[0]` equals player 1's right face
`player1.offset[0] + player1.extent[0]/2`, so the ball's left edge is half the ball's
width inside that face; when the player 2 test passes, the ball's centre equals
player 2's left face `player2.offset[0] - player2.extent[0]/2`, so its right edge is
half the ball's width inside that face. -/
theorem bounce_centre_on_face (s : Game F) (delta : F) :
    (hitsPlayer1 (motion s delta) →
      (collidePlayer1 (motion s delta)).ball.offset0 =
        (collidePlayer1 (motion s delta)).player1.offset0
          + (collidePlayer1 (motion s delta)).player1.extent0 / 2 ∧
      (collidePlayer1 (motion s delta)).ball.offset0
          - (collidePlayer1 (motion s delta)).ball.extent0 / 2 =
        (collidePlayer1 (motion s delta)).player1.offset0
          + (collidePlayer1 (motion s delta)).player1.extent0 / 2
          - (collidePlayer1 (motion s delta)).ball.extent0 / 2) ∧
    (hitsPlayer2 (collidePlayer1 (motion s delta)) →
      (afterPaddles s delta).ball.offset0 =
        (afterPaddles s delta).player2.offset0 - (afterPaddles s delta).player2.extent0 / 2 ∧
      (afterPaddles s delta).ball.offset0 + (afterPaddles s delta).ball.extent0 / 2 =
        (afterPaddles s delta).player2.offset0 - (afterPaddles s delta).player2.extent0 / 2
          + (afterPaddles s delta).ball.extent0 / 2) := by
  refine ⟨fun h => ?_, fun h => ?_⟩
  · rw [collidePlayer1_of_hit _ h]
    exact ⟨rfl, rfl⟩
  · rw [afterPaddles, collidePlayer2_of_hit _ h]
    exact ⟨rfl, rfl⟩

/-- The two branches at concrete inputs: the ball of `flight (1/100) 94` bounces on
player 1 and ends with its centre at `-0.93`; the ball of `nearPlayer2` bounces on
player 2 and ends with its centre at `0.93`. -/
theorem bounce_centre_on_face_witness :
    (collidePlayer1 (motion (flight (1 / 100 : ℚ) 94) (1 / 100))).ball.offset0 = -0.93 ∧
    (afterPaddles nearPlayer2 (1 / 100)).ball.offset0 = 0.93 :=
  ⟨((bounce_centre_on_face (flight (1 / 100 : ℚ) 94) (1 / 100)).1 (by
      rw [motion_flight]
      norm_num [hitsPlayer1, flight, scenarioStart])).1.trans (by
      simp only [collidePlayer1_player1]
      norm_num [motion, stepBall, stepPlayer2, stepPlayer1, flight, scenarioStart]),
   ((bounce_centre_on_face nearPlayer2 (1 / 100)).2 (by
      norm_num [hitsPlayer2, hitsPlayer1, collidePlayer1, motion, stepBall, stepPlayer2,
        stepPlayer1, nearPlayer2, scenarioStart])).1.trans (by
      simp only [afterPaddles, collidePlayer2_player2, collidePlayer1_player2]
      norm_num [motion, stepBall, stepPlayer2, stepPlayer1, nearPlayer2, scenarioStart])⟩

theorem ballArena_top (s : Game F) (h2 : s.ball.extent1 ≤ 2)
    (h : s.ball.offset1 + s.ball.extent1 / 2 > 1) :
    ballArena s =
      { s with ball := { s.ball with offset1 := 1 - s.ball.extent1 / 2 },
               ballDY := s.ballDY * (-1) } := by
  unfold ballArena
  rw [ballArenaTop, if_pos h, ballArenaBottom, if_neg]
  dsimp only
  linarith

theorem ballArena_bottom (s : Game F) (h2 : s.ball.extent1 ≤ 2)
    (h : s.ball.offset1 - s.ball.extent1 / 2 < -1) :
    ballArena s =
      { s with ball := { s.ball with offset1 := -1 + s.ball.extent1 / 2 },
               ballDY := s.ballDY * (-1) } := by
  unfold ballArena
  rw [ballArenaTop, if_neg (by linarith), ballArenaBottom, if_pos h]

theorem ballArena_inside (s : Game F) (ht : ¬ s.ball.offset1 + s.ball.extent1 / 2 > 1)
    (hb : ¬ s.ball.offset1 - s.ball.extent1 / 2 < -1) : ballArena s = s := by
  unfold ballArena
  rw [ballArenaTop, if_neg ht, ballArenaBottom, if_neg hb]

/-- C18. Elastic wall bounce of the ball: when the ball's vertical extent `e` is between
0 and 2 and, after the motion and paddle-collision steps, its top edge
`offset[1] + e/2` is above 1 (respectively its bottom edge `offset[1] - e/2` is below
-1), the wall step sets `ball.offset[1]` to `1 - e/2` (respectively `-1 + e/2`),
replaces `ballDY` by its negation, of the same magnitude, and leaves `ballDX` and
`ball.offset[0]` unchanged; when neither edge is outside `[-1, 1]` the wall step changes
nothing. -/
theorem ballArena_elastic (s : Game F) (delta : F)
    (he : 0 ≤ s.ball.extent1 ∧ s.ball.extent1 ≤ 2) :
    ((afterPaddles s delta).ball.offset1 + s.ball.extent1 / 2 > 1 →
      (afterWalls s delta).ball.offset1 = 1 - s.ball.extent1 / 2 ∧
      (afterWalls s delta).ballDY = -(afterPaddles s delta).ballDY ∧
      |(afterWalls s delta).ballDY| = |(afterPaddles s delta).ballDY| ∧
      (afterWalls s delta).ballDX = (afterPaddles s delta).ballDX ∧
      (afterWalls s delta).ball.offset0 = (afterPaddles s delta).ball.offset0) ∧
    ((afterPaddles s delta).ball.offset1 - s.ball.extent1 / 2 < -1 →
      (afterWalls s delta).ball.offset1 = -1 + s.ball.extent1 / 2 ∧
      (afterWalls s delta).ballDY = -(afterPaddles s delta).ballDY ∧
      |(afterWalls s delta).ballDY| = |(afterPaddles s delta).ballDY| ∧
      (afterWalls s delta).ballDX = (afterPaddles s delta).ballDX ∧
      (afterWalls s delta).ball.offset0 = (afterPaddles s delta).ball.offset0) ∧
    (¬ (afterPaddles s delta).ball.offset1 + s.ball.extent1 / 2 > 1 →
      ¬ (afterPaddles s delta).ball.offset1 - s.ball.extent1 / 2 < -1 →
      afterWalls s delta = afterPaddles s delta) := by
  have hx := afterPaddles_ball_extent1 s delta
  have h2 : (afterPaddles s delta).ball.extent1 ≤ 2 := by rw [hx]; exact he.2
  refine ⟨fun h => ?_, fun h => ?_, fun ht hb => ?_⟩
  · rw [← hx] at h
    rw [afterWalls, ballArena_top _ h2 h, hx]
    refine ⟨rfl, by dsimp only; ring, by dsimp only; rw [mul_neg_one, abs_neg], rfl, rfl⟩
  · rw [← hx] at h
    rw [afterWalls, ballArena_bottom _ h2 h, hx]
    refine ⟨rfl, by dsimp only; ring, by dsimp only; rw [mul_neg_one, abs_neg], rfl, rfl⟩
  · rw [← hx] at ht hb
    exact ballArena_inside _ ht hb

/-- Witness of C18: the ball of `edgeStart` crosses the top wall, the ball of `lowBall`
the bottom wall, the ball of the scenario neither. -/
theorem ballArena_elastic_witness :
    ((afterWalls edgeStart (1 / 10)).ball.offset1 = 1 - 0.04 / 2 ∧
      (afterWalls edgeStart (1 / 10)).ballDY = -1) ∧
    ((afterWalls lowBall (1 / 10)).ball.offset1 = -1 + 0.04 / 2 ∧
      (afterWalls lowBall (1 / 10)).ballDY = 1) ∧
    afterWalls (scenarioStart : Game ℚ) (1 / 100) = afterPaddles scenarioStart (1 / 100) :=
  have t := (ballArena_elastic edgeStart (1 / 10) (by norm_num [edgeStart])).1 (by
    norm_num [afterPaddles, collidePlayer2, collidePlayer1, hitsPlayer1, hitsPlayer2, motion,
      stepBall, stepPlayer2, stepPlayer1, edgeStart])
  have b := (ballArena_elastic lowBall (1 / 10) (by norm_num [lowBall, scenarioStart])).2.1 (by
    norm_num [afterPaddles, collidePlayer2, collidePlayer1, hitsPlayer1, hitsPlayer2, motion,
      stepBall, stepPlayer2, stepPlayer1, lowBall, scenarioStart])
  have n := (ballArena_elastic (scenarioStart : Game ℚ) (1 / 100)
      (by norm_num [scenarioStart])).2.2
    (by
      norm_num [afterPaddles, collidePlayer2, collidePlayer1, hitsPlayer1, hitsPlayer2, motion,
        stepBall, stepPlayer2, stepPlayer1, scenarioStart])
    (by
      norm_num [afterPaddles, collidePlayer2, collidePlayer1, hitsPlayer1, hitsPlayer2, motion,
        stepBall, stepPlayer2, stepPlayer1, scenarioStart])
  ⟨⟨t.1, t.2.1.trans (by
      norm_num [afterPaddles, collidePlayer2, collidePlayer1, hitsPlayer1, hitsPlayer2, motion,
        stepBall, stepPlayer2, stepPlayer1, edgeStart])⟩,
   ⟨b.1, b.2.1.trans (by
      norm_num [afterPaddles, collidePlayer2, collidePlayer1, hitsPlayer1, hitsPlayer2, motion,
        stepBall, stepPlayer2, stepPlayer1, lowBall, scenarioStart])⟩, n⟩

theorem loseCondition_cases (s : Game F) :
    (¬ player1Loses s ∧ ¬ player2Loses s ∧ loseCondition s = s) ∨
    ((player1Loses s ∨ player2Loses s) ∧ loseCondition s = resetBall s) := by
  by_cases h1 : player1Loses s
  · exact Or.inr ⟨Or.inl h1, loseCondition_of_exit s (Or.inl h1)⟩
  · by_cases h2 : player2Loses s
    · exact Or.inr ⟨Or.inr h2, loseCondition_of_exit s (Or.inr h2)⟩
    · refine Or.inl ⟨h1, h2, ?_⟩
      simp only [loseCondition, player1Lose, if_neg h1, player2Lose, if_neg h2]

/-- C20. Horizontal containment of the ball: for every pre-state (any positions,
extents, velocities) and every delta, after `simulatePhysics` the ball satisfies
`offset[0] - extent[0]/2 >= -1` and `offset[0] + extent[0]/2 <= 1`: either neither lose
test passed and the ball is the one the wall step left, or the ball was reset to offset
(0,0) with extent (0.02,0.04). -/
theorem simulatePhysics_ball_inside (s : Game F) (delta : F) :
    (simulatePhysics s delta).ball.offset0 - (simulatePhysics s delta).ball.extent0 / 2 ≥ -1 ∧
    (simulatePhysics s delta).ball.offset0 + (simulatePhysics s delta).ball.extent0 / 2 ≤ 1 ∧
    ((¬ player1Loses (afterWalls s delta) ∧ ¬ player2Loses (afterWalls s delta) ∧
        (simulatePhysics s delta).ball = (afterWalls s delta).ball) ∨
      (simulatePhysics s delta).ball = ⟨0, 0, 0.02, 0.04⟩) := by
  have hb : (simulatePhysics s delta).ball = (loseCondition (afterWalls s delta)).ball := by
    simp only [simulatePhysics, player2Arena_ball, player1Arena_ball]
  rw [hb]
  rcases loseCondition_cases (afterWalls s delta) with ⟨h1, h2, e⟩ | ⟨-, e⟩
  · rw [e]
    simp only [player1Loses, player2Loses] at h1 h2
    exact ⟨by linarith, by linarith, Or.inl ⟨h1, h2, rfl⟩⟩
  · rw [e]
    refine ⟨?_, ?_, Or.inr rfl⟩ <;> simp only [resetBall, ballReset] <;> norm_num

/-! ## Remaining claims: `MatOrtho` on centred bounds, tunnelling -/

theorem MatOrtho.tmp_centred (left right bottom top n f : F) (h : left = -right) :
    MatOrtho.tmp left right bottom top n f = orthoStandard left right bottom top n f := by
  funext idx
  by_cases h12 : idx = 12
  · rw [MatOrtho.tmp_apply, orthoStandard_apply]
    subst h12
    have hs : right + left = 0 := by rw [h]; ring
    simp [hs]
  · exact MatOrtho.tmp_off12 left right bottom top n f idx h12

/-- C21. Symmetric-bounds agreement of `MatOrtho`: for every matrix `m` and all bounds
with `left = -right` and `left ≠ 0` (whatever `bottom`, `top`, `n`, `f` are, those with
`bottom ≠ top` and `n ≠ f` included), `MatOrtho` leaves in `m` the product `(old m) * P`
with the standard orthographic matrix `P`; the divisor `right / left` of the code is
`-1`, and the code's entry 12 and the standard entry 12 are both 0. -/
theorem MatOrtho_centred (m : mat4 F) (left right bottom top n f : F)
    (hc : left = -right) (h0 : left ≠ 0) :
    MatOrtho m left right bottom top n f =
      MatMulMat m (orthoStandard left right bottom top n f) ∧
    right / left = -1 ∧
    MatOrtho.tmp left right bottom top n f 12 = 0 ∧
    orthoStandard left right bottom top n f 12 = 0 := by
  have ht := MatOrtho.tmp_centred left right bottom top n f hc
  have hs : right + left = 0 := by rw [hc]; ring
  have h12 : orthoStandard left right bottom top n f 12 = 0 := by
    rw [orthoStandard_apply]
    simp [hs]
  refine ⟨by rw [MatOrtho, ht], ?_, by rw [ht, h12], h12⟩
  have hr : right = -left := by rw [hc]; ring
  rw [hr, neg_div, div_self h0]

/-- Witness of C21: the bounds `left = -2`, `right = 2` on the identity matrix. -/
theorem MatOrtho_centred_witness :
    ((-2 : ℚ) = -2 ∧ (-2 : ℚ) ≠ 0) ∧
    MatOrtho (iden : mat4 ℚ) (-2) 2 (-1) 1 (-1) 1 =
      MatMulMat iden (orthoStandard (-2) 2 (-1) 1 (-1) 1) ∧
    MatOrtho.tmp (-2 : ℚ) 2 (-1) 1 (-1) 1 12 = 0 :=
  have h := MatOrtho_centred (iden : mat4 ℚ) (-2) 2 (-1) 1 (-1) 1 rfl (by norm_num)
  ⟨⟨rfl, by norm_num⟩, h.1, h.2.2.1⟩

theorem flight_pass (delta : F) (k : Nat) (h0 : 0 ≤ delta)
    (hw : ((k : F) + 1) * delta ≤ 0.94 ∨ 0.96 ≤ ((k : F) + 1) * delta)
    (h : ((k : F) + 1) * delta ≤ 0.99) :
    simulatePhysics (flight delta k) delta = flight delta (k + 1) ∧
    ¬ takesPlayer1Branch (flight delta k) delta ∧ ¬ resetsBall (flight delta k) delta := by
  have hk : (0 : F) ≤ ((k : F) + 1) * delta := by positivity
  have hm := motion_flight delta k
  have h1 : ¬ hitsPlayer1 (flight delta (k + 1)) := by
    simp only [hitsPlayer1, flight, scenarioStart]
    rintro ⟨a, b, -⟩
    norm_num at a b hw
    rcases hw with hw | hw <;> linarith
  have h2 : ¬ hitsPlayer2 (flight delta (k + 1)) := by
    simp only [hitsPlayer2, flight, scenarioStart]
    rintro ⟨-, a, -⟩
    norm_num at a
    linarith
  have hp : afterPaddles (flight delta k) delta = flight delta (k + 1) := by
    simp only [afterPaddles, hm, collidePlayer1, if_neg h1, collidePlayer2, if_neg h2]
  have hwl : afterWalls (flight delta k) delta = flight delta (k + 1) := by
    simp only [afterWalls, hp, ballArena, ballArenaTop, ballArenaBottom]
    norm_num [flight, scenarioStart]
  have l1 : ¬ player1Loses (flight delta (k + 1)) := by
    simp only [player1Loses, flight, scenarioStart]
    intro a
    norm_num at a h
    linarith
  have l2 : ¬ player2Loses (flight delta (k + 1)) := by
    simp only [player2Loses, flight, scenarioStart]
    intro a
    norm_num at a
    linarith
  refine ⟨?_, ?_, ?_⟩
  · simp only [simulatePhysics, hwl, loseCondition, player1Lose, if_neg l1, player2Lose,
      if_neg l2]
    simp only [player1Arena, player2Arena]
    norm_num [flight, scenarioStart]
  · simpa only [takesPlayer1Branch, hm] using h1
  · simp only [resetsBall, hwl, player1Lose, if_neg l1]
    exact fun a => a.elim l1 l2

theorem flight_exit (delta : F) (k : Nat) (h : 0.99 < ((k : F) + 1) * delta) :
    simulatePhysics (flight delta k) delta = scenarioStart ∧
    ¬ takesPlayer1Branch (flight delta k) delta ∧
    player1Loses (afterWalls (flight delta k) delta) ∧ resetsBall (flight delta k) delta := by
  have hm := motion_flight delta k
  have h1 : ¬ hitsPlayer1 (flight delta (k + 1)) := by
    simp only [hitsPlayer1, flight, scenarioStart]
    rintro ⟨-, b, -⟩
    norm_num at b h
    linarith
  have h2 : ¬ hitsPlayer2 (flight delta (k + 1)) := by
    simp only [hitsPlayer2, flight, scenarioStart]
    rintro ⟨-, a, -⟩
    norm_num at a h
    linarith
  have hp : afterPaddles (flight delta k) delta = flight delta (k + 1) := by
    simp only [afterPaddles, hm, collidePlayer1, if_neg h1, collidePlayer2, if_neg h2]
  have hwl : afterWalls (flight delta k) delta = flight delta (k + 1) := by
    simp only [afterWalls, hp, ballArena, ballArenaTop, ballArenaBottom]
    norm_num [flight, scenarioStart]
  have l1 : player1Loses (flight delta (k + 1)) := by
    simp only [player1Loses, flight, scenarioStart]
    norm_num at h ⊢
    linarith
  refine ⟨?_, ?_, ?_, ?_⟩
  · simp only [simulatePhysics, hwl, loseCondition_of_exit _ (Or.inl l1)]
    simp only [player1Arena, player2Arena, resetBall, ballReset]
    norm_num [flight, scenarioStart]
  · simpa only [takesPlayer1Branch, hm] using h1
  · rw [hwl]; exact l1
  · exact Or.inl (by rw [hwl]; exact l1)

theorem flight_zero (delta : F) : flight delta 0 = scenarioStart := by
  simp only [flight, scenarioStart]
  ext <;> simp

theorem tunnel_step (j : Nat) (hj : j < 14) :
    simulatePhysics (flight (0.07 : F) j) 0.07 = flight 0.07 (j + 1) ∧
    ¬ takesPlayer1Branch (flight (0.07 : F) j) 0.07 ∧ ¬ resetsBall (flight (0.07 : F) j) 0.07 := by
  apply flight_pass (0.07 : F) j (by norm_num)
  · interval_cases j <;> norm_num
  · interval_cases j <;> norm_num

theorem tunnel_exit :
    simulatePhysics (flight (0.07 : F) 14) 0.07 = scenarioStart ∧
    ¬ takesPlayer1Branch (flight (0.07 : F) 14) 0.07 ∧
    player1Loses (afterWalls (flight (0.07 : F) 14) 0.07) ∧
    resetsBall (flight (0.07 : F) 14) 0.07 :=
  flight_exit (0.07 : F) 14 (by norm_num)

theorem tunnel_state (k : Nat) :
    simulateN (scenarioStart : Game F) 0.07 k = flight 0.07 (k % 15) := by
  induction k with
  | zero => exact (flight_zero _).symm
  | succ k ih =>
    rw [simulateN, ih]
    have hlt : k % 15 < 15 := Nat.mod_lt k (by decide)
    by_cases h : k % 15 < 14
    · rw [(tunnel_step (k % 15) h).1]
      congr 1
      omega
    · have e : k % 15 = 14 := by omega
      have e' : (k + 1) % 15 = 0 := by omega
      rw [e, e', tunnel_exit.1, flight_zero]

theorem tunnel_window (j : Nat) (hj : j < 15) :
    ¬ (-0.96 < (motion (flight (0.07 : F) j) 0.07).ball.offset0 ∧
       (motion (flight (0.07 : F) j) 0.07).ball.offset0 < -0.94) := by
  rw [motion_flight]
  simp only [flight]
  rintro ⟨a, b⟩
  interval_cases j <;> norm_num at a b

/-- C22. Tunnelling at large time steps: with the step size `delta = 0.07`, starting from
`scenarioStart` (ball at (0,0) with extent (0.02,0.04) and velocity (-1,0), paddles at
(-0.95,0) and (0.95,0) with extent (0.04,0.65), at rest), no step of the repeated
`simulatePhysics(delta)` ever takes the player 1 collision branch and `ballDX` is -1
after every step. The first 14 steps do not reset the ball; in the 15th the ball's left
edge is below -1, the ball is reset and the state is the starting one again. Player 1
stays where it is, the ball stays at height 0, and its centre goes from `-0.91` (right
of the paddle) to `-0.98` (left of it) in one step: after the motion of a step it is
never inside the open window `(-0.96, -0.94)` where the collision test can pass. -/
theorem tunnelling :
    (∀ k, ¬ takesPlayer1Branch (simulateN (scenarioStart : Game F) 0.07 k) 0.07) ∧
    (∀ k, (simulateN (scenarioStart : Game F) 0.07 k).ballDX = -1) ∧
    (∀ k, k < 14 → ¬ resetsBall (simulateN (scenarioStart : Game F) 0.07 k) 0.07) ∧
    player1Loses (afterWalls (simulateN (scenarioStart : Game F) 0.07 14) 0.07) ∧
    resetsBall (simulateN (scenarioStart : Game F) 0.07 14) 0.07 ∧
    simulateN (scenarioStart : Game F) 0.07 15 = scenarioStart ∧
    (∀ k, (simulateN (scenarioStart : Game F) 0.07 k).player1 = ⟨-0.95, 0, 0.04, 0.65⟩ ∧
      (simulateN (scenarioStart : Game F) 0.07 k).ball.offset1 = 0) ∧
    ((simulateN (scenarioStart : Game F) 0.07 13).ball.offset0 = -0.91 ∧
      (simulateN (scenarioStart : Game F) 0.07 14).ball.offset0 = -0.98) ∧
    (∀ k, ¬ (-0.96 < (motion (simulateN (scenarioStart : Game F) 0.07 k) 0.07).ball.offset0 ∧
      (motion (simulateN (scenarioStart : Game F) 0.07 k) 0.07).ball.offset0 < -0.94)) := by
  have hlt : ∀ k : Nat, k % 15 < 15 := fun k => Nat.mod_lt k (by decide)
  refine ⟨fun k => ?_, fun k => ?_, fun k hk => ?_, ?_, ?_, ?_, fun k => ?_, ⟨?_, ?_⟩,
    fun k => ?_⟩
  · rw [tunnel_state]
    by_cases h : k % 15 < 14
    · exact (tunnel_step (k % 15) h).2.1
    · have e : k % 15 = 14 := by have := hlt k; omega
      rw [e]
      exact tunnel_exit.2.1
  · rw [tunnel_state]; rfl
  · rw [tunnel_state, Nat.mod_eq_of_lt (by omega)]
    exact (tunnel_step k hk).2.2
  · rw [tunnel_state]; exact tunnel_exit.2.2.1
  · rw [tunnel_state]; exact tunnel_exit.2.2.2
  · rw [tunnel_state]; exact flight_zero _
  · rw [tunnel_state]; exact ⟨rfl, rfl⟩
  · rw [tunnel_state]
    simp only [flight]
    norm_num
  · rw [tunnel_state]
    simp only [flight]
    norm_num
  · rw [tunnel_state]
    exact tunnel_window (k % 15) (hlt k)

/-- Witness of C22 over the rationals: the 14th step (from the ball at `-0.91` to
`-0.98`) takes no collision branch and resets nothing, and `ballDX` is -1 after 30
steps. -/
theorem tunnelling_witness :
    ¬ takesPlayer1Branch (simulateN (scenarioStart : Game ℚ) 0.07 13) 0.07 ∧
    ¬ resetsBall (simulateN (scenarioStart : Game ℚ) 0.07 13) 0.07 ∧
    (simulateN (scenarioStart : Game ℚ) 0.07 30).ballDX = -1 :=
  ⟨tunnelling.1 13, tunnelling.2.2.1 13 (by decide), tunnelling.2.1 30⟩

end Pong
